import Mathlib

/-!
Verification of the rustdoc JSON model (`src/rustdoc.ts`) and of the
decode/validate/resolve layer described by the specification.

The data model below is a direct embedding of the TypeScript declarations in
`src/rustdoc.ts`; constructor and field names follow the source (the TS union
`Type` is embedded as `Ty` because `Type` is a Lean keyword, the `Header`
field `unsafe` is embedded as `isUnsafe` for the same reason, and `Impl.for`
is embedded as `«for»`).
-/

set_option maxHeartbeats 4000000

namespace Rustdoc

/-- `export const FORMAT_VERSION = 17` (src/rustdoc.ts line 9). -/
def FORMAT_VERSION : Int := 17

/-- `export type Id = string` — unique item id. -/
abbrev Id := String

/-- `export type CrUid = number` — unique crate id (a small nonnegative integer). -/
abbrev CrUid := Nat

/-- `export interface ExternalCrate { name, html_root_url? }`. -/
structure ExternalCrate where
  name : String
  html_root_url : Option String
deriving DecidableEq

/-- `export enum ItemKind` — closed enumeration of 25 item kinds. -/
inductive ItemKind
  | Module
  | ExternCrate
  | Import
  | Struct
  | StructField
  | Union
  | Enum
  | Variant
  | Function
  | Typedef
  | OpaqueTy
  | Constant
  | Trait
  | TraitAlias
  | Method
  | Impl
  | Static
  | ForeignType
  | Macro
  | ProcAttribute
  | ProcDerive
  | AssocConst
  | AssocType
  | Primitive
  | Keyword
deriving DecidableEq

/-- `export interface ItemSummary { crate_id, path, kind }`. -/
structure ItemSummary where
  crate_id : CrUid
  path : List String
  kind : ItemKind
deriving DecidableEq

/-- `export interface Span { filename, begin, end }` (begin/end are
zero-indexed line/column pairs). -/
structure Span where
  filename : String
  begin_ : Int × Int
  end_ : Int × Int
deriving DecidableEq

/-- `export interface Deprecation { since?, note? }`. -/
structure Deprecation where
  since : Option String
  note : Option String
deriving DecidableEq

/-- `export type Visibility = VisPublic | VisDefault | VisCrate | VisRestricted`
with tags 'Public' / 'Default' / 'Crate' / 'Restricted'. -/
inductive Visibility
  | VisPublic
  | VisDefault
  | VisCrate
  | VisRestricted (parent : Id) (path : String)
deriving DecidableEq

/-- `export enum StructType { Plain, Tuple, Unit }`. -/
inductive StructType
  | Plain
  | Tuple
  | Unit
deriving DecidableEq

/-- `export enum TraitBoundModifier { None, Maybe, MaybeConst }`. -/
inductive TraitBoundModifier
  | None
  | Maybe
  | MaybeConst
deriving DecidableEq

/-- `export enum MacroKind { Bang, Attr, Derive }`. -/
inductive MacroKind
  | Bang
  | Attr
  | Derive
deriving DecidableEq

/-- `export type Abi` — ten ABI variants; all but `Rust` and `Other` carry
an `unwind` flag, `Other` carries the ABI string. -/
inductive Abi
  | AbiRust
  | AbiC (unwind : Bool)
  | AbiCdecl (unwind : Bool)
  | AbiStdcall (unwind : Bool)
  | AbiFastcall (unwind : Bool)
  | AbiAapcs (unwind : Bool)
  | AbiWin64 (unwind : Bool)
  | AbiSysV64 (unwind : Bool)
  | AbiSystem (unwind : Bool)
  | AbiOther (val : String)
deriving DecidableEq

/-- `export interface Header { const, unsafe, async, abi }`; the source field
`unsafe` is a Lean keyword and is embedded as `isUnsafe`. -/
structure Header where
  const : Bool
  isUnsafe : Bool
  async : Bool
  abi : Abi
deriving DecidableEq

mutual

/-- `export type Type` (embedded as `Ty`; `Type` is a Lean keyword) — the
closed, recursively defined union of 13 type-expression variants
(src/rustdoc.ts lines 650-663). -/
inductive Ty
  | TyResolvedPath (name : String) (id : Id) (args : Option GenericArgs)
      (param_names : List GenericBound)
  | TyDynTrait (val : DynTrait)
  | TyGeneric (val : String)
  | TyPrimitive (val : String)
  | TyFunctionPtr (val : FnPtr)
  | TyTuple (val : List Ty)
  | TySlice (val : Ty)
  | TyArray (type : Ty) (len : String)
  | TyImplTrait (val : List GenericBound)
  | TyInfer
  | TyRawPointer (mutable : Bool) (type : Ty)
  | TyBorrowedRef (lifetime : Option String) (mutable : Bool) (type : Ty)
  | TyQualifiedPath (name : String) (args : GenericArgs) (self_type : Ty)
      (trait : Ty)

/-- `export interface DynTrait { traits, lifetime? }`. -/
inductive DynTrait
  | mk (traits : List PolyTrait) (lifetime : Option String)

/-- `export interface PolyTrait { trait, generic_params }`. -/
inductive PolyTrait
  | mk (trait : Ty) (generic_params : List GenericParamDef)

/-- `export type GenericArgs = GAsAngleBracketed | GAsParenthesized`. -/
inductive GenericArgs
  | GAsAngleBracketed (args : List GenericArg) (bindings : List TypeBinding)
  | GAsParenthesized (inputs : List Ty) (output : Option Ty)

/-- `export type GenericArg = GALifetime | GAType | GAConst | GAInfer`. -/
inductive GenericArg
  | GALifetime (val : String)
  | GAType (val : Ty)
  | GAConst (val : Constant)
  | GAInfer

/-- `export interface Constant { type, expr, value?, is_literal }`. -/
inductive Constant
  | mk (type : Ty) (expr : String) (value : Option String) (is_literal : Bool)

/-- `export interface TypeBinding { name, args, binding }`. -/
inductive TypeBinding
  | mk (name : String) (args : GenericArgs) (binding : TypeBindingKind)

/-- `export type TypeBindingKind = TBKEquality | TBKConstraint`. -/
inductive TypeBindingKind
  | TBKEquality (val : Term)
  | TBKConstraint (val : List GenericBound)

/-- `export type Term = TrType | TrConstant`. -/
inductive Term
  | TrType (val : Ty)
  | TrConstant (val : Constant)

/-- `export type GenericBound = GBTraitBound | GBOutlives`. -/
inductive GenericBound
  | GBTraitBound (trait : Ty) (generic_params : List GenericParamDef)
      (modifier : TraitBoundModifier)
  | GBOutlives (val : String)

/-- `export interface GenericParamDef { name, kind }`. -/
inductive GenericParamDef
  | mk (name : String) (kind : GenericParamDefKind)

/-- `export type GenericParamDefKind = GPDKLifetime | GPDKType | GPDKConst`. -/
inductive GenericParamDefKind
  | GPDKLifetime (outlives : List String)
  | GPDKType (bounds : List GenericBound) (default : Option Ty)
      (synthetic : Bool)
  | GPDKConst (type : Ty) (default : Option String)

/-- `export type WherePredicate = WPBoundPredicate | WPRegionPredicate |
WPEqPredicate`. -/
inductive WherePredicate
  | WPBoundPredicate (type : Ty) (bounds : List GenericBound)
      (generic_params : List GenericParamDef)
  | WPRegionPredicate (lifetime : String) (bounds : List GenericBound)
  | WPEqPredicate (lhs : Ty) (rhs : Term)

/-- `export interface Generics { params, where_predicates }`. -/
inductive Generics
  | mk (params : List GenericParamDef) (where_predicates : List WherePredicate)

/-- `export interface FnPtr { decl, generic_params, header }`. -/
inductive FnPtr
  | mk (decl : FnDecl) (generic_params : List GenericParamDef) (header : Header)

/-- `export interface FnDecl { inputs, output?, c_variadic }`. -/
inductive FnDecl
  | mk (inputs : List (String × Ty)) (output : Option Ty) (c_variadic : Bool)

end

/-- Accessor: the `inputs` field of `FnDecl`. -/
def FnDecl.inputs : FnDecl → List (String × Ty)
  | .mk inputs _ _ => inputs

/-- Accessor: the `output` field of `FnDecl`. -/
def FnDecl.output : FnDecl → Option Ty
  | .mk _ output _ => output

/-- Accessor: the `traits` field of `DynTrait`. -/
def DynTrait.traits : DynTrait → List PolyTrait
  | .mk traits _ => traits

/-- Accessor: the `decl` field of `FnPtr`. -/
def FnPtr.decl : FnPtr → FnDecl
  | .mk decl _ _ => decl

/-- `export interface Module { is_crate, items, is_stripped }`. -/
structure Module where
  is_crate : Bool
  items : List Id
  is_stripped : Bool

/-- `export interface Union { generics, fields_stripped, fields, impls }`. -/
structure Union where
  generics : Generics
  fields_stripped : Bool
  fields : List Id
  impls : List Id

/-- `export interface Struct { struct_type, generics, fields_stripped,
fields, impls }` (src/rustdoc.ts lines 348-354). -/
structure Struct where
  struct_type : StructType
  generics : Generics
  fields_stripped : Bool
  fields : List Id
  impls : List Id

/-- `export interface Enum { generics, variants_stripped, variants, impls }`. -/
structure Enum where
  generics : Generics
  variants_stripped : Bool
  variants : List Id
  impls : List Id

/-- `export type Variant = VPlain | VTuple | VStruct` with tags
'Plain' / 'Tuple' / 'Struct'. -/
inductive Variant
  | VPlain
  | VTuple (val : List Ty)
  | VStruct (val : List Id)

/-- `export interface Fn { decl, generics, header }`. -/
structure Fn where
  decl : FnDecl
  generics : Generics
  header : Header

/-- `export interface Method { decl, generics, header, has_body }`. -/
structure Method where
  decl : FnDecl
  generics : Generics
  header : Header
  has_body : Bool

/-- `export interface Trait { is_auto, isUnsafe, items, generics, bounds,
implementations }`. -/
structure Trait where
  is_auto : Bool
  isUnsafe : Bool
  items : List Id
  generics : Generics
  bounds : List GenericBound
  implementations : List Id

/-- `export interface TraitAlias { generics, params }`. -/
structure TraitAlias where
  generics : Generics
  params : List GenericBound

/-- `export interface Impl { isUnsafe, generics, provided_trait_methods,
trait?, for, items, negative, synthetic, blanket_impl? }`
(src/rustdoc.ts lines 694-704); the source field `for` is a Lean keyword and
is embedded as `«for»`. -/
structure Impl where
  isUnsafe : Bool
  generics : Generics
  provided_trait_methods : List String
  trait : Option Ty
  «for» : Ty
  items : List Id
  negative : Bool
  synthetic : Bool
  blanket_impl : Option Ty

/-- `export interface Import { source, name, id?, glob }`. -/
structure Import where
  source : String
  name : String
  id : Option Id
  glob : Bool

/-- `export interface ProcMacro { kind, helpers }`. -/
structure ProcMacro where
  kind : MacroKind
  helpers : List String

/-- `export interface Typedef { type, generics }`. -/
structure Typedef where
  type : Ty
  generics : Generics

/-- `export interface OpaqueTy { bounds, generics }`. -/
structure OpaqueTy where
  bounds : List GenericBound
  generics : Generics

/-- `export interface Static { type, mutable, expr }`. -/
structure Static where
  type : Ty
  mutable : Bool
  expr : String

/-- `export type ItemEnum` — the closed union of 23 kind-specific item
payloads (src/rustdoc.ts lines 308-331); constructor names and payloads
follow the source interfaces `IEModule` … `IEAssocType`. -/
inductive ItemEnum
  | IEModule (val : Module)
  | IEExternCrate (name : String) (rename : Option String)
  | IEImport (val : Import)
  | IEUnion (val : Union)
  | IEStruct (val : Struct)
  | IEStructField (val : Ty)
  | IEEnum (val : Enum)
  | IEVariant (val : Variant)
  | IEFunction (val : Fn)
  | IETrait (val : Trait)
  | IETraitAlias (val : TraitAlias)
  | IEMethod (val : Method)
  | IEImpl (val : Impl)
  | IETypedef (val : Typedef)
  | IEOpaqueTy (val : OpaqueTy)
  | IEConstant (val : Constant)
  | IEStatic (val : Static)
  | IEForeignType
  | IEMacro (val : String)
  | IEProcMacro (val : ProcMacro)
  | IEPrimitiveType (val : String)
  | IEAssocConst (type : Ty) (default : Option String)
  | IEAssocType (generics : Generics) (bounds : List GenericBound)
      (default : Option Ty)

/-- `export interface Item` — the item envelope (src/rustdoc.ts lines
46-61). -/
structure Item where
  id : Id
  crate_id : CrUid
  name : Option String
  span : Option Span
  visibility : Visibility
  docs : Option String
  links : List (String × Id)
  attrs : List String
  deprecation : Option Deprecation
  inner : ItemEnum

/-- `export interface Crate` — the root aggregate (src/rustdoc.ts lines
17-29); the index-signature maps `[Id: Item]`, `[Id: ItemSummary]` and
`[CrUid: ExternalCrate]` are embedded as association lists. -/
structure Crate where
  root : Id
  crate_version : Option String
  includes_private : Bool
  index : List (Id × Item)
  paths : List (Id × ItemSummary)
  external_crates : List (CrUid × ExternalCrate)
  format_version : Int

/-! ## Discriminant tags

Each source union discriminates its variants by a literal `tag` field; the
functions below return exactly the literal tag string each variant carries in
`src/rustdoc.ts`, and each union's constructor index. -/

/-- The literal `tag` of a `Visibility` value ('Public' / 'Default' /
'Crate' / 'Restricted'). -/
def Visibility.tag : Visibility → String
  | .VisPublic => "Public"
  | .VisDefault => "Default"
  | .VisCrate => "Crate"
  | .VisRestricted _ _ => "Restricted"

/-- Constructor index of a `Visibility` value. -/
def Visibility.ctorIdx : Visibility → Nat
  | .VisPublic => 0
  | .VisDefault => 1
  | .VisCrate => 2
  | .VisRestricted _ _ => 3

/-- The literal `tag` of a `GenericArgs` value. -/
def GenericArgs.tag : GenericArgs → String
  | .GAsAngleBracketed _ _ => "AngleBracketed"
  | .GAsParenthesized _ _ => "Parenthesized"

/-- Constructor index of a `GenericArgs` value. -/
def GenericArgs.ctorIdx : GenericArgs → Nat
  | .GAsAngleBracketed _ _ => 0
  | .GAsParenthesized _ _ => 1

/-- The literal `tag` of a `GenericArg` value. -/
def GenericArg.tag : GenericArg → String
  | .GALifetime _ => "Lifetime"
  | .GAType _ => "Type"
  | .GAConst _ => "Const"
  | .GAInfer => "Infer"

/-- Constructor index of a `GenericArg` value. -/
def GenericArg.ctorIdx : GenericArg → Nat
  | .GALifetime _ => 0
  | .GAType _ => 1
  | .GAConst _ => 2
  | .GAInfer => 3

/-- The literal `tag` of a `TypeBindingKind` value. -/
def TypeBindingKind.tag : TypeBindingKind → String
  | .TBKEquality _ => "Equality"
  | .TBKConstraint _ => "Constraint"

/-- Constructor index of a `TypeBindingKind` value. -/
def TypeBindingKind.ctorIdx : TypeBindingKind → Nat
  | .TBKEquality _ => 0
  | .TBKConstraint _ => 1

/-- The literal `tag` of an `ItemEnum` value (the item-kind discriminant). -/
def ItemEnum.tag : ItemEnum → String
  | .IEModule _ => "Module"
  | .IEExternCrate _ _ => "ExternCrate"
  | .IEImport _ => "Import"
  | .IEUnion _ => "Union"
  | .IEStruct _ => "Struct"
  | .IEStructField _ => "StructField"
  | .IEEnum _ => "Enum"
  | .IEVariant _ => "Variant"
  | .IEFunction _ => "Function"
  | .IETrait _ => "Trait"
  | .IETraitAlias _ => "TraitAlias"
  | .IEMethod _ => "Method"
  | .IEImpl _ => "Impl"
  | .IETypedef _ => "Typedef"
  | .IEOpaqueTy _ => "OpaqueTy"
  | .IEConstant _ => "Constant"
  | .IEStatic _ => "Static"
  | .IEForeignType => "ForeignType"
  | .IEMacro _ => "Macro"
  | .IEProcMacro _ => "ProcMacro"
  | .IEPrimitiveType _ => "PrimitiveType"
  | .IEAssocConst _ _ => "AssocConst"
  | .IEAssocType _ _ _ => "AssocType"

/-- Constructor index of an `ItemEnum` value. -/
def ItemEnum.ctorIdx : ItemEnum → Nat
  | .IEModule _ => 0
  | .IEExternCrate _ _ => 1
  | .IEImport _ => 2
  | .IEUnion _ => 3
  | .IEStruct _ => 4
  | .IEStructField _ => 5
  | .IEEnum _ => 6
  | .IEVariant _ => 7
  | .IEFunction _ => 8
  | .IETrait _ => 9
  | .IETraitAlias _ => 10
  | .IEMethod _ => 11
  | .IEImpl _ => 12
  | .IETypedef _ => 13
  | .IEOpaqueTy _ => 14
  | .IEConstant _ => 15
  | .IEStatic _ => 16
  | .IEForeignType => 17
  | .IEMacro _ => 18
  | .IEProcMacro _ => 19
  | .IEPrimitiveType _ => 20
  | .IEAssocConst _ _ => 21
  | .IEAssocType _ _ _ => 22

/-- The closed list of `ItemEnum` discriminant tags, in declaration order. -/
def itemEnumTags : List String :=
  ["Module", "ExternCrate", "Import", "Union", "Struct", "StructField",
   "Enum", "Variant", "Function", "Trait", "TraitAlias", "Method", "Impl",
   "Typedef", "OpaqueTy", "Constant", "Static", "ForeignType", "Macro",
   "ProcMacro", "PrimitiveType", "AssocConst", "AssocType"]

/-- The name of an `ItemKind` enumeration member, as in the source. -/
def ItemKind.name : ItemKind → String
  | .Module => "Module"
  | .ExternCrate => "ExternCrate"
  | .Import => "Import"
  | .Struct => "Struct"
  | .StructField => "StructField"
  | .Union => "Union"
  | .Enum => "Enum"
  | .Variant => "Variant"
  | .Function => "Function"
  | .Typedef => "Typedef"
  | .OpaqueTy => "OpaqueTy"
  | .Constant => "Constant"
  | .Trait => "Trait"
  | .TraitAlias => "TraitAlias"
  | .Method => "Method"
  | .Impl => "Impl"
  | .Static => "Static"
  | .ForeignType => "ForeignType"
  | .Macro => "Macro"
  | .ProcAttribute => "ProcAttribute"
  | .ProcDerive => "ProcDerive"
  | .AssocConst => "AssocConst"
  | .AssocType => "AssocType"
  | .Primitive => "Primitive"
  | .Keyword => "Keyword"

/-- The closed list of `ItemKind` member names, in declaration order. -/
def itemKindNames : List String :=
  ["Module", "ExternCrate", "Import", "Struct", "StructField", "Union",
   "Enum", "Variant", "Function", "Typedef", "OpaqueTy", "Constant",
   "Trait", "TraitAlias", "Method", "Impl", "Static", "ForeignType",
   "Macro", "ProcAttribute", "ProcDerive", "AssocConst", "AssocType",
   "Primitive", "Keyword"]

/-- The literal `variant_kind` tag of a `Variant` value. -/
def Variant.tag : Variant → String
  | .VPlain => "Plain"
  | .VTuple _ => "Tuple"
  | .VStruct _ => "Struct"

/-- Constructor index of a `Variant` value. -/
def Variant.ctorIdx : Variant → Nat
  | .VPlain => 0
  | .VTuple _ => 1
  | .VStruct _ => 2

/-- The literal `tag` of an `Abi` value. -/
def Abi.tag : Abi → String
  | .AbiRust => "Rust"
  | .AbiC _ => "C"
  | .AbiCdecl _ => "Cdecl"
  | .AbiStdcall _ => "Stdcall"
  | .AbiFastcall _ => "Fastcall"
  | .AbiAapcs _ => "Aapcs"
  | .AbiWin64 _ => "Win64"
  | .AbiSysV64 _ => "SysV64"
  | .AbiSystem _ => "System"
  | .AbiOther _ => "Other"

/-- Constructor index of an `Abi` value. -/
def Abi.ctorIdx : Abi → Nat
  | .AbiRust => 0
  | .AbiC _ => 1
  | .AbiCdecl _ => 2
  | .AbiStdcall _ => 3
  | .AbiFastcall _ => 4
  | .AbiAapcs _ => 5
  | .AbiWin64 _ => 6
  | .AbiSysV64 _ => 7
  | .AbiSystem _ => 8
  | .AbiOther _ => 9

/-- The literal `tag` of a `GenericParamDefKind` value. -/
def GenericParamDefKind.tag : GenericParamDefKind → String
  | .GPDKLifetime _ => "Lifetime"
  | .GPDKType _ _ _ => "Type"
  | .GPDKConst _ _ => "Const"

/-- Constructor index of a `GenericParamDefKind` value. -/
def GenericParamDefKind.ctorIdx : GenericParamDefKind → Nat
  | .GPDKLifetime _ => 0
  | .GPDKType _ _ _ => 1
  | .GPDKConst _ _ => 2

/-- The literal `tag` of a `WherePredicate` value. -/
def WherePredicate.tag : WherePredicate → String
  | .WPBoundPredicate _ _ _ => "BoundPredicate"
  | .WPRegionPredicate _ _ => "RegionPredicate"
  | .WPEqPredicate _ _ => "EqPredicate"

/-- Constructor index of a `WherePredicate` value. -/
def WherePredicate.ctorIdx : WherePredicate → Nat
  | .WPBoundPredicate _ _ _ => 0
  | .WPRegionPredicate _ _ => 1
  | .WPEqPredicate _ _ => 2

/-- The literal `tag` of a `GenericBound` value. -/
def GenericBound.tag : GenericBound → String
  | .GBTraitBound _ _ _ => "TraitBound"
  | .GBOutlives _ => "Outlives"

/-- Constructor index of a `GenericBound` value. -/
def GenericBound.ctorIdx : GenericBound → Nat
  | .GBTraitBound _ _ _ => 0
  | .GBOutlives _ => 1

/-- The literal `tag` of a `Term` value. -/
def Term.tag : Term → String
  | .TrType _ => "Type"
  | .TrConstant _ => "Constant"

/-- Constructor index of a `Term` value. -/
def Term.ctorIdx : Term → Nat
  | .TrType _ => 0
  | .TrConstant _ => 1

/-- The literal `kind` tag of a `Ty` (source `Type`) value. -/
def Ty.tag : Ty → String
  | .TyResolvedPath _ _ _ _ => "ResolvedPath"
  | .TyDynTrait _ => "DynTrait"
  | .TyGeneric _ => "Generic"
  | .TyPrimitive _ => "Primitive"
  | .TyFunctionPtr _ => "FunctionPtr"
  | .TyTuple _ => "Tuple"
  | .TySlice _ => "Slice"
  | .TyArray _ _ => "Array"
  | .TyImplTrait _ => "ImplTrait"
  | .TyInfer => "Infer"
  | .TyRawPointer _ _ => "RawPointer"
  | .TyBorrowedRef _ _ _ => "BorrowedRef"
  | .TyQualifiedPath _ _ _ _ => "QualifiedPath"

/-- Constructor index of a `Ty` value (13 constructors, 0-12). -/
def Ty.ctorIdx : Ty → Nat
  | .TyResolvedPath _ _ _ _ => 0
  | .TyDynTrait _ => 1
  | .TyGeneric _ => 2
  | .TyPrimitive _ => 3
  | .TyFunctionPtr _ => 4
  | .TyTuple _ => 5
  | .TySlice _ => 6
  | .TyArray _ _ => 7
  | .TyImplTrait _ => 8
  | .TyInfer => 9
  | .TyRawPointer _ _ => 10
  | .TyBorrowedRef _ _ _ => 11
  | .TyQualifiedPath _ _ _ _ => 12

/-- The name of a `StructType` enumeration member. -/
def StructType.name : StructType → String
  | .Plain => "Plain"
  | .Tuple => "Tuple"
  | .Unit => "Unit"

/-- The name of a `TraitBoundModifier` enumeration member. -/
def TraitBoundModifier.name : TraitBoundModifier → String
  | .None => "None"
  | .Maybe => "Maybe"
  | .MaybeConst => "MaybeConst"

/-- The name of a `MacroKind` enumeration member. -/
def MacroKind.name : MacroKind → String
  | .Bang => "Bang"
  | .Attr => "Attr"
  | .Derive => "Derive"

/-! ## Wire format and generic lookup -/

/-- The untyped structured-data tree ("a single JSON document") that the
Decoder/Validator consumes (spec section 6); integers suffice for every
numeric field of the model. -/
inductive Json
  | null
  | bool (b : Bool)
  | num (n : Int)
  | str (s : String)
  | arr (elems : List Json)
  | obj (fields : List (String × Json))

/-- Association-list lookup used for the `index`, `paths`, `external_crates`
and `links` mappings. -/
def assocLookup {α β : Type} [DecidableEq α] : List (α × β) → α → Option β
  | [], _ => none
  | (k, v) :: rest, k' => if k = k' then some v else assocLookup rest k'

/-- Lookup of a field in a JSON object's field list. -/
def lookupField : List (String × Json) → String → Option Json
  | [], _ => none
  | (k', v) :: rest, k => if k' = k then some v else lookupField rest k

/-- Is this wire value the explicit JSON `null`? -/
def Json.isNull : Json → Bool
  | .null => true
  | _ => false

/-- Lookup of an optional field: a missing key and an explicit JSON `null`
are both "absent" (spec section 6). -/
def lookupOpt (fields : List (String × Json)) (k : String) : Option Json :=
  match lookupField fields k with
  | none => none
  | some v => if v.isNull then none else some v

/-! ## Graph Resolver -/

/-- Result of the Graph Resolver query `get`:
`Item | ItemSummary | NotFound`. -/
inductive GetResult
  | item (it : Item)
  | summary (s : ItemSummary)
  | NotFound

/-- Modelled from the spec: the Graph Resolver operation
`get(id) → Item | ItemSummary | NotFound` (spec section 4.5; the resolver is
not part of `src/rustdoc.ts`, which only declares the data model): prefer the
full `Item` from `index`, fall back to the `ItemSummary` from `paths`,
`NotFound` if absent from both. -/
def Crate.get (c : Crate) (id : Id) : GetResult :=
  match assocLookup c.index id with
  | some it => .item it
  | none =>
    match assocLookup c.paths id with
    | some s => .summary s
    | none => .NotFound

/-- Modelled from the spec: the Graph Resolver operation
`externalCrate(crateId) → ExternalCrate | NotFound` (spec section 4.5). -/
def Crate.externalCrate (c : Crate) (crateId : CrUid) : Option ExternalCrate :=
  assocLookup c.external_crates crateId

/-- Modelled from the spec: the Graph Resolver operation
`resolveLink(item, linkText) → Id | NotFound` (spec section 4.5): looks up
`item.links[linkText]`. -/
def Item.resolveLink (it : Item) (linkText : String) : Option Id :=
  assocLookup it.links linkText

/-! ## Encoder

Modelled from the spec (section 6): the wire format is a single JSON
document; mapping fields become objects keyed by the natural key stringified,
ordered sequences become arrays, optional fields are emitted iff present, and
unions carry an explicit discriminant `tag` plus their payload fields. -/

/-- One decimal digit (0-9) as its character. -/
def digitChar (d : Nat) : Char := Char.ofNat (48 + d)

/-- Numeric value of a decimal digit character. -/
def charDigit (c : Char) : Nat := c.toNat - 48

/-- Is this character a decimal digit? -/
def isDigitChar (c : Char) : Bool := 48 ≤ c.toNat && c.toNat ≤ 57

/-- The stringified form of a natural-number mapping key (decimal). -/
def natKey (n : Nat) : String :=
  if n = 0 then "0" else ⟨((Nat.digits 10 n).map digitChar).reverse⟩

/-- Parse a stringified natural-number mapping key back; `none` unless the
string is a nonempty run of decimal digits. -/
def parseNatKey (s : String) : Option Nat :=
  if s.data = [] then none
  else if s.data.all isDigitChar then
    some (Nat.ofDigits 10 ((s.data.map charDigit).reverse))
  else none

/-- Emit an optional wire field: the key is present iff the value is. -/
def optField (k : String) : Option Json → List (String × Json)
  | none => []
  | some j => [(k, j)]

/-- Encode an ordered sequence of strings. -/
def encStrList (xs : List String) : Json := .arr (xs.map .str)

/-- Encode an ordered sequence of `Id`s. -/
def encIdList (xs : List Id) : Json := .arr (xs.map .str)

/-- Encode a `Visibility` value. -/
def encVisibility : Visibility → Json
  | .VisPublic => .obj [("tag", .str "Public")]
  | .VisDefault => .obj [("tag", .str "Default")]
  | .VisCrate => .obj [("tag", .str "Crate")]
  | .VisRestricted parent path =>
      .obj [("tag", .str "Restricted"), ("parent", .str parent),
            ("path", .str path)]

/-- Encode an `Abi` value. -/
def encAbi : Abi → Json
  | .AbiRust => .obj [("tag", .str "Rust")]
  | .AbiC u => .obj [("tag", .str "C"), ("unwind", .bool u)]
  | .AbiCdecl u => .obj [("tag", .str "Cdecl"), ("unwind", .bool u)]
  | .AbiStdcall u => .obj [("tag", .str "Stdcall"), ("unwind", .bool u)]
  | .AbiFastcall u => .obj [("tag", .str "Fastcall"), ("unwind", .bool u)]
  | .AbiAapcs u => .obj [("tag", .str "Aapcs"), ("unwind", .bool u)]
  | .AbiWin64 u => .obj [("tag", .str "Win64"), ("unwind", .bool u)]
  | .AbiSysV64 u => .obj [("tag", .str "SysV64"), ("unwind", .bool u)]
  | .AbiSystem u => .obj [("tag", .str "System"), ("unwind", .bool u)]
  | .AbiOther s => .obj [("tag", .str "Other"), ("val", .str s)]

/-- Encode a `Header` value (the wire key of `isUnsafe` is the source field
name `unsafe`). -/
def encHeader (h : Header) : Json :=
  .obj [("const", .bool h.const), ("unsafe", .bool h.isUnsafe),
        ("async", .bool h.async), ("abi", encAbi h.abi)]

/-- Encode a `Span` value. -/
def encSpan (s : Span) : Json :=
  .obj [("filename", .str s.filename),
        ("begin", .arr [.num s.begin_.1, .num s.begin_.2]),
        ("end", .arr [.num s.end_.1, .num s.end_.2])]

/-- Encode a `Deprecation` value. -/
def encDeprecation (d : Deprecation) : Json :=
  .obj (optField "since" (d.since.map .str) ++ optField "note" (d.note.map .str))

mutual

/-- Encode a `Ty` (source `Type`) value; each variant's wire shape follows
its source interface exactly. -/
def encTy : Ty → Json
  | .TyResolvedPath name id args param_names =>
      .obj ([("tag", .str "ResolvedPath"), ("name", .str name),
             ("id", .str id)] ++ optField "args" (encGenericArgsOpt args) ++
            [("param_names", .arr (encGenericBoundList param_names))])
  | .TyDynTrait val => .obj [("tag", .str "DynTrait"), ("val", encDynTrait val)]
  | .TyGeneric val => .obj [("tag", .str "Generic"), ("val", .str val)]
  | .TyPrimitive val => .obj [("tag", .str "Primitive"), ("val", .str val)]
  | .TyFunctionPtr val =>
      .obj [("tag", .str "FunctionPtr"), ("val", encFnPtr val)]
  | .TyTuple val => .obj [("tag", .str "Tuple"), ("val", .arr (encTyList val))]
  | .TySlice val => .obj [("tag", .str "Slice"), ("val", encTy val)]
  | .TyArray type len =>
      .obj [("tag", .str "Array"), ("type", encTy type), ("len", .str len)]
  | .TyImplTrait val =>
      .obj [("tag", .str "ImplTrait"), ("val", .arr (encGenericBoundList val))]
  | .TyInfer => .obj [("tag", .str "Infer")]
  | .TyRawPointer mutable type =>
      .obj [("tag", .str "RawPointer"), ("mutable", .bool mutable),
            ("type", encTy type)]
  | .TyBorrowedRef lifetime mutable type =>
      .obj ([("tag", .str "BorrowedRef")] ++
            optField "lifetime" (lifetime.map .str) ++
            [("mutable", .bool mutable), ("type", encTy type)])
  | .TyQualifiedPath name args self_type trait =>
      .obj [("tag", .str "QualifiedPath"), ("name", .str name),
            ("args", encGenericArgs args), ("self_type", encTy self_type),
            ("trait", encTy trait)]

/-- Encode an optional `Ty`. -/
def encTyOpt : Option Ty → Option Json
  | none => none
  | some t => some (encTy t)

/-- Encode an ordered sequence of `Ty`. -/
def encTyList : List Ty → List Json
  | [] => []
  | t :: rest => encTy t :: encTyList rest

/-- Encode a `DynTrait` value. -/
def encDynTrait : DynTrait → Json
  | .mk traits lifetime =>
      .obj ([("traits", .arr (encPolyTraitList traits))] ++
            optField "lifetime" (lifetime.map .str))

/-- Encode a `PolyTrait` value. -/
def encPolyTrait : PolyTrait → Json
  | .mk trait generic_params =>
      .obj [("trait", encTy trait),
            ("generic_params", .arr (encGenericParamDefList generic_params))]

/-- Encode an ordered sequence of `PolyTrait`. -/
def encPolyTraitList : List PolyTrait → List Json
  | [] => []
  | p :: rest => encPolyTrait p :: encPolyTraitList rest

/-- Encode a `GenericArgs` value. -/
def encGenericArgs : GenericArgs → Json
  | .GAsAngleBracketed args bindings =>
      .obj [("tag", .str "AngleBracketed"),
            ("args", .arr (encGenericArgList args)),
            ("bindings", .arr (encTypeBindingList bindings))]
  | .GAsParenthesized inputs output =>
      .obj ([("tag", .str "Parenthesized"),
             ("inputs", .arr (encTyList inputs))] ++
            optField "output" (encTyOpt output))

/-- Encode an optional `GenericArgs`. -/
def encGenericArgsOpt : Option GenericArgs → Option Json
  | none => none
  | some a => some (encGenericArgs a)

/-- Encode a `GenericArg` value. -/
def encGenericArg : GenericArg → Json
  | .GALifetime val => .obj [("tag", .str "Lifetime"), ("val", .str val)]
  | .GAType val => .obj [("tag", .str "Type"), ("val", encTy val)]
  | .GAConst val => .obj [("tag", .str "Const"), ("val", encConstant val)]
  | .GAInfer => .obj [("tag", .str "Infer")]

/-- Encode an ordered sequence of `GenericArg`. -/
def encGenericArgList : List GenericArg → List Json
  | [] => []
  | a :: rest => encGenericArg a :: encGenericArgList rest

/-- Encode a `Constant` value. -/
def encConstant : Constant → Json
  | .mk type expr value is_literal =>
      .obj ([("type", encTy type), ("expr", .str expr)] ++
            optField "value" (value.map .str) ++
            [("is_literal", .bool is_literal)])

/-- Encode a `TypeBinding` value. -/
def encTypeBinding : TypeBinding → Json
  | .mk name args binding =>
      .obj [("name", .str name), ("args", encGenericArgs args),
            ("binding", encTypeBindingKind binding)]

/-- Encode an ordered sequence of `TypeBinding`. -/
def encTypeBindingList : List TypeBinding → List Json
  | [] => []
  | b :: rest => encTypeBinding b :: encTypeBindingList rest

/-- Encode a `TypeBindingKind` value. -/
def encTypeBindingKind : TypeBindingKind → Json
  | .TBKEquality val => .obj [("tag", .str "Equality"), ("val", encTerm val)]
  | .TBKConstraint val =>
      .obj [("tag", .str "Constraint"),
            ("val", .arr (encGenericBoundList val))]

/-- Encode a `Term` value. -/
def encTerm : Term → Json
  | .TrType val => .obj [("tag", .str "Type"), ("val", encTy val)]
  | .TrConstant val => .obj [("tag", .str "Constant"), ("val", encConstant val)]

/-- Encode a `GenericBound` value. -/
def encGenericBound : GenericBound → Json
  | .GBTraitBound trait generic_params modifier =>
      .obj [("tag", .str "TraitBound"), ("trait", encTy trait),
            ("generic_params", .arr (encGenericParamDefList generic_params)),
            ("modifier", .str modifier.name)]
  | .GBOutlives val => .obj [("tag", .str "Outlives"), ("val", .str val)]

/-- Encode an ordered sequence of `GenericBound`. -/
def encGenericBoundList : List GenericBound → List Json
  | [] => []
  | b :: rest => encGenericBound b :: encGenericBoundList rest

/-- Encode a `GenericParamDef` value. -/
def encGenericParamDef : GenericParamDef → Json
  | .mk name kind =>
      .obj [("name", .str name), ("kind", encGenericParamDefKind kind)]

/-- Encode an ordered sequence of `GenericParamDef`. -/
def encGenericParamDefList : List GenericParamDef → List Json
  | [] => []
  | p :: rest => encGenericParamDef p :: encGenericParamDefList rest

/-- Encode a `GenericParamDefKind` value. -/
def encGenericParamDefKind : GenericParamDefKind → Json
  | .GPDKLifetime outlives =>
      .obj [("tag", .str "Lifetime"), ("outlives", encStrList outlives)]
  | .GPDKType bounds default synthetic =>
      .obj ([("tag", .str "Type"),
             ("bounds", .arr (encGenericBoundList bounds))] ++
            optField "default" (encTyOpt default) ++
            [("synthetic", .bool synthetic)])
  | .GPDKConst type default =>
      .obj ([("tag", .str "Const"), ("type", encTy type)] ++
            optField "default" (default.map .str))

/-- Encode a `WherePredicate` value. -/
def encWherePredicate : WherePredicate → Json
  | .WPBoundPredicate type bounds generic_params =>
      .obj [("tag", .str "BoundPredicate"), ("type", encTy type),
            ("bounds", .arr (encGenericBoundList bounds)),
            ("generic_params", .arr (encGenericParamDefList generic_params))]
  | .WPRegionPredicate lifetime bounds =>
      .obj [("tag", .str "RegionPredicate"), ("lifetime", .str lifetime),
            ("bounds", .arr (encGenericBoundList bounds))]
  | .WPEqPredicate lhs rhs =>
      .obj [("tag", .str "EqPredicate"), ("lhs", encTy lhs),
            ("rhs", encTerm rhs)]

/-- Encode an ordered sequence of `WherePredicate`. -/
def encWherePredicateList : List WherePredicate → List Json
  | [] => []
  | p :: rest => encWherePredicate p :: encWherePredicateList rest

/-- Encode a `Generics` value. -/
def encGenerics : Generics → Json
  | .mk params where_predicates =>
      .obj [("params", .arr (encGenericParamDefList params)),
            ("where_predicates", .arr (encWherePredicateList where_predicates))]

/-- Encode an `FnPtr` value. -/
def encFnPtr : FnPtr → Json
  | .mk decl generic_params header =>
      .obj [("decl", encFnDecl decl),
            ("generic_params", .arr (encGenericParamDefList generic_params)),
            ("header", encHeader header)]

/-- Encode an `FnDecl` value. -/
def encFnDecl : FnDecl → Json
  | .mk inputs output c_variadic =>
      .obj ([("inputs", .arr (encFnInputs inputs))] ++
            optField "output" (encTyOpt output) ++
            [("c_variadic", .bool c_variadic)])

/-- Encode the `inputs` of an `FnDecl`: each `[name, type]` pair becomes a
two-element array, in declaration order. -/
def encFnInputs : List (String × Ty) → List Json
  | [] => []
  | (name, t) :: rest => .arr [.str name, encTy t] :: encFnInputs rest

end

/-- Encode a `Variant` value. -/
def encVariant : Variant → Json
  | .VPlain => .obj [("tag", .str "Plain")]
  | .VTuple val => .obj [("tag", .str "Tuple"), ("val", .arr (encTyList val))]
  | .VStruct val => .obj [("tag", .str "Struct"), ("val", encIdList val)]

/-- Encode an `ItemEnum` payload: the discriminant `tag` plus the variant's
payload fields, record payloads flattened alongside the tag (spec
section 6). -/
def encItemEnum : ItemEnum → Json
  | .IEModule m =>
      .obj [("tag", .str "Module"), ("is_crate", .bool m.is_crate),
            ("items", encIdList m.items), ("is_stripped", .bool m.is_stripped)]
  | .IEExternCrate name rename =>
      .obj ([("tag", .str "ExternCrate"), ("name", .str name)] ++
            optField "rename" (rename.map .str))
  | .IEImport i =>
      .obj ([("tag", .str "Import"), ("source", .str i.source),
             ("name", .str i.name)] ++ optField "id" (i.id.map .str) ++
            [("glob", .bool i.glob)])
  | .IEUnion u =>
      .obj [("tag", .str "Union"), ("generics", encGenerics u.generics),
            ("fields_stripped", .bool u.fields_stripped),
            ("fields", encIdList u.fields), ("impls", encIdList u.impls)]
  | .IEStruct s =>
      .obj [("tag", .str "Struct"), ("struct_type", .str s.struct_type.name),
            ("generics", encGenerics s.generics),
            ("fields_stripped", .bool s.fields_stripped),
            ("fields", encIdList s.fields), ("impls", encIdList s.impls)]
  | .IEStructField t => .obj [("tag", .str "StructField"), ("val", encTy t)]
  | .IEEnum e =>
      .obj [("tag", .str "Enum"), ("generics", encGenerics e.generics),
            ("variants_stripped", .bool e.variants_stripped),
            ("variants", encIdList e.variants), ("impls", encIdList e.impls)]
  | .IEVariant v => .obj [("tag", .str "Variant"), ("val", encVariant v)]
  | .IEFunction f =>
      .obj [("tag", .str "Function"), ("decl", encFnDecl f.decl),
            ("generics", encGenerics f.generics),
            ("header", encHeader f.header)]
  | .IETrait t =>
      .obj [("tag", .str "Trait"), ("is_auto", .bool t.is_auto),
            ("is_unsafe", .bool t.isUnsafe), ("items", encIdList t.items),
            ("generics", encGenerics t.generics),
            ("bounds", .arr (encGenericBoundList t.bounds)),
            ("implementations", encIdList t.implementations)]
  | .IETraitAlias ta =>
      .obj [("tag", .str "TraitAlias"), ("generics", encGenerics ta.generics),
            ("params", .arr (encGenericBoundList ta.params))]
  | .IEMethod m =>
      .obj [("tag", .str "Method"), ("decl", encFnDecl m.decl),
            ("generics", encGenerics m.generics),
            ("header", encHeader m.header), ("has_body", .bool m.has_body)]
  | .IEImpl i =>
      .obj ([("tag", .str "Impl"), ("is_unsafe", .bool i.isUnsafe),
             ("generics", encGenerics i.generics),
             ("provided_trait_methods", encStrList i.provided_trait_methods)]
            ++ optField "trait" (encTyOpt i.trait) ++
            [("for", encTy i.«for»), ("items", encIdList i.items),
             ("negative", .bool i.negative), ("synthetic", .bool i.synthetic)]
            ++ optField "blanket_impl" (encTyOpt i.blanket_impl))
  | .IETypedef td =>
      .obj [("tag", .str "Typedef"), ("type", encTy td.type),
            ("generics", encGenerics td.generics)]
  | .IEOpaqueTy o =>
      .obj [("tag", .str "OpaqueTy"),
            ("bounds", .arr (encGenericBoundList o.bounds)),
            ("generics", encGenerics o.generics)]
  | .IEConstant (.mk type expr value is_literal) =>
      .obj ([("tag", .str "Constant"), ("type", encTy type),
             ("expr", .str expr)] ++ optField "value" (value.map .str) ++
            [("is_literal", .bool is_literal)])
  | .IEStatic s =>
      .obj [("tag", .str "Static"), ("type", encTy s.type),
            ("mutable", .bool s.mutable), ("expr", .str s.expr)]
  | .IEForeignType => .obj [("tag", .str "ForeignType")]
  | .IEMacro s => .obj [("tag", .str "Macro"), ("val", .str s)]
  | .IEProcMacro p =>
      .obj [("tag", .str "ProcMacro"), ("kind", .str p.kind.name),
            ("helpers", encStrList p.helpers)]
  | .IEPrimitiveType s => .obj [("tag", .str "PrimitiveType"), ("val", .str s)]
  | .IEAssocConst type default =>
      .obj ([("tag", .str "AssocConst"), ("type", encTy type)] ++
            optField "default" (default.map .str))
  | .IEAssocType generics bounds default =>
      .obj ([("tag", .str "AssocType"), ("generics", encGenerics generics),
             ("bounds", .arr (encGenericBoundList bounds))] ++
            optField "default" (encTyOpt default))

/-- Encode a `links` mapping. -/
def encLinks (links : List (String × Id)) : Json :=
  .obj (links.map fun kv => (kv.1, .str kv.2))

/-- Encode an `Item` envelope. -/
def encItem (it : Item) : Json :=
  .obj ([("id", .str it.id), ("crate_id", .num (Int.ofNat it.crate_id))] ++
        optField "name" (it.name.map .str) ++
        optField "span" (it.span.map encSpan) ++
        [("visibility", encVisibility it.visibility)] ++
        optField "docs" (it.docs.map .str) ++
        [("links", encLinks it.links), ("attrs", encStrList it.attrs)] ++
        optField "deprecation" (it.deprecation.map encDeprecation) ++
        [("inner", encItemEnum it.inner)])

/-- Encode an `ItemSummary`. -/
def encItemSummary (s : ItemSummary) : Json :=
  .obj [("crate_id", .num (Int.ofNat s.crate_id)), ("path", encStrList s.path),
        ("kind", .str s.kind.name)]

/-- Encode an `ExternalCrate`. -/
def encExternalCrate (e : ExternalCrate) : Json :=
  .obj ([("name", .str e.name)] ++
        optField "html_root_url" (e.html_root_url.map .str))

/-- Encode a `Crate` back to the wire format. -/
def encCrate (c : Crate) : Json :=
  .obj ([("root", .str c.root)] ++
        optField "crate_version" (c.crate_version.map .str) ++
        [("includes_private", .bool c.includes_private),
         ("index", .obj (c.index.map fun kv => (kv.1, encItem kv.2))),
         ("paths", .obj (c.paths.map fun kv => (kv.1, encItemSummary kv.2))),
         ("external_crates",
          .obj (c.external_crates.map fun kv =>
            (natKey kv.1, encExternalCrate kv.2))),
         ("format_version", .num c.format_version)])

/-! ## Decoder/Validator

Modelled from the spec (sections 4.4, 6 and 7): `decode(raw, {strict}) →
Result<{crate, diagnostics}, DecodeError>`. The decoder is not part of
`src/rustdoc.ts` (which only declares the data model); each decode function
below follows the spec's contract for the corresponding model type. The
recursive decoders take a fuel argument that the top-level `decode` sets to
`sizeOf raw`, which strictly exceeds the nesting depth of `raw`, so the
out-of-fuel branch is unreachable on every input. -/

/-- The decode-error taxonomy (spec section 7). -/
inductive DecodeError
  | MissingField (field : String)
  | TypeMismatch (field : String)
  | UnknownVariant (tag : String)
  | UnsupportedVersion (found : Int)
  | DanglingReference (id : Id)
  | InvalidRoot
deriving DecidableEq

/-- Require a structural field: absent ⇒ `MissingField`. -/
def reqField (fields : List (String × Json)) (k : String) :
    Except DecodeError Json :=
  match lookupField fields k with
  | some v => .ok v
  | none => .error (.MissingField k)

/-- A field must be a string: wrong shape ⇒ `TypeMismatch`. -/
def asStr (k : String) : Json → Except DecodeError String
  | .str s => .ok s
  | _ => .error (.TypeMismatch k)

/-- A field must be a boolean. -/
def asBool (k : String) : Json → Except DecodeError Bool
  | .bool b => .ok b
  | _ => .error (.TypeMismatch k)

/-- A field must be an integer. -/
def asInt (k : String) : Json → Except DecodeError Int
  | .num n => .ok n
  | _ => .error (.TypeMismatch k)

/-- A field must be a nonnegative integer. -/
def asNat (k : String) : Json → Except DecodeError Nat
  | .num n => if n < 0 then .error (.TypeMismatch k) else .ok n.toNat
  | _ => .error (.TypeMismatch k)

/-- A field must be an array. -/
def asArr (k : String) : Json → Except DecodeError (List Json)
  | .arr xs => .ok xs
  | _ => .error (.TypeMismatch k)

/-- A field must be an object. -/
def asObj (k : String) : Json → Except DecodeError (List (String × Json))
  | .obj fields => .ok fields
  | _ => .error (.TypeMismatch k)

/-- Required string field. -/
def reqStr (fields : List (String × Json)) (k : String) :
    Except DecodeError String := do asStr k (← reqField fields k)

/-- Required boolean field. -/
def reqBool (fields : List (String × Json)) (k : String) :
    Except DecodeError Bool := do asBool k (← reqField fields k)

/-- Required integer field. -/
def reqInt (fields : List (String × Json)) (k : String) :
    Except DecodeError Int := do asInt k (← reqField fields k)

/-- Required nonnegative integer field. -/
def reqNat (fields : List (String × Json)) (k : String) :
    Except DecodeError Nat := do asNat k (← reqField fields k)

/-- Required object field. -/
def reqObj (fields : List (String × Json)) (k : String) :
    Except DecodeError (List (String × Json)) := do
  asObj k (← reqField fields k)

/-- Optional string field (missing key and `null` are both absent). -/
def optStr (fields : List (String × Json)) (k : String) :
    Except DecodeError (Option String) :=
  match lookupOpt fields k with
  | none => .ok none
  | some v => do
    let s ← asStr k v
    pure (some s)

/-- Decode the elements of an array of strings. -/
def decodeStrElems (k : String) : List Json → Except DecodeError (List String)
  | [] => .ok []
  | j :: rest => do
    let s ← asStr k j
    let ss ← decodeStrElems k rest
    pure (s :: ss)

/-- Decode an ordered sequence of strings. -/
def decodeStrList (k : String) (j : Json) :
    Except DecodeError (List String) := do
  decodeStrElems k (← asArr k j)

/-- Decode a `Visibility` value: closed variant set, any other discriminant
is `UnknownVariant`. -/
def decodeVisibility (j : Json) : Except DecodeError Visibility := do
  let fields ← asObj "visibility" j
  let tag ← reqStr fields "tag"
  match tag with
  | "Public" => pure .VisPublic
  | "Default" => pure .VisDefault
  | "Crate" => pure .VisCrate
  | "Restricted" => do
    let parent ← reqStr fields "parent"
    let path ← reqStr fields "path"
    pure (.VisRestricted parent path)
  | other => throw (.UnknownVariant other)

/-- Decode an `Abi` value. -/
def decodeAbi (j : Json) : Except DecodeError Abi := do
  let fields ← asObj "abi" j
  let tag ← reqStr fields "tag"
  match tag with
  | "Rust" => pure .AbiRust
  | "C" => do pure (.AbiC (← reqBool fields "unwind"))
  | "Cdecl" => do pure (.AbiCdecl (← reqBool fields "unwind"))
  | "Stdcall" => do pure (.AbiStdcall (← reqBool fields "unwind"))
  | "Fastcall" => do pure (.AbiFastcall (← reqBool fields "unwind"))
  | "Aapcs" => do pure (.AbiAapcs (← reqBool fields "unwind"))
  | "Win64" => do pure (.AbiWin64 (← reqBool fields "unwind"))
  | "SysV64" => do pure (.AbiSysV64 (← reqBool fields "unwind"))
  | "System" => do pure (.AbiSystem (← reqBool fields "unwind"))
  | "Other" => do pure (.AbiOther (← reqStr fields "val"))
  | other => throw (.UnknownVariant other)

/-- Decode a `Header` value (wire key `unsafe` for the `isUnsafe` field). -/
def decodeHeader (j : Json) : Except DecodeError Header := do
  let fields ← asObj "header" j
  let c ← reqBool fields "const"
  let u ← reqBool fields "unsafe"
  let a ← reqBool fields "async"
  let abi ← decodeAbi (← reqField fields "abi")
  pure ⟨c, u, a, abi⟩

/-- Decode a `[line, column]` position pair. -/
def decodePos (k : String) : Json → Except DecodeError (Int × Int)
  | .arr [.num a, .num b] => .ok (a, b)
  | _ => .error (.TypeMismatch k)

/-- Decode a `Span` value. -/
def decodeSpan (j : Json) : Except DecodeError Span := do
  let fields ← asObj "span" j
  let filename ← reqStr fields "filename"
  let b ← decodePos "begin" (← reqField fields "begin")
  let e ← decodePos "end" (← reqField fields "end")
  pure ⟨filename, b, e⟩

/-- Decode a `Deprecation` value. -/
def decodeDeprecation (j : Json) : Except DecodeError Deprecation := do
  let fields ← asObj "deprecation" j
  let since ← optStr fields "since"
  let note ← optStr fields "note"
  pure ⟨since, note⟩

/-- Decode an `ItemKind` enumeration member: the 25 members are the closed
set, anything else is `UnknownVariant`. -/
def decodeItemKind (j : Json) : Except DecodeError ItemKind := do
  let s ← asStr "kind" j
  match s with
  | "Module" => pure .Module
  | "ExternCrate" => pure .ExternCrate
  | "Import" => pure .Import
  | "Struct" => pure .Struct
  | "StructField" => pure .StructField
  | "Union" => pure .Union
  | "Enum" => pure .Enum
  | "Variant" => pure .Variant
  | "Function" => pure .Function
  | "Typedef" => pure .Typedef
  | "OpaqueTy" => pure .OpaqueTy
  | "Constant" => pure .Constant
  | "Trait" => pure .Trait
  | "TraitAlias" => pure .TraitAlias
  | "Method" => pure .Method
  | "Impl" => pure .Impl
  | "Static" => pure .Static
  | "ForeignType" => pure .ForeignType
  | "Macro" => pure .Macro
  | "ProcAttribute" => pure .ProcAttribute
  | "ProcDerive" => pure .ProcDerive
  | "AssocConst" => pure .AssocConst
  | "AssocType" => pure .AssocType
  | "Primitive" => pure .Primitive
  | "Keyword" => pure .Keyword
  | other => throw (.UnknownVariant other)

/-- Decode a `StructType` enumeration member. -/
def decodeStructType (j : Json) : Except DecodeError StructType := do
  let s ← asStr "struct_type" j
  match s with
  | "Plain" => pure .Plain
  | "Tuple" => pure .Tuple
  | "Unit" => pure .Unit
  | other => throw (.UnknownVariant other)

/-- Decode a `TraitBoundModifier` enumeration member. -/
def decodeTraitBoundModifier (j : Json) :
    Except DecodeError TraitBoundModifier := do
  let s ← asStr "modifier" j
  match s with
  | "None" => pure .None
  | "Maybe" => pure .Maybe
  | "MaybeConst" => pure .MaybeConst
  | other => throw (.UnknownVariant other)

/-- Decode a `MacroKind` enumeration member. -/
def decodeMacroKind (j : Json) : Except DecodeError MacroKind := do
  let s ← asStr "kind" j
  match s with
  | "Bang" => pure .Bang
  | "Attr" => pure .Attr
  | "Derive" => pure .Derive
  | other => throw (.UnknownVariant other)

/-- Decode an `ExternalCrate` record. -/
def decodeExternalCrate (j : Json) : Except DecodeError ExternalCrate := do
  let fields ← asObj "external_crate" j
  let name ← reqStr fields "name"
  let url ← optStr fields "html_root_url"
  pure ⟨name, url⟩

/-- Decode an `ItemSummary` record. -/
def decodeItemSummary (j : Json) : Except DecodeError ItemSummary := do
  let fields ← asObj "item_summary" j
  let crate_id ← reqNat fields "crate_id"
  let path ← decodeStrList "path" (← reqField fields "path")
  let kind ← decodeItemKind (← reqField fields "kind")
  pure ⟨crate_id, path, kind⟩

/-- Error returned on fuel exhaustion; unreachable under the top-level
`decode`, whose fuel strictly exceeds the input's nesting depth. -/
def outOfFuel : DecodeError := .TypeMismatch "fuel"

mutual

/-- Decode a `Ty` (source `Type`) value: the 13 variants are the closed set,
any other `tag` is `UnknownVariant`. -/
def decodeTy : Nat → Json → Except DecodeError Ty
  | 0, _ => throw outOfFuel
  | fuel+1, j => do
    let fields ← asObj "type" j
    let tag ← reqStr fields "tag"
    match tag with
    | "ResolvedPath" => do
      let name ← reqStr fields "name"
      let id ← reqStr fields "id"
      let args ← decodeGenericArgsOpt fuel (lookupOpt fields "args")
      let pn ← decodeGenericBoundElems fuel
        (← asArr "param_names" (← reqField fields "param_names"))
      pure (.TyResolvedPath name id args pn)
    | "DynTrait" => do
      pure (.TyDynTrait (← decodeDynTrait fuel (← reqField fields "val")))
    | "Generic" => do pure (.TyGeneric (← reqStr fields "val"))
    | "Primitive" => do pure (.TyPrimitive (← reqStr fields "val"))
    | "FunctionPtr" => do
      pure (.TyFunctionPtr (← decodeFnPtr fuel (← reqField fields "val")))
    | "Tuple" => do
      pure (.TyTuple
        (← decodeTyElems fuel (← asArr "val" (← reqField fields "val"))))
    | "Slice" => do
      pure (.TySlice (← decodeTy fuel (← reqField fields "val")))
    | "Array" => do
      let t ← decodeTy fuel (← reqField fields "type")
      let len ← reqStr fields "len"
      pure (.TyArray t len)
    | "ImplTrait" => do
      pure (.TyImplTrait (← decodeGenericBoundElems fuel
        (← asArr "val" (← reqField fields "val"))))
    | "Infer" => pure .TyInfer
    | "RawPointer" => do
      let m ← reqBool fields "mutable"
      let t ← decodeTy fuel (← reqField fields "type")
      pure (.TyRawPointer m t)
    | "BorrowedRef" => do
      let lt ← optStr fields "lifetime"
      let m ← reqBool fields "mutable"
      let t ← decodeTy fuel (← reqField fields "type")
      pure (.TyBorrowedRef lt m t)
    | "QualifiedPath" => do
      let name ← reqStr fields "name"
      let args ← decodeGenericArgs fuel (← reqField fields "args")
      let st ← decodeTy fuel (← reqField fields "self_type")
      let tr ← decodeTy fuel (← reqField fields "trait")
      pure (.TyQualifiedPath name args st tr)
    | other => throw (.UnknownVariant other)

/-- Decode an optional `Ty`. -/
def decodeTyOpt : Nat → Option Json → Except DecodeError (Option Ty)
  | 0, _ => throw outOfFuel
  | _+1, none => pure none
  | fuel+1, some j => do
    let t ← decodeTy fuel j
    pure (some t)

/-- Decode the elements of an array of `Ty`. -/
def decodeTyElems : Nat → List Json → Except DecodeError (List Ty)
  | 0, _ => throw outOfFuel
  | _+1, [] => pure []
  | fuel+1, j :: rest => do
    let t ← decodeTy fuel j
    let ts ← decodeTyElems fuel rest
    pure (t :: ts)

/-- Decode a `DynTrait` record. -/
def decodeDynTrait : Nat → Json → Except DecodeError DynTrait
  | 0, _ => throw outOfFuel
  | fuel+1, j => do
    let fields ← asObj "dyn_trait" j
    let traits ← decodePolyTraitElems fuel
      (← asArr "traits" (← reqField fields "traits"))
    let lifetime ← optStr fields "lifetime"
    pure (.mk traits lifetime)

/-- Decode a `PolyTrait` record. -/
def decodePolyTrait : Nat → Json → Except DecodeError PolyTrait
  | 0, _ => throw outOfFuel
  | fuel+1, j => do
    let fields ← asObj "poly_trait" j
    let trait ← decodeTy fuel (← reqField fields "trait")
    let gps ← decodeGenericParamDefElems fuel
      (← asArr "generic_params" (← reqField fields "generic_params"))
    pure (.mk trait gps)

/-- Decode the elements of an array of `PolyTrait`. -/
def decodePolyTraitElems : Nat → List Json → Except DecodeError (List PolyTrait)
  | 0, _ => throw outOfFuel
  | _+1, [] => pure []
  | fuel+1, j :: rest => do
    let p ← decodePolyTrait fuel j
    let ps ← decodePolyTraitElems fuel rest
    pure (p :: ps)

/-- Decode a `GenericArgs` value. -/
def decodeGenericArgs : Nat → Json → Except DecodeError GenericArgs
  | 0, _ => throw outOfFuel
  | fuel+1, j => do
    let fields ← asObj "generic_args" j
    let tag ← reqStr fields "tag"
    match tag with
    | "AngleBracketed" => do
      let args ← decodeGenericArgElems fuel
        (← asArr "args" (← reqField fields "args"))
      let bindings ← decodeTypeBindingElems fuel
        (← asArr "bindings" (← reqField fields "bindings"))
      pure (.GAsAngleBracketed args bindings)
    | "Parenthesized" => do
      let inputs ← decodeTyElems fuel
        (← asArr "inputs" (← reqField fields "inputs"))
      let output ← decodeTyOpt fuel (lookupOpt fields "output")
      pure (.GAsParenthesized inputs output)
    | other => throw (.UnknownVariant other)

/-- Decode an optional `GenericArgs`. -/
def decodeGenericArgsOpt :
    Nat → Option Json → Except DecodeError (Option GenericArgs)
  | 0, _ => throw outOfFuel
  | _+1, none => pure none
  | fuel+1, some j => do
    let a ← decodeGenericArgs fuel j
    pure (some a)

/-- Decode a `GenericArg` value. -/
def decodeGenericArg : Nat → Json → Except DecodeError GenericArg
  | 0, _ => throw outOfFuel
  | fuel+1, j => do
    let fields ← asObj "generic_arg" j
    let tag ← reqStr fields "tag"
    match tag with
    | "Lifetime" => do pure (.GALifetime (← reqStr fields "val"))
    | "Type" => do pure (.GAType (← decodeTy fuel (← reqField fields "val")))
    | "Const" => do
      pure (.GAConst (← decodeConstant fuel (← reqField fields "val")))
    | "Infer" => pure .GAInfer
    | other => throw (.UnknownVariant other)

/-- Decode the elements of an array of `GenericArg`. -/
def decodeGenericArgElems :
    Nat → List Json → Except DecodeError (List GenericArg)
  | 0, _ => throw outOfFuel
  | _+1, [] => pure []
  | fuel+1, j :: rest => do
    let a ← decodeGenericArg fuel j
    let as_ ← decodeGenericArgElems fuel rest
    pure (a :: as_)

/-- Decode a `Constant` record. -/
def decodeConstant : Nat → Json → Except DecodeError Constant
  | 0, _ => throw outOfFuel
  | fuel+1, j => do
    let fields ← asObj "constant" j
    let type ← decodeTy fuel (← reqField fields "type")
    let expr ← reqStr fields "expr"
    let value ← optStr fields "value"
    let is_literal ← reqBool fields "is_literal"
    pure (.mk type expr value is_literal)

/-- Decode a `TypeBinding` record. -/
def decodeTypeBinding : Nat → Json → Except DecodeError TypeBinding
  | 0, _ => throw outOfFuel
  | fuel+1, j => do
    let fields ← asObj "type_binding" j
    let name ← reqStr fields "name"
    let args ← decodeGenericArgs fuel (← reqField fields "args")
    let binding ← decodeTypeBindingKind fuel (← reqField fields "binding")
    pure (.mk name args binding)

/-- Decode the elements of an array of `TypeBinding`. -/
def decodeTypeBindingElems :
    Nat → List Json → Except DecodeError (List TypeBinding)
  | 0, _ => throw outOfFuel
  | _+1, [] => pure []
  | fuel+1, j :: rest => do
    let b ← decodeTypeBinding fuel j
    let bs ← decodeTypeBindingElems fuel rest
    pure (b :: bs)

/-- Decode a `TypeBindingKind` value. -/
def decodeTypeBindingKind : Nat → Json → Except DecodeError TypeBindingKind
  | 0, _ => throw outOfFuel
  | fuel+1, j => do
    let fields ← asObj "type_binding_kind" j
    let tag ← reqStr fields "tag"
    match tag with
    | "Equality" => do
      pure (.TBKEquality (← decodeTerm fuel (← reqField fields "val")))
    | "Constraint" => do
      pure (.TBKConstraint (← decodeGenericBoundElems fuel
        (← asArr "val" (← reqField fields "val"))))
    | other => throw (.UnknownVariant other)

/-- Decode a `Term` value. -/
def decodeTerm : Nat → Json → Except DecodeError Term
  | 0, _ => throw outOfFuel
  | fuel+1, j => do
    let fields ← asObj "term" j
    let tag ← reqStr fields "tag"
    match tag with
    | "Type" => do pure (.TrType (← decodeTy fuel (← reqField fields "val")))
    | "Constant" => do
      pure (.TrConstant (← decodeConstant fuel (← reqField fields "val")))
    | other => throw (.UnknownVariant other)

/-- Decode a `GenericBound` value. -/
def decodeGenericBound : Nat → Json → Except DecodeError GenericBound
  | 0, _ => throw outOfFuel
  | fuel+1, j => do
    let fields ← asObj "generic_bound" j
    let tag ← reqStr fields "tag"
    match tag with
    | "TraitBound" => do
      let trait ← decodeTy fuel (← reqField fields "trait")
      let gps ← decodeGenericParamDefElems fuel
        (← asArr "generic_params" (← reqField fields "generic_params"))
      let modifier ← decodeTraitBoundModifier (← reqField fields "modifier")
      pure (.GBTraitBound trait gps modifier)
    | "Outlives" => do pure (.GBOutlives (← reqStr fields "val"))
    | other => throw (.UnknownVariant other)

/-- Decode the elements of an array of `GenericBound`. -/
def decodeGenericBoundElems :
    Nat → List Json → Except DecodeError (List GenericBound)
  | 0, _ => throw outOfFuel
  | _+1, [] => pure []
  | fuel+1, j :: rest => do
    let b ← decodeGenericBound fuel j
    let bs ← decodeGenericBoundElems fuel rest
    pure (b :: bs)

/-- Decode a `GenericParamDef` record. -/
def decodeGenericParamDef : Nat → Json → Except DecodeError GenericParamDef
  | 0, _ => throw outOfFuel
  | fuel+1, j => do
    let fields ← asObj "generic_param_def" j
    let name ← reqStr fields "name"
    let kind ← decodeGenericParamDefKind fuel (← reqField fields "kind")
    pure (.mk name kind)

/-- Decode the elements of an array of `GenericParamDef`. -/
def decodeGenericParamDefElems :
    Nat → List Json → Except DecodeError (List GenericParamDef)
  | 0, _ => throw outOfFuel
  | _+1, [] => pure []
  | fuel+1, j :: rest => do
    let p ← decodeGenericParamDef fuel j
    let ps ← decodeGenericParamDefElems fuel rest
    pure (p :: ps)

/-- Decode a `GenericParamDefKind` value. -/
def decodeGenericParamDefKind :
    Nat → Json → Except DecodeError GenericParamDefKind
  | 0, _ => throw outOfFuel
  | fuel+1, j => do
    let fields ← asObj "generic_param_def_kind" j
    let tag ← reqStr fields "tag"
    match tag with
    | "Lifetime" => do
      pure (.GPDKLifetime
        (← decodeStrList "outlives" (← reqField fields "outlives")))
    | "Type" => do
      let bounds ← decodeGenericBoundElems fuel
        (← asArr "bounds" (← reqField fields "bounds"))
      let default ← decodeTyOpt fuel (lookupOpt fields "default")
      let synthetic ← reqBool fields "synthetic"
      pure (.GPDKType bounds default synthetic)
    | "Const" => do
      let type ← decodeTy fuel (← reqField fields "type")
      let default ← optStr fields "default"
      pure (.GPDKConst type default)
    | other => throw (.UnknownVariant other)

/-- Decode a `WherePredicate` value. -/
def decodeWherePredicate : Nat → Json → Except DecodeError WherePredicate
  | 0, _ => throw outOfFuel
  | fuel+1, j => do
    let fields ← asObj "where_predicate" j
    let tag ← reqStr fields "tag"
    match tag with
    | "BoundPredicate" => do
      let type ← decodeTy fuel (← reqField fields "type")
      let bounds ← decodeGenericBoundElems fuel
        (← asArr "bounds" (← reqField fields "bounds"))
      let gps ← decodeGenericParamDefElems fuel
        (← asArr "generic_params" (← reqField fields "generic_params"))
      pure (.WPBoundPredicate type bounds gps)
    | "RegionPredicate" => do
      let lifetime ← reqStr fields "lifetime"
      let bounds ← decodeGenericBoundElems fuel
        (← asArr "bounds" (← reqField fields "bounds"))
      pure (.WPRegionPredicate lifetime bounds)
    | "EqPredicate" => do
      let lhs ← decodeTy fuel (← reqField fields "lhs")
      let rhs ← decodeTerm fuel (← reqField fields "rhs")
      pure (.WPEqPredicate lhs rhs)
    | other => throw (.UnknownVariant other)

/-- Decode the elements of an array of `WherePredicate`. -/
def decodeWherePredicateElems :
    Nat → List Json → Except DecodeError (List WherePredicate)
  | 0, _ => throw outOfFuel
  | _+1, [] => pure []
  | fuel+1, j :: rest => do
    let p ← decodeWherePredicate fuel j
    let ps ← decodeWherePredicateElems fuel rest
    pure (p :: ps)

/-- Decode a `Generics` record. -/
def decodeGenerics : Nat → Json → Except DecodeError Generics
  | 0, _ => throw outOfFuel
  | fuel+1, j => do
    let fields ← asObj "generics" j
    let params ← decodeGenericParamDefElems fuel
      (← asArr "params" (← reqField fields "params"))
    let wps ← decodeWherePredicateElems fuel
      (← asArr "where_predicates" (← reqField fields "where_predicates"))
    pure (.mk params wps)

/-- Decode an `FnPtr` record. -/
def decodeFnPtr : Nat → Json → Except DecodeError FnPtr
  | 0, _ => throw outOfFuel
  | fuel+1, j => do
    let fields ← asObj "fn_ptr" j
    let decl ← decodeFnDecl fuel (← reqField fields "decl")
    let gps ← decodeGenericParamDefElems fuel
      (← asArr "generic_params" (← reqField fields "generic_params"))
    let header ← decodeHeader (← reqField fields "header")
    pure (.mk decl gps header)

/-- Decode an `FnDecl` record. -/
def decodeFnDecl : Nat → Json → Except DecodeError FnDecl
  | 0, _ => throw outOfFuel
  | fuel+1, j => do
    let fields ← asObj "fn_decl" j
    let inputs ← decodeFnInputElems fuel
      (← asArr "inputs" (← reqField fields "inputs"))
    let output ← decodeTyOpt fuel (lookupOpt fields "output")
    let c_variadic ← reqBool fields "c_variadic"
    pure (.mk inputs output c_variadic)

/-- Decode the elements of an `FnDecl.inputs` array: each element is a
two-element `[name, type]` array. -/
def decodeFnInputElems :
    Nat → List Json → Except DecodeError (List (String × Ty))
  | 0, _ => throw outOfFuel
  | _+1, [] => pure []
  | fuel+1, j :: rest => do
    match j with
    | .arr [n, t] => do
      let name ← asStr "inputs" n
      let ty ← decodeTy fuel t
      let more ← decodeFnInputElems fuel rest
      pure ((name, ty) :: more)
    | _ => throw (.TypeMismatch "inputs")

end

/-! ## Nested `Id` references

`Id` references reachable from a payload, in declaration order (used by the
decoder's post-pass referential check, spec section 4.4 step 6). -/

mutual

/-- All `Id` references nested in a `Ty`, in declaration order. -/
def idsOfTy : Ty → List Id
  | .TyResolvedPath _ id args param_names =>
      id :: (idsOfGenericArgsOpt args ++ idsOfGenericBoundList param_names)
  | .TyDynTrait d => idsOfDynTrait d
  | .TyGeneric _ => []
  | .TyPrimitive _ => []
  | .TyFunctionPtr f => idsOfFnPtr f
  | .TyTuple ts => idsOfTyList ts
  | .TySlice t => idsOfTy t
  | .TyArray t _ => idsOfTy t
  | .TyImplTrait bs => idsOfGenericBoundList bs
  | .TyInfer => []
  | .TyRawPointer _ t => idsOfTy t
  | .TyBorrowedRef _ _ t => idsOfTy t
  | .TyQualifiedPath _ args st tr =>
      idsOfGenericArgs args ++ idsOfTy st ++ idsOfTy tr

/-- All `Id` references nested in an optional `Ty`. -/
def idsOfTyOpt : Option Ty → List Id
  | none => []
  | some t => idsOfTy t

/-- All `Id` references nested in a sequence of `Ty`, in order. -/
def idsOfTyList : List Ty → List Id
  | [] => []
  | t :: rest => idsOfTy t ++ idsOfTyList rest

/-- All `Id` references nested in a `DynTrait`. -/
def idsOfDynTrait : DynTrait → List Id
  | .mk traits _ => idsOfPolyTraitList traits

/-- All `Id` references nested in a `PolyTrait`. -/
def idsOfPolyTrait : PolyTrait → List Id
  | .mk trait gps => idsOfTy trait ++ idsOfGenericParamDefList gps

/-- All `Id` references nested in a sequence of `PolyTrait`. -/
def idsOfPolyTraitList : List PolyTrait → List Id
  | [] => []
  | p :: rest => idsOfPolyTrait p ++ idsOfPolyTraitList rest

/-- All `Id` references nested in a `GenericArgs`. -/
def idsOfGenericArgs : GenericArgs → List Id
  | .GAsAngleBracketed args bindings =>
      idsOfGenericArgList args ++ idsOfTypeBindingList bindings
  | .GAsParenthesized inputs output =>
      idsOfTyList inputs ++ idsOfTyOpt output

/-- All `Id` references nested in an optional `GenericArgs`. -/
def idsOfGenericArgsOpt : Option GenericArgs → List Id
  | none => []
  | some a => idsOfGenericArgs a

/-- All `Id` references nested in a `GenericArg`. -/
def idsOfGenericArg : GenericArg → List Id
  | .GALifetime _ => []
  | .GAType t => idsOfTy t
  | .GAConst c => idsOfConstant c
  | .GAInfer => []

/-- All `Id` references nested in a sequence of `GenericArg`. -/
def idsOfGenericArgList : List GenericArg → List Id
  | [] => []
  | a :: rest => idsOfGenericArg a ++ idsOfGenericArgList rest

/-- All `Id` references nested in a `Constant`. -/
def idsOfConstant : Constant → List Id
  | .mk type _ _ _ => idsOfTy type

/-- All `Id` references nested in a `TypeBinding`. -/
def idsOfTypeBinding : TypeBinding → List Id
  | .mk _ args binding =>
      idsOfGenericArgs args ++ idsOfTypeBindingKind binding

/-- All `Id` references nested in a sequence of `TypeBinding`. -/
def idsOfTypeBindingList : List TypeBinding → List Id
  | [] => []
  | b :: rest => idsOfTypeBinding b ++ idsOfTypeBindingList rest

/-- All `Id` references nested in a `TypeBindingKind`. -/
def idsOfTypeBindingKind : TypeBindingKind → List Id
  | .TBKEquality t => idsOfTerm t
  | .TBKConstraint bs => idsOfGenericBoundList bs

/-- All `Id` references nested in a `Term`. -/
def idsOfTerm : Term → List Id
  | .TrType t => idsOfTy t
  | .TrConstant c => idsOfConstant c

/-- All `Id` references nested in a `GenericBound`. -/
def idsOfGenericBound : GenericBound → List Id
  | .GBTraitBound trait gps _ =>
      idsOfTy trait ++ idsOfGenericParamDefList gps
  | .GBOutlives _ => []

/-- All `Id` references nested in a sequence of `GenericBound`. -/
def idsOfGenericBoundList : List GenericBound → List Id
  | [] => []
  | b :: rest => idsOfGenericBound b ++ idsOfGenericBoundList rest

/-- All `Id` references nested in a `GenericParamDef`. -/
def idsOfGenericParamDef : GenericParamDef → List Id
  | .mk _ kind => idsOfGenericParamDefKind kind

/-- All `Id` references nested in a sequence of `GenericParamDef`. -/
def idsOfGenericParamDefList : List GenericParamDef → List Id
  | [] => []
  | p :: rest => idsOfGenericParamDef p ++ idsOfGenericParamDefList rest

/-- All `Id` references nested in a `GenericParamDefKind`. -/
def idsOfGenericParamDefKind : GenericParamDefKind → List Id
  | .GPDKLifetime _ => []
  | .GPDKType bounds default _ =>
      idsOfGenericBoundList bounds ++ idsOfTyOpt default
  | .GPDKConst type _ => idsOfTy type

/-- All `Id` references nested in a `WherePredicate`. -/
def idsOfWherePredicate : WherePredicate → List Id
  | .WPBoundPredicate type bounds gps =>
      idsOfTy type ++ idsOfGenericBoundList bounds ++
        idsOfGenericParamDefList gps
  | .WPRegionPredicate _ bounds => idsOfGenericBoundList bounds
  | .WPEqPredicate lhs rhs => idsOfTy lhs ++ idsOfTerm rhs

/-- All `Id` references nested in a sequence of `WherePredicate`. -/
def idsOfWherePredicateList : List WherePredicate → List Id
  | [] => []
  | p :: rest => idsOfWherePredicate p ++ idsOfWherePredicateList rest

/-- All `Id` references nested in a `Generics`. -/
def idsOfGenerics : Generics → List Id
  | .mk params wps =>
      idsOfGenericParamDefList params ++ idsOfWherePredicateList wps

/-- All `Id` references nested in an `FnPtr`. -/
def idsOfFnPtr : FnPtr → List Id
  | .mk decl gps _ => idsOfFnDecl decl ++ idsOfGenericParamDefList gps

/-- All `Id` references nested in an `FnDecl`. -/
def idsOfFnDecl : FnDecl → List Id
  | .mk inputs output _ => idsOfFnInputs inputs ++ idsOfTyOpt output

/-- All `Id` references nested in an `FnDecl.inputs` sequence, in order. -/
def idsOfFnInputs : List (String × Ty) → List Id
  | [] => []
  | (_, t) :: rest => idsOfTy t ++ idsOfFnInputs rest

end

/-- All `Id` references nested in a `Variant` payload. -/
def idsOfVariant : Variant → List Id
  | .VPlain => []
  | .VTuple ts => idsOfTyList ts
  | .VStruct ids => ids

/-- All `Id` references appearing in an `Item`'s `inner` payload (as nested
references), in declaration order. -/
def itemEnumRefIds : ItemEnum → List Id
  | .IEModule m => m.items
  | .IEExternCrate _ _ => []
  | .IEImport i => match i.id with | none => [] | some id => [id]
  | .IEUnion u => idsOfGenerics u.generics ++ u.fields ++ u.impls
  | .IEStruct s => idsOfGenerics s.generics ++ s.fields ++ s.impls
  | .IEStructField t => idsOfTy t
  | .IEEnum e => idsOfGenerics e.generics ++ e.variants ++ e.impls
  | .IEVariant v => idsOfVariant v
  | .IEFunction f => idsOfFnDecl f.decl ++ idsOfGenerics f.generics
  | .IETrait t =>
      t.items ++ idsOfGenerics t.generics ++
        idsOfGenericBoundList t.bounds ++ t.implementations
  | .IETraitAlias ta =>
      idsOfGenerics ta.generics ++ idsOfGenericBoundList ta.params
  | .IEMethod m => idsOfFnDecl m.decl ++ idsOfGenerics m.generics
  | .IEImpl i =>
      idsOfGenerics i.generics ++ idsOfTyOpt i.trait ++ idsOfTy i.«for» ++
        i.items ++ idsOfTyOpt i.blanket_impl
  | .IETypedef td => idsOfTy td.type ++ idsOfGenerics td.generics
  | .IEOpaqueTy o =>
      idsOfGenericBoundList o.bounds ++ idsOfGenerics o.generics
  | .IEConstant c => idsOfConstant c
  | .IEStatic s => idsOfTy s.type
  | .IEForeignType => []
  | .IEMacro _ => []
  | .IEProcMacro _ => []
  | .IEPrimitiveType _ => []
  | .IEAssocConst type _ => idsOfTy type
  | .IEAssocType generics bounds default =>
      idsOfGenerics generics ++ idsOfGenericBoundList bounds ++
        idsOfTyOpt default

/-- All `Id` references appearing in any decoded item's `inner` payload
across an `index`, in order. -/
def refIdsOfIndex : List (Id × Item) → List Id
  | [] => []
  | (_, it) :: rest => itemEnumRefIds it.inner ++ refIdsOfIndex rest

/-- Decode a `Variant` payload: closed variant set, any other discriminant
is `UnknownVariant`. -/
def decodeVariant (fuel : Nat) (j : Json) : Except DecodeError Variant := do
  let fields ← asObj "variant" j
  let tag ← reqStr fields "tag"
  match tag with
  | "Plain" => pure .VPlain
  | "Tuple" => do
    pure (.VTuple (← decodeTyElems fuel (← asArr "val" (← reqField fields "val"))))
  | "Struct" => do
    pure (.VStruct (← decodeStrList "val" (← reqField fields "val")))
  | other => throw (.UnknownVariant other)

/-- Decode a `Module` payload from the fields of an item's `inner`. -/
def decodeIEModule (fields : List (String × Json)) :
    Except DecodeError ItemEnum := do
  let is_crate ← reqBool fields "is_crate"
  let items ← decodeStrList "items" (← reqField fields "items")
  let is_stripped ← reqBool fields "is_stripped"
  pure (.IEModule ⟨is_crate, items, is_stripped⟩)

/-- Decode an `ExternCrate` payload. -/
def decodeIEExternCrate (fields : List (String × Json)) :
    Except DecodeError ItemEnum := do
  let name ← reqStr fields "name"
  let rename ← optStr fields "rename"
  pure (.IEExternCrate name rename)

/-- Decode an `Import` payload. -/
def decodeIEImport (fields : List (String × Json)) :
    Except DecodeError ItemEnum := do
  let source ← reqStr fields "source"
  let name ← reqStr fields "name"
  let id ← optStr fields "id"
  let glob ← reqBool fields "glob"
  pure (.IEImport ⟨source, name, id, glob⟩)

/-- Decode a `Union` payload. -/
def decodeIEUnion (fuel : Nat) (fields : List (String × Json)) :
    Except DecodeError ItemEnum := do
  let generics ← decodeGenerics fuel (← reqField fields "generics")
  let fields_stripped ← reqBool fields "fields_stripped"
  let fs ← decodeStrList "fields" (← reqField fields "fields")
  let impls ← decodeStrList "impls" (← reqField fields "impls")
  pure (.IEUnion ⟨generics, fields_stripped, fs, impls⟩)

/-- Decode a `Struct` payload. -/
def decodeIEStruct (fuel : Nat) (fields : List (String × Json)) :
    Except DecodeError ItemEnum := do
  let struct_type ← decodeStructType (← reqField fields "struct_type")
  let generics ← decodeGenerics fuel (← reqField fields "generics")
  let fields_stripped ← reqBool fields "fields_stripped"
  let fs ← decodeStrList "fields" (← reqField fields "fields")
  let impls ← decodeStrList "impls" (← reqField fields "impls")
  pure (.IEStruct ⟨struct_type, generics, fields_stripped, fs, impls⟩)

/-- Decode a `StructField` payload. -/
def decodeIEStructField (fuel : Nat) (fields : List (String × Json)) :
    Except DecodeError ItemEnum := do
  pure (.IEStructField (← decodeTy fuel (← reqField fields "val")))

/-- Decode an `Enum` payload. -/
def decodeIEEnum (fuel : Nat) (fields : List (String × Json)) :
    Except DecodeError ItemEnum := do
  let generics ← decodeGenerics fuel (← reqField fields "generics")
  let variants_stripped ← reqBool fields "variants_stripped"
  let vs ← decodeStrList "variants" (← reqField fields "variants")
  let impls ← decodeStrList "impls" (← reqField fields "impls")
  pure (.IEEnum ⟨generics, variants_stripped, vs, impls⟩)

/-- Decode a `Variant` payload. -/
def decodeIEVariant (fuel : Nat) (fields : List (String × Json)) :
    Except DecodeError ItemEnum := do
  pure (.IEVariant (← decodeVariant fuel (← reqField fields "val")))

/-- Decode a `Function` payload. -/
def decodeIEFunction (fuel : Nat) (fields : List (String × Json)) :
    Except DecodeError ItemEnum := do
  let decl ← decodeFnDecl fuel (← reqField fields "decl")
  let generics ← decodeGenerics fuel (← reqField fields "generics")
  let header ← decodeHeader (← reqField fields "header")
  pure (.IEFunction ⟨decl, generics, header⟩)

/-- Decode a `Trait` payload. -/
def decodeIETrait (fuel : Nat) (fields : List (String × Json)) :
    Except DecodeError ItemEnum := do
  let is_auto ← reqBool fields "is_auto"
  let isUnsafe ← reqBool fields "is_unsafe"
  let items ← decodeStrList "items" (← reqField fields "items")
  let generics ← decodeGenerics fuel (← reqField fields "generics")
  let bounds ← decodeGenericBoundElems fuel
    (← asArr "bounds" (← reqField fields "bounds"))
  let impls ← decodeStrList "implementations"
    (← reqField fields "implementations")
  pure (.IETrait ⟨is_auto, isUnsafe, items, generics, bounds, impls⟩)

/-- Decode a `TraitAlias` payload. -/
def decodeIETraitAlias (fuel : Nat) (fields : List (String × Json)) :
    Except DecodeError ItemEnum := do
  let generics ← decodeGenerics fuel (← reqField fields "generics")
  let params ← decodeGenericBoundElems fuel
    (← asArr "params" (← reqField fields "params"))
  pure (.IETraitAlias ⟨generics, params⟩)

/-- Decode a `Method` payload. -/
def decodeIEMethod (fuel : Nat) (fields : List (String × Json)) :
    Except DecodeError ItemEnum := do
  let decl ← decodeFnDecl fuel (← reqField fields "decl")
  let generics ← decodeGenerics fuel (← reqField fields "generics")
  let header ← decodeHeader (← reqField fields "header")
  let has_body ← reqBool fields "has_body"
  pure (.IEMethod ⟨decl, generics, header, has_body⟩)

/-- Decode an `Impl` payload. -/
def decodeIEImpl (fuel : Nat) (fields : List (String × Json)) :
    Except DecodeError ItemEnum := do
  let isUnsafe ← reqBool fields "is_unsafe"
  let generics ← decodeGenerics fuel (← reqField fields "generics")
  let ptm ← decodeStrList "provided_trait_methods"
    (← reqField fields "provided_trait_methods")
  let trait ← decodeTyOpt fuel (lookupOpt fields "trait")
  let for_ ← decodeTy fuel (← reqField fields "for")
  let items ← decodeStrList "items" (← reqField fields "items")
  let negative ← reqBool fields "negative"
  let synthetic ← reqBool fields "synthetic"
  let blanket_impl ← decodeTyOpt fuel (lookupOpt fields "blanket_impl")
  pure (.IEImpl ⟨isUnsafe, generics, ptm, trait, for_, items, negative,
    synthetic, blanket_impl⟩)

/-- Decode a `Typedef` payload. -/
def decodeIETypedef (fuel : Nat) (fields : List (String × Json)) :
    Except DecodeError ItemEnum := do
  let type ← decodeTy fuel (← reqField fields "type")
  let generics ← decodeGenerics fuel (← reqField fields "generics")
  pure (.IETypedef ⟨type, generics⟩)

/-- Decode an `OpaqueTy` payload. -/
def decodeIEOpaqueTy (fuel : Nat) (fields : List (String × Json)) :
    Except DecodeError ItemEnum := do
  let bounds ← decodeGenericBoundElems fuel
    (← asArr "bounds" (← reqField fields "bounds"))
  let generics ← decodeGenerics fuel (← reqField fields "generics")
  pure (.IEOpaqueTy ⟨bounds, generics⟩)

/-- Decode a `Constant` payload. -/
def decodeIEConstant (fuel : Nat) (fields : List (String × Json)) :
    Except DecodeError ItemEnum := do
  let type ← decodeTy fuel (← reqField fields "type")
  let expr ← reqStr fields "expr"
  let value ← optStr fields "value"
  let is_literal ← reqBool fields "is_literal"
  pure (.IEConstant (.mk type expr value is_literal))

/-- Decode a `Static` payload. -/
def decodeIEStatic (fuel : Nat) (fields : List (String × Json)) :
    Except DecodeError ItemEnum := do
  let type ← decodeTy fuel (← reqField fields "type")
  let mutable ← reqBool fields "mutable"
  let expr ← reqStr fields "expr"
  pure (.IEStatic ⟨type, mutable, expr⟩)

/-- Decode a `ProcMacro` payload. -/
def decodeIEProcMacro (fields : List (String × Json)) :
    Except DecodeError ItemEnum := do
  let kind ← decodeMacroKind (← reqField fields "kind")
  let helpers ← decodeStrList "helpers" (← reqField fields "helpers")
  pure (.IEProcMacro ⟨kind, helpers⟩)

/-- Decode an `AssocConst` payload. -/
def decodeIEAssocConst (fuel : Nat) (fields : List (String × Json)) :
    Except DecodeError ItemEnum := do
  let type ← decodeTy fuel (← reqField fields "type")
  let default ← optStr fields "default"
  pure (.IEAssocConst type default)

/-- Decode an `AssocType` payload. -/
def decodeIEAssocType (fuel : Nat) (fields : List (String × Json)) :
    Except DecodeError ItemEnum := do
  let generics ← decodeGenerics fuel (← reqField fields "generics")
  let bounds ← decodeGenericBoundElems fuel
    (← asArr "bounds" (← reqField fields "bounds"))
  let default ← decodeTyOpt fuel (lookupOpt fields "default")
  pure (.IEAssocType generics bounds default)

/-- Decode an `ItemEnum` payload from an item's `inner` object: dispatch on
the `tag` discriminant to the matching kind's payload decoder, and treat any
other discriminant as `UnknownVariant` — never a silent default. -/
def decodeItemEnum (fuel : Nat) (j : Json) : Except DecodeError ItemEnum := do
  let fields ← asObj "inner" j
  let tag ← reqStr fields "tag"
  match tag with
  | "Module" => decodeIEModule fields
  | "ExternCrate" => decodeIEExternCrate fields
  | "Import" => decodeIEImport fields
  | "Union" => decodeIEUnion fuel fields
  | "Struct" => decodeIEStruct fuel fields
  | "StructField" => decodeIEStructField fuel fields
  | "Enum" => decodeIEEnum fuel fields
  | "Variant" => decodeIEVariant fuel fields
  | "Function" => decodeIEFunction fuel fields
  | "Trait" => decodeIETrait fuel fields
  | "TraitAlias" => decodeIETraitAlias fuel fields
  | "Method" => decodeIEMethod fuel fields
  | "Impl" => decodeIEImpl fuel fields
  | "Typedef" => decodeIETypedef fuel fields
  | "OpaqueTy" => decodeIEOpaqueTy fuel fields
  | "Constant" => decodeIEConstant fuel fields
  | "Static" => decodeIEStatic fuel fields
  | "ForeignType" => pure .IEForeignType
  | "Macro" => do pure (.IEMacro (← reqStr fields "val"))
  | "ProcMacro" => decodeIEProcMacro fields
  | "PrimitiveType" => do pure (.IEPrimitiveType (← reqStr fields "val"))
  | "AssocConst" => decodeIEAssocConst fuel fields
  | "AssocType" => decodeIEAssocType fuel fields
  | other => throw (.UnknownVariant other)

/-- Decode the entries of a `links` mapping (each value must be an `Id`
string). -/
def decodeLinkEntries :
    List (String × Json) → Except DecodeError (List (String × Id))
  | [] => .ok []
  | (k, v) :: rest => do
    let id ← asStr "links" v
    let more ← decodeLinkEntries rest
    pure ((k, id) :: more)

/-- Decode an `Item` envelope, then dispatch on the kind discriminant to
decode `inner` (spec section 4.4 step 4). -/
def decodeItem (fuel : Nat) (j : Json) : Except DecodeError Item := do
  let fields ← asObj "item" j
  let id ← reqStr fields "id"
  let crate_id ← reqNat fields "crate_id"
  let name ← optStr fields "name"
  let span ← match lookupOpt fields "span" with
    | none => pure none
    | some v => do
      let s ← decodeSpan v
      pure (some s)
  let visibility ← decodeVisibility (← reqField fields "visibility")
  let docs ← optStr fields "docs"
  let links ← decodeLinkEntries (← reqObj fields "links")
  let attrs ← decodeStrList "attrs" (← reqField fields "attrs")
  let deprecation ← match lookupOpt fields "deprecation" with
    | none => pure none
    | some v => do
      let d ← decodeDeprecation v
      pure (some d)
  let inner ← decodeItemEnum fuel (← reqField fields "inner")
  pure ⟨id, crate_id, name, span, visibility, docs, links, attrs,
        deprecation, inner⟩

/-- Decode every entry of `index`: a failing item is a non-fatal per-item
error collected into the report in non-strict mode (the offending item is
omitted from the usable graph while the rest of the index still decodes),
and fatal for the whole decode in strict mode (spec section 4.4 step 4). -/
def decodeIndexEntries (strict : Bool) (fuel : Nat) :
    List (String × Json) →
    Except DecodeError (List (Id × Item) × List DecodeError)
  | [] => .ok ([], [])
  | (k, v) :: rest =>
    match decodeItem fuel v with
    | .ok it => do
      let (items, errs) ← decodeIndexEntries strict fuel rest
      pure ((k, it) :: items, errs)
    | .error e =>
      if strict then .error e
      else do
        let (items, errs) ← decodeIndexEntries strict fuel rest
        pure (items, e :: errs)

/-- Decode every entry of `paths` (spec section 4.4 step 5). -/
def decodePathEntries :
    List (String × Json) → Except DecodeError (List (Id × ItemSummary))
  | [] => .ok []
  | (k, v) :: rest => do
    let s ← decodeItemSummary v
    let more ← decodePathEntries rest
    pure ((k, s) :: more)

/-- Decode every entry of `external_crates` (spec section 4.4 step 3); keys
are stringified crate ids. -/
def decodeExternalCrateEntries :
    List (String × Json) → Except DecodeError (List (CrUid × ExternalCrate))
  | [] => .ok []
  | (k, v) :: rest =>
    match parseNatKey k with
    | none => .error (.TypeMismatch "external_crates")
    | some n => do
      let e ← decodeExternalCrate v
      let more ← decodeExternalCrateEntries rest
      pure ((n, e) :: more)

/-- The decoder's post-pass referential check (spec section 4.4 step 6): the
`Id` references reachable from the decoded items that are present in neither
`index` nor `paths`, in order of occurrence. -/
def danglingIds (index : List (Id × Item))
    (paths : List (Id × ItemSummary)) : List Id :=
  (refIdsOfIndex index).filter fun i =>
    (assocLookup index i).isNone && (assocLookup paths i).isNone

/-- Steps 1 and 3-7 of the decode algorithm (spec section 4.4), run after
the format-version gate has passed with version `v`. -/
def decodeCrateRest (fuel : Nat) (fields : List (String × Json))
    (strict : Bool) (v : Int) :
    Except DecodeError (Crate × List DecodeError) := do
  let root ← reqStr fields "root"
  let crate_version ← optStr fields "crate_version"
  let includes_private ← reqBool fields "includes_private"
  let indexFields ← reqObj fields "index"
  let pathsFields ← reqObj fields "paths"
  let extFields ← reqObj fields "external_crates"
  let external_crates ← decodeExternalCrateEntries extFields
  let (index, itemErrs) ← decodeIndexEntries strict fuel indexFields
  let paths ← decodePathEntries pathsFields
  let dangling := danglingIds index paths
  if strict then
    match dangling with
    | i :: _ => throw (.DanglingReference i)
    | [] => pure ()
  match assocLookup index root with
  | some it =>
    match it.inner with
    | .IEModule _ => pure ()
    | _ => throw .InvalidRoot
  | none => throw .InvalidRoot
  pure (⟨root, crate_version, includes_private, index, paths,
         external_crates, v⟩,
        itemErrs ++ dangling.map .DanglingReference)

/-- Decode a `Crate` from the wire tree: confirm the top-level shape, then
compare `format_version` with the supported constant before any other field
is inspected — a mismatch is the fatal `UnsupportedVersion` (spec sections
4.4 and 8) — then run the remaining steps. -/
def decodeCrate (fuel : Nat) (j : Json) (strict : Bool) :
    Except DecodeError (Crate × List DecodeError) := do
  let fields ← asObj "crate" j
  let v ← reqInt fields "format_version"
  if v = FORMAT_VERSION then decodeCrateRest fuel fields strict v
  else throw (.UnsupportedVersion v)

mutual

/-- Size of a wire tree (strictly exceeds its nesting depth). -/
def Json.size : Json → Nat
  | .null => 1
  | .bool _ => 1
  | .num _ => 1
  | .str _ => 1
  | .arr xs => 1 + Json.sizeElems xs
  | .obj fields => 1 + Json.sizeFields fields

/-- Total size of an array's elements. -/
def Json.sizeElems : List Json → Nat
  | [] => 0
  | j :: rest => 1 + Json.size j + Json.sizeElems rest

/-- Total size of an object's fields. -/
def Json.sizeFields : List (String × Json) → Nat
  | [] => 0
  | kv :: rest => 1 + Json.size kv.2 + Json.sizeFields rest

end

/-- Modelled from the spec: the Decoder/Validator entry point
`decode(raw, {strict}) → Result<{crate, diagnostics}, DecodeError>` (spec
sections 4.4 and 6; the decoder is not part of `src/rustdoc.ts`, which only
declares the data model). The fuel `Json.size raw` strictly exceeds the
nesting depth of `raw`, so recursion never exhausts it. -/
def decode (raw : Json) (strict : Bool) :
    Except DecodeError (Crate × List DecodeError) :=
  decodeCrate (Json.size raw) raw strict

/-! ## Canonical traversal of a type expression

The spec (section 4.1) contracts that visiting a `Type` terminates and
visits every nested `Type` and `Id` reference exactly once, in declaration
order. `tyNodes` is the canonical preorder traversal; `tySize` independently
counts the `Type` nodes of an expression. -/

mutual

/-- Preorder traversal of a `Ty`: the node itself, then every nested `Ty`
in declaration order. -/
def tyNodes : Ty → List Ty
  | .TyResolvedPath n i a p =>
      .TyResolvedPath n i a p ::
        (tyNodesOfGenericArgsOpt a ++ tyNodesOfGenericBoundList p)
  | .TyDynTrait d => .TyDynTrait d :: tyNodesOfDynTrait d
  | .TyGeneric s => [.TyGeneric s]
  | .TyPrimitive s => [.TyPrimitive s]
  | .TyFunctionPtr f => .TyFunctionPtr f :: tyNodesOfFnPtr f
  | .TyTuple ts => .TyTuple ts :: tyNodesOfTyList ts
  | .TySlice t => .TySlice t :: tyNodes t
  | .TyArray t l => .TyArray t l :: tyNodes t
  | .TyImplTrait bs => .TyImplTrait bs :: tyNodesOfGenericBoundList bs
  | .TyInfer => [.TyInfer]
  | .TyRawPointer m t => .TyRawPointer m t :: tyNodes t
  | .TyBorrowedRef l m t => .TyBorrowedRef l m t :: tyNodes t
  | .TyQualifiedPath n a s t =>
      .TyQualifiedPath n a s t ::
        (tyNodesOfGenericArgs a ++ tyNodes s ++ tyNodes t)

/-- `Ty` nodes nested in an optional `Ty`. -/
def tyNodesOfTyOpt : Option Ty → List Ty
  | none => []
  | some t => tyNodes t

/-- `Ty` nodes nested in a sequence of `Ty`, element traversals in order. -/
def tyNodesOfTyList : List Ty → List Ty
  | [] => []
  | t :: rest => tyNodes t ++ tyNodesOfTyList rest

/-- `Ty` nodes nested in a `DynTrait`. -/
def tyNodesOfDynTrait : DynTrait → List Ty
  | .mk traits _ => tyNodesOfPolyTraitList traits

/-- `Ty` nodes nested in a `PolyTrait`. -/
def tyNodesOfPolyTrait : PolyTrait → List Ty
  | .mk trait gps => tyNodes trait ++ tyNodesOfGenericParamDefList gps

/-- `Ty` nodes nested in a sequence of `PolyTrait`. -/
def tyNodesOfPolyTraitList : List PolyTrait → List Ty
  | [] => []
  | p :: rest => tyNodesOfPolyTrait p ++ tyNodesOfPolyTraitList rest

/-- `Ty` nodes nested in a `GenericArgs`. -/
def tyNodesOfGenericArgs : GenericArgs → List Ty
  | .GAsAngleBracketed args bindings =>
      tyNodesOfGenericArgList args ++ tyNodesOfTypeBindingList bindings
  | .GAsParenthesized inputs output =>
      tyNodesOfTyList inputs ++ tyNodesOfTyOpt output

/-- `Ty` nodes nested in an optional `GenericArgs`. -/
def tyNodesOfGenericArgsOpt : Option GenericArgs → List Ty
  | none => []
  | some a => tyNodesOfGenericArgs a

/-- `Ty` nodes nested in a `GenericArg`. -/
def tyNodesOfGenericArg : GenericArg → List Ty
  | .GALifetime _ => []
  | .GAType t => tyNodes t
  | .GAConst c => tyNodesOfConstant c
  | .GAInfer => []

/-- `Ty` nodes nested in a sequence of `GenericArg`. -/
def tyNodesOfGenericArgList : List GenericArg → List Ty
  | [] => []
  | a :: rest => tyNodesOfGenericArg a ++ tyNodesOfGenericArgList rest

/-- `Ty` nodes nested in a `Constant`. -/
def tyNodesOfConstant : Constant → List Ty
  | .mk type _ _ _ => tyNodes type

/-- `Ty` nodes nested in a `TypeBinding`. -/
def tyNodesOfTypeBinding : TypeBinding → List Ty
  | .mk _ args binding =>
      tyNodesOfGenericArgs args ++ tyNodesOfTypeBindingKind binding

/-- `Ty` nodes nested in a sequence of `TypeBinding`. -/
def tyNodesOfTypeBindingList : List TypeBinding → List Ty
  | [] => []
  | b :: rest => tyNodesOfTypeBinding b ++ tyNodesOfTypeBindingList rest

/-- `Ty` nodes nested in a `TypeBindingKind`. -/
def tyNodesOfTypeBindingKind : TypeBindingKind → List Ty
  | .TBKEquality t => tyNodesOfTerm t
  | .TBKConstraint bs => tyNodesOfGenericBoundList bs

/-- `Ty` nodes nested in a `Term`. -/
def tyNodesOfTerm : Term → List Ty
  | .TrType t => tyNodes t
  | .TrConstant c => tyNodesOfConstant c

/-- `Ty` nodes nested in a `GenericBound`. -/
def tyNodesOfGenericBound : GenericBound → List Ty
  | .GBTraitBound trait gps _ =>
      tyNodes trait ++ tyNodesOfGenericParamDefList gps
  | .GBOutlives _ => []

/-- `Ty` nodes nested in a sequence of `GenericBound`. -/
def tyNodesOfGenericBoundList : List GenericBound → List Ty
  | [] => []
  | b :: rest => tyNodesOfGenericBound b ++ tyNodesOfGenericBoundList rest

/-- `Ty` nodes nested in a `GenericParamDef`. -/
def tyNodesOfGenericParamDef : GenericParamDef → List Ty
  | .mk _ kind => tyNodesOfGenericParamDefKind kind

/-- `Ty` nodes nested in a sequence of `GenericParamDef`. -/
def tyNodesOfGenericParamDefList : List GenericParamDef → List Ty
  | [] => []
  | p :: rest => tyNodesOfGenericParamDef p ++ tyNodesOfGenericParamDefList rest

/-- `Ty` nodes nested in a `GenericParamDefKind`. -/
def tyNodesOfGenericParamDefKind : GenericParamDefKind → List Ty
  | .GPDKLifetime _ => []
  | .GPDKType bounds default _ =>
      tyNodesOfGenericBoundList bounds ++ tyNodesOfTyOpt default
  | .GPDKConst type _ => tyNodes type

/-- `Ty` nodes nested in a `WherePredicate`. -/
def tyNodesOfWherePredicate : WherePredicate → List Ty
  | .WPBoundPredicate type bounds gps =>
      tyNodes type ++ tyNodesOfGenericBoundList bounds ++
        tyNodesOfGenericParamDefList gps
  | .WPRegionPredicate _ bounds => tyNodesOfGenericBoundList bounds
  | .WPEqPredicate lhs rhs => tyNodes lhs ++ tyNodesOfTerm rhs

/-- `Ty` nodes nested in a sequence of `WherePredicate`. -/
def tyNodesOfWherePredicateList : List WherePredicate → List Ty
  | [] => []
  | p :: rest => tyNodesOfWherePredicate p ++ tyNodesOfWherePredicateList rest

/-- `Ty` nodes nested in a `Generics`. -/
def tyNodesOfGenerics : Generics → List Ty
  | .mk params wps =>
      tyNodesOfGenericParamDefList params ++ tyNodesOfWherePredicateList wps

/-- `Ty` nodes nested in an `FnPtr`. -/
def tyNodesOfFnPtr : FnPtr → List Ty
  | .mk decl gps _ => tyNodesOfFnDecl decl ++ tyNodesOfGenericParamDefList gps

/-- `Ty` nodes nested in an `FnDecl`: inputs in declaration order, then the
output. -/
def tyNodesOfFnDecl : FnDecl → List Ty
  | .mk inputs output _ => tyNodesOfFnInputs inputs ++ tyNodesOfTyOpt output

/-- `Ty` nodes nested in an `FnDecl.inputs` sequence, in order. -/
def tyNodesOfFnInputs : List (String × Ty) → List Ty
  | [] => []
  | (_, t) :: rest => tyNodes t ++ tyNodesOfFnInputs rest

end

/-- The proper subnodes of a `Ty`: every `Ty` strictly nested in it. -/
def tySubnodes (t : Ty) : List Ty := (tyNodes t).tail

/-- The `Id` references a single `Ty` node carries directly (not through a
nested `Ty`): only a resolved path carries one. -/
def tyOwnIds : Ty → List Id
  | .TyResolvedPath _ id _ _ => [id]
  | _ => []

/-- Concatenation of the direct `Id` references of a node sequence. -/
def joinOwnIds : List Ty → List Id
  | [] => []
  | t :: rest => tyOwnIds t ++ joinOwnIds rest

mutual

/-- The number of `Ty` nodes of a type expression (the node itself plus
every nested `Ty`). -/
def tySize : Ty → Nat
  | .TyResolvedPath _ _ a p =>
      1 + (tySizeOfGenericArgsOpt a + tySizeOfGenericBoundList p)
  | .TyDynTrait d => 1 + tySizeOfDynTrait d
  | .TyGeneric _ => 1
  | .TyPrimitive _ => 1
  | .TyFunctionPtr f => 1 + tySizeOfFnPtr f
  | .TyTuple ts => 1 + tySizeOfTyList ts
  | .TySlice t => 1 + tySize t
  | .TyArray t _ => 1 + tySize t
  | .TyImplTrait bs => 1 + tySizeOfGenericBoundList bs
  | .TyInfer => 1
  | .TyRawPointer _ t => 1 + tySize t
  | .TyBorrowedRef _ _ t => 1 + tySize t
  | .TyQualifiedPath _ a s t =>
      1 + (tySizeOfGenericArgs a + tySize s + tySize t)

/-- Number of `Ty` nodes nested in an optional `Ty`. -/
def tySizeOfTyOpt : Option Ty → Nat
  | none => 0
  | some t => tySize t

/-- Number of `Ty` nodes nested in a sequence of `Ty`. -/
def tySizeOfTyList : List Ty → Nat
  | [] => 0
  | t :: rest => tySize t + tySizeOfTyList rest

/-- Number of `Ty` nodes nested in a `DynTrait`. -/
def tySizeOfDynTrait : DynTrait → Nat
  | .mk traits _ => tySizeOfPolyTraitList traits

/-- Number of `Ty` nodes nested in a `PolyTrait`. -/
def tySizeOfPolyTrait : PolyTrait → Nat
  | .mk trait gps => tySize trait + tySizeOfGenericParamDefList gps

/-- Number of `Ty` nodes nested in a sequence of `PolyTrait`. -/
def tySizeOfPolyTraitList : List PolyTrait → Nat
  | [] => 0
  | p :: rest => tySizeOfPolyTrait p + tySizeOfPolyTraitList rest

/-- Number of `Ty` nodes nested in a `GenericArgs`. -/
def tySizeOfGenericArgs : GenericArgs → Nat
  | .GAsAngleBracketed args bindings =>
      tySizeOfGenericArgList args + tySizeOfTypeBindingList bindings
  | .GAsParenthesized inputs output =>
      tySizeOfTyList inputs + tySizeOfTyOpt output

/-- Number of `Ty` nodes nested in an optional `GenericArgs`. -/
def tySizeOfGenericArgsOpt : Option GenericArgs → Nat
  | none => 0
  | some a => tySizeOfGenericArgs a

/-- Number of `Ty` nodes nested in a `GenericArg`. -/
def tySizeOfGenericArg : GenericArg → Nat
  | .GALifetime _ => 0
  | .GAType t => tySize t
  | .GAConst c => tySizeOfConstant c
  | .GAInfer => 0

/-- Number of `Ty` nodes nested in a sequence of `GenericArg`. -/
def tySizeOfGenericArgList : List GenericArg → Nat
  | [] => 0
  | a :: rest => tySizeOfGenericArg a + tySizeOfGenericArgList rest

/-- Number of `Ty` nodes nested in a `Constant`. -/
def tySizeOfConstant : Constant → Nat
  | .mk type _ _ _ => tySize type

/-- Number of `Ty` nodes nested in a `TypeBinding`. -/
def tySizeOfTypeBinding : TypeBinding → Nat
  | .mk _ args binding =>
      tySizeOfGenericArgs args + tySizeOfTypeBindingKind binding

/-- Number of `Ty` nodes nested in a sequence of `TypeBinding`. -/
def tySizeOfTypeBindingList : List TypeBinding → Nat
  | [] => 0
  | b :: rest => tySizeOfTypeBinding b + tySizeOfTypeBindingList rest

/-- Number of `Ty` nodes nested in a `TypeBindingKind`. -/
def tySizeOfTypeBindingKind : TypeBindingKind → Nat
  | .TBKEquality t => tySizeOfTerm t
  | .TBKConstraint bs => tySizeOfGenericBoundList bs

/-- Number of `Ty` nodes nested in a `Term`. -/
def tySizeOfTerm : Term → Nat
  | .TrType t => tySize t
  | .TrConstant c => tySizeOfConstant c

/-- Number of `Ty` nodes nested in a `GenericBound`. -/
def tySizeOfGenericBound : GenericBound → Nat
  | .GBTraitBound trait gps _ =>
      tySize trait + tySizeOfGenericParamDefList gps
  | .GBOutlives _ => 0

/-- Number of `Ty` nodes nested in a sequence of `GenericBound`. -/
def tySizeOfGenericBoundList : List GenericBound → Nat
  | [] => 0
  | b :: rest => tySizeOfGenericBound b + tySizeOfGenericBoundList rest

/-- Number of `Ty` nodes nested in a `GenericParamDef`. -/
def tySizeOfGenericParamDef : GenericParamDef → Nat
  | .mk _ kind => tySizeOfGenericParamDefKind kind

/-- Number of `Ty` nodes nested in a sequence of `GenericParamDef`. -/
def tySizeOfGenericParamDefList : List GenericParamDef → Nat
  | [] => 0
  | p :: rest => tySizeOfGenericParamDef p + tySizeOfGenericParamDefList rest

/-- Number of `Ty` nodes nested in a `GenericParamDefKind`. -/
def tySizeOfGenericParamDefKind : GenericParamDefKind → Nat
  | .GPDKLifetime _ => 0
  | .GPDKType bounds default _ =>
      tySizeOfGenericBoundList bounds + tySizeOfTyOpt default
  | .GPDKConst type _ => tySize type

/-- Number of `Ty` nodes nested in a `WherePredicate`. -/
def tySizeOfWherePredicate : WherePredicate → Nat
  | .WPBoundPredicate type bounds gps =>
      tySize type + tySizeOfGenericBoundList bounds +
        tySizeOfGenericParamDefList gps
  | .WPRegionPredicate _ bounds => tySizeOfGenericBoundList bounds
  | .WPEqPredicate lhs rhs => tySize lhs + tySizeOfTerm rhs

/-- Number of `Ty` nodes nested in a sequence of `WherePredicate`. -/
def tySizeOfWherePredicateList : List WherePredicate → Nat
  | [] => 0
  | p :: rest => tySizeOfWherePredicate p + tySizeOfWherePredicateList rest

/-- Number of `Ty` nodes nested in a `Generics`. -/
def tySizeOfGenerics : Generics → Nat
  | .mk params wps =>
      tySizeOfGenericParamDefList params + tySizeOfWherePredicateList wps

/-- Number of `Ty` nodes nested in an `FnPtr`. -/
def tySizeOfFnPtr : FnPtr → Nat
  | .mk decl gps _ => tySizeOfFnDecl decl + tySizeOfGenericParamDefList gps

/-- Number of `Ty` nodes nested in an `FnDecl`. -/
def tySizeOfFnDecl : FnDecl → Nat
  | .mk inputs output _ => tySizeOfFnInputs inputs + tySizeOfTyOpt output

/-- Number of `Ty` nodes nested in an `FnDecl.inputs` sequence. -/
def tySizeOfFnInputs : List (String × Ty) → Nat
  | [] => 0
  | (_, t) :: rest => tySize t + tySizeOfFnInputs rest

end

/-- The closed list of `Visibility` discriminant tags. -/
def visibilityTags : List String := ["Public", "Default", "Crate", "Restricted"]

/-- The closed list of `Ty` (source `Type`) discriminant tags, in
declaration order. -/
def tyTags : List String :=
  ["ResolvedPath", "DynTrait", "Generic", "Primitive", "FunctionPtr",
   "Tuple", "Slice", "Array", "ImplTrait", "Infer", "RawPointer",
   "BorrowedRef", "QualifiedPath"]

/-- The closed list of `GenericBound` discriminant tags. -/
def genericBoundTags : List String := ["TraitBound", "Outlives"]

/-- Measure of an optional wire value. -/
def sizeOptJ : Option Json → Nat
  | none => 0
  | some j => j.size

/-- The decoded crate's `root` resolves through `index` to a `Module`-kind
item (spec section 4.4 step 7). -/
def rootIsModule (c : Crate) : Prop :=
  ∃ it m, assocLookup c.index c.root = some it ∧ it.inner = .IEModule m

/-- Position of an `ItemEnum` discriminant tag in the declaration order of
the union (an unknown string maps past the end). -/
def itemEnumTagIdx : String → Nat
  | "Module" => 0
  | "ExternCrate" => 1
  | "Import" => 2
  | "Union" => 3
  | "Struct" => 4
  | "StructField" => 5
  | "Enum" => 6
  | "Variant" => 7
  | "Function" => 8
  | "Trait" => 9
  | "TraitAlias" => 10
  | "Method" => 11
  | "Impl" => 12
  | "Typedef" => 13
  | "OpaqueTy" => 14
  | "Constant" => 15
  | "Static" => 16
  | "ForeignType" => 17
  | "Macro" => 18
  | "ProcMacro" => 19
  | "PrimitiveType" => 20
  | "AssocConst" => 21
  | "AssocType" => 22
  | _ => 23

/-- Position of a `Ty` discriminant tag in the declaration order of the
union. -/
def tyTagIdx : String → Nat
  | "ResolvedPath" => 0
  | "DynTrait" => 1
  | "Generic" => 2
  | "Primitive" => 3
  | "FunctionPtr" => 4
  | "Tuple" => 5
  | "Slice" => 6
  | "Array" => 7
  | "ImplTrait" => 8
  | "Infer" => 9
  | "RawPointer" => 10
  | "BorrowedRef" => 11
  | "QualifiedPath" => 12
  | _ => 13

/-- Position of an `Abi` discriminant tag in the declaration order of the
union. -/
def abiTagIdx : String → Nat
  | "Rust" => 0
  | "C" => 1
  | "Cdecl" => 2
  | "Stdcall" => 3
  | "Fastcall" => 4
  | "Aapcs" => 5
  | "Win64" => 6
  | "SysV64" => 7
  | "System" => 8
  | "Other" => 9
  | _ => 10

/-! ## Scenario inputs (spec section 8) -/

/-- The top-level fields of the spec's success scenario: a crate whose root
`0:0` is an empty module, `format_version` 17. -/
def scenario1Fields : List (String × Json) :=
  [("root", .str "0:0"),
   ("includes_private", .bool false),
   ("index", .obj [("0:0", .obj [
      ("id", .str "0:0"), ("crate_id", .num 0),
      ("visibility", .obj [("tag", .str "Public")]),
      ("links", .obj []), ("attrs", .arr []),
      ("inner", .obj [("tag", .str "Module"), ("is_crate", .bool true),
        ("items", .arr []), ("is_stripped", .bool false)])])]),
   ("paths", .obj []),
   ("external_crates", .obj []),
   ("format_version", .num 17)]

/-- The identical input with `format_version` 16. -/
def scenario1Fields16 : List (String × Json) :=
  [("root", .str "0:0"),
   ("includes_private", .bool false),
   ("index", .obj [("0:0", .obj [
      ("id", .str "0:0"), ("crate_id", .num 0),
      ("visibility", .obj [("tag", .str "Public")]),
      ("links", .obj []), ("attrs", .arr []),
      ("inner", .obj [("tag", .str "Module"), ("is_crate", .bool true),
        ("items", .arr []), ("is_stripped", .bool false)])])]),
   ("paths", .obj []),
   ("external_crates", .obj []),
   ("format_version", .num 16)]

/-- The dangling-reference scenario: an `Impl` item whose `for` type is a
resolved path with id `9:9`, which is present in neither `index` nor
`paths`. -/
def scenario2Raw : Json :=
  .obj [("root", .str "0:0"),
        ("includes_private", .bool false),
        ("index", .obj [
          ("0:0", .obj [
            ("id", .str "0:0"), ("crate_id", .num 0),
            ("visibility", .obj [("tag", .str "Public")]),
            ("links", .obj []), ("attrs", .arr []),
            ("inner", .obj [("tag", .str "Module"),
              ("is_crate", .bool true),
              ("items", .arr [.str "0:1"]),
              ("is_stripped", .bool false)])]),
          ("0:1", .obj [
            ("id", .str "0:1"), ("crate_id", .num 0),
            ("visibility", .obj [("tag", .str "Default")]),
            ("links", .obj []), ("attrs", .arr []),
            ("inner", .obj [("tag", .str "Impl"),
              ("is_unsafe", .bool false),
              ("generics", .obj [("params", .arr []),
                ("where_predicates", .arr [])]),
              ("provided_trait_methods", .arr []),
              ("for", .obj [("tag", .str "ResolvedPath"),
                ("name", .str "Foo"), ("id", .str "9:9"),
                ("param_names", .arr [])]),
              ("items", .arr []),
              ("negative", .bool false),
              ("synthetic", .bool false)])])]),
        ("paths", .obj []),
        ("external_crates", .obj []),
        ("format_version", .num 17)]

/-- An input whose item `0:1` carries an unrecognized `inner` discriminant
`Wibble`. -/
def scenario3Raw : Json :=
  .obj [("root", .str "0:0"),
        ("includes_private", .bool false),
        ("index", .obj [
          ("0:0", .obj [
            ("id", .str "0:0"), ("crate_id", .num 0),
            ("visibility", .obj [("tag", .str "Public")]),
            ("links", .obj []), ("attrs", .arr []),
            ("inner", .obj [("tag", .str "Module"),
              ("is_crate", .bool true),
              ("items", .arr [.str "0:1"]),
              ("is_stripped", .bool false)])]),
          ("0:1", .obj [
            ("id", .str "0:1"), ("crate_id", .num 0),
            ("visibility", .obj [("tag", .str "Default")]),
            ("links", .obj []), ("attrs", .arr []),
            ("inner", .obj [("tag", .str "Wibble")])])]),
        ("paths", .obj []),
        ("external_crates", .obj []),
        ("format_version", .num 17)]

/-- The crate the spec's success scenario decodes to. -/
def scenario1Crate : Crate :=
  ⟨"0:0", none, false,
   [("0:0", ⟨"0:0", 0, none, none, .VisPublic, none, [], [], none,
     .IEModule ⟨true, [], false⟩⟩)], [], [], 17⟩

/-- The crate the dangling-reference scenario decodes to. -/
def scenario2Crate : Crate :=
  ⟨"0:0", none, false,
   [("0:0", ⟨"0:0", 0, none, none, .VisPublic, none, [], [], none,
     .IEModule ⟨true, ["0:1"], false⟩⟩),
    ("0:1", ⟨"0:1", 0, none, none, .VisDefault, none, [], [], none,
     .IEImpl ⟨false, .mk [] [], [], none,
       .TyResolvedPath "Foo" "9:9" none [], [], false, false, none⟩⟩)],
   [], [], 17⟩

/-- A small hand-constructed crate for exercising the Graph Resolver: one
item in `index`, one summary in `paths`. -/
def demoCrate : Crate :=
  ⟨"a", none, false,
   [("a", ⟨"a", 0, none, none, .VisPublic, none, [], [], none,
     .IEModule ⟨true, [], false⟩⟩)],
   [("b", ⟨1, ["ext", "b"], .Struct⟩)], [], 17⟩

/-! # Theorems -/

/-! ## Generic helpers -/

theorem exbind_ok {α β : Type} (a : α) (f : α → Except DecodeError β) :
    (Except.ok a >>= f : Except DecodeError β) = f a := rfl

theorem exbind_err {α β : Type} (e : DecodeError)
    (f : α → Except DecodeError β) :
    (Except.error e >>= f : Except DecodeError β) = .error e := rfl

theorem expure {α : Type} (a : α) :
    (pure a : Except DecodeError α) = .ok a := rfl

theorem exthrow {α : Type} (e : DecodeError) :
    (throw e : Except DecodeError α) = .error e := rfl

theorem exbind_eq_ok {α β : Type} {m : Except DecodeError α}
    {f : α → Except DecodeError β} {b : β} :
    (m >>= f) = .ok b ↔ ∃ a, m = .ok a ∧ f a = .ok b := by
  cases m with
  | ok a => simp [exbind_ok]
  | error e => simp [exbind_err]

/-! ## Wire-size lemmas -/

theorem size_pos (j : Json) : 1 ≤ j.size := by
  cases j <;> simp [Json.size]

theorem sizeFields_append (a b : List (String × Json)) :
    Json.sizeFields (a ++ b) = Json.sizeFields a + Json.sizeFields b := by
  induction a with
  | nil => simp [Json.sizeFields]
  | cons kv rest ih => simp [Json.sizeFields, ih]; omega

theorem sizeOptJ_le (k : String) (o : Option Json) :
    sizeOptJ o ≤ Json.sizeFields (optField k o) := by
  cases o <;> simp [sizeOptJ, optField, Json.sizeFields]

theorem size_le_of_mem_fields (fields : List (String × Json))
    (k : String) (j : Json) :
    (k, j) ∈ fields → j.size ≤ Json.sizeFields fields := by
  induction fields with
  | nil => intro h; cases h
  | cons kv rest ih =>
    intro h
    cases h with
    | head =>
      simp [Json.sizeFields]
      omega
    | tail _ hmem =>
      have := ih hmem
      simp [Json.sizeFields]
      omega

/-! ## Stringified-key codec -/

theorem charDigit_digitChar {d : Nat} (h : d < 10) :
    charDigit (digitChar d) = d := by
  interval_cases d <;> decide

theorem isDigitChar_digitChar {d : Nat} (h : d < 10) :
    isDigitChar (digitChar d) = true := by
  interval_cases d <;> decide

theorem parseNatKey_natKey (n : Nat) : parseNatKey (natKey n) = some n := by
  by_cases h0 : n = 0
  · subst h0
    decide
  · have hne : Nat.digits 10 n ≠ [] := Nat.digits_ne_nil_iff_ne_zero.mpr h0
    have hlt : ∀ d ∈ Nat.digits 10 n, d < 10 := fun d hd =>
      Nat.digits_lt_base (by norm_num) hd
    unfold natKey parseNatKey
    rw [if_neg h0]
    have hdata : (String.mk ((Nat.digits 10 n).map digitChar).reverse).data
        = ((Nat.digits 10 n).map digitChar).reverse := rfl
    rw [hdata]
    rw [if_neg (by simpa using hne)]
    rw [if_pos]
    · congr 1
      rw [List.map_reverse, List.reverse_reverse, List.map_map]
      have : (Nat.digits 10 n).map (charDigit ∘ digitChar)
          = (Nat.digits 10 n).map id :=
        List.map_congr_left fun d hd => charDigit_digitChar (hlt d hd)
      rw [this, List.map_id, Nat.ofDigits_digits]
    · rw [List.all_eq_true]
      intro c hc
      rw [List.mem_reverse, List.mem_map] at hc
      obtain ⟨d, hd, rfl⟩ := hc
      exact isDigitChar_digitChar (hlt d hd)

/-! ## Round-trip lemmas: leaf decoders -/

theorem asNat_ofNat (k : String) (n : Nat) :
    asNat k (.num (n : Int)) = .ok n := by
  simp only [asNat]
  rw [if_neg (by omega)]
  simp

theorem isNull_str (s : String) : (Json.str s).isNull = false := rfl

theorem isNull_obj (fields : List (String × Json)) :
    (Json.obj fields).isNull = false := rfl

theorem isNull_arr (xs : List Json) : (Json.arr xs).isNull = false := rfl

theorem rtVisibility (v : Visibility) :
    decodeVisibility (encVisibility v) = .ok v := by
  cases v <;>
    simp [decodeVisibility, encVisibility, asObj, reqStr, reqField,
      lookupField, asStr, exbind_ok, expure]

theorem rtAbi (a : Abi) : decodeAbi (encAbi a) = .ok a := by
  cases a <;>
    simp [decodeAbi, encAbi, asObj, reqStr, reqBool, reqField, lookupField,
      asStr, asBool, exbind_ok, expure]

theorem rtHeader (h : Header) : decodeHeader (encHeader h) = .ok h := by
  simp [decodeHeader, encHeader, asObj, reqBool, reqField, lookupField,
    asBool, exbind_ok, expure, rtAbi]

theorem rtSpan (s : Span) : decodeSpan (encSpan s) = .ok s := by
  simp [decodeSpan, encSpan, asObj, reqStr, reqField, lookupField, asStr,
    decodePos, exbind_ok, expure]

theorem rtDeprecation (d : Deprecation) :
    decodeDeprecation (encDeprecation d) = .ok d := by
  obtain ⟨since, note⟩ := d
  cases since <;> cases note <;>
    simp [decodeDeprecation, encDeprecation, asObj, optStr, lookupOpt,
      lookupField, optField, asStr, isNull_str, isNull_obj, isNull_arr, exbind_ok, expure]

theorem rtStructType (st : StructType) :
    decodeStructType (.str st.name) = .ok st := by
  cases st <;> simp [decodeStructType, StructType.name, asStr, exbind_ok,
    expure]

theorem rtTraitBoundModifier (m : TraitBoundModifier) :
    decodeTraitBoundModifier (.str m.name) = .ok m := by
  cases m <;> simp [decodeTraitBoundModifier, TraitBoundModifier.name,
    asStr, exbind_ok, expure]

theorem rtMacroKind (m : MacroKind) : decodeMacroKind (.str m.name) = .ok m := by
  cases m <;> simp [decodeMacroKind, MacroKind.name, asStr, exbind_ok, expure]

theorem rtItemKind (k : ItemKind) : decodeItemKind (.str k.name) = .ok k := by
  cases k <;> rfl

theorem rtExternalCrate (e : ExternalCrate) :
    decodeExternalCrate (encExternalCrate e) = .ok e := by
  obtain ⟨name, url⟩ := e
  cases url <;>
    simp [decodeExternalCrate, encExternalCrate, asObj, reqStr, reqField,
      lookupField, optStr, lookupOpt, optField, asStr, isNull_str, isNull_obj, isNull_arr,
      exbind_ok, expure]

theorem rtStrElems (k : String) (xs : List String) :
    decodeStrElems k (xs.map .str) = .ok xs := by
  induction xs with
  | nil => simp [decodeStrElems, expure]
  | cons s rest ih =>
    simp [decodeStrElems, asStr, exbind_ok, expure, ih]

theorem rtStrList (k : String) (xs : List String) :
    decodeStrList k (encStrList xs) = .ok xs := by
  simp [decodeStrList, encStrList, asArr, exbind_ok, expure, rtStrElems]

theorem rtIdList (k : String) (xs : List Id) :
    decodeStrList k (encIdList xs) = .ok xs := by
  simp [decodeStrList, encIdList, asArr, exbind_ok, expure, rtStrElems]

theorem rtItemSummary (s : ItemSummary) :
    decodeItemSummary (encItemSummary s) = .ok s := by
  simp [decodeItemSummary, encItemSummary, asObj, reqNat, reqField,
    lookupField, asNat_ofNat, exbind_ok, expure, rtStrList, rtItemKind]

theorem rtLinkEntries (links : List (String × Id)) :
    decodeLinkEntries (links.map fun kv => (kv.1, .str kv.2)) = .ok links := by
  induction links with
  | nil => simp [decodeLinkEntries, expure]
  | cons kv rest ih =>
    simp [decodeLinkEntries, asStr, exbind_ok, expure, ih]

/-! ## Round-trip lemmas: the recursive knot -/

theorem isNull_encTy (t : Ty) : (encTy t).isNull = false := by
  cases t <;> rfl

theorem isNull_encGenericArgs (a : GenericArgs) :
    (encGenericArgs a).isNull = false := by
  cases a <;> rfl

theorem rtTyOptNone (fuel : Nat) (h : 0 < fuel) :
    decodeTyOpt fuel none = .ok none := by
  cases fuel with
  | zero => omega
  | succ f => rfl

theorem rtGenericArgsOptNone (fuel : Nat) (h : 0 < fuel) :
    decodeGenericArgsOpt fuel none = .ok none := by
  cases fuel with
  | zero => omega
  | succ f => rfl

mutual

theorem rtTy (t : Ty) (fuel : Nat) (h : (encTy t).size ≤ fuel) :
    decodeTy fuel (encTy t) = .ok t := by
  cases fuel with
  | zero => exact absurd (size_pos (encTy t)) (by omega)
  | succ fuel =>
  cases t with
  | TyResolvedPath name id args pn =>
    cases args with
    | none =>
      simp [encTy, encGenericArgsOpt, optField, Json.size, Json.sizeFields]
        at h
      simp [encTy, encGenericArgsOpt, optField, decodeTy, asObj, reqStr,
        reqField, lookupField, asStr, asArr, lookupOpt, exbind_ok, expure,
        rtGenericArgsOptNone fuel (by omega),
        rtGenericBoundElems pn fuel (by omega)]
    | some ga =>
      simp [encTy, encGenericArgsOpt, optField, Json.size, Json.sizeFields]
        at h
      simp [encTy, encGenericArgsOpt, optField, decodeTy, asObj, reqStr,
        reqField, lookupField, asStr, asArr, lookupOpt, isNull_encGenericArgs, exbind_ok, expure,
        rtGenericArgsOptSome ga fuel (by omega),
        rtGenericBoundElems pn fuel (by omega)]
  | TyDynTrait d =>
    simp [encTy, Json.size, Json.sizeFields] at h
    simp [encTy, decodeTy, asObj, reqStr, reqField, lookupField, asStr,
      exbind_ok, expure, rtDynTrait d fuel (by omega)]
  | TyGeneric s =>
    simp [encTy, decodeTy, asObj, reqStr, reqField, lookupField, asStr,
      exbind_ok, expure]
  | TyPrimitive s =>
    simp [encTy, decodeTy, asObj, reqStr, reqField, lookupField, asStr,
      exbind_ok, expure]
  | TyFunctionPtr f =>
    simp [encTy, Json.size, Json.sizeFields] at h
    simp [encTy, decodeTy, asObj, reqStr, reqField, lookupField, asStr,
      exbind_ok, expure, rtFnPtr f fuel (by omega)]
  | TyTuple ts =>
    simp [encTy, Json.size, Json.sizeFields] at h
    simp [encTy, decodeTy, asObj, reqStr, reqField, lookupField, asStr,
      asArr, exbind_ok, expure, rtTyElems ts fuel (by omega)]
  | TySlice t' =>
    simp [encTy, Json.size, Json.sizeFields] at h
    simp [encTy, decodeTy, asObj, reqStr, reqField, lookupField, asStr,
      exbind_ok, expure, rtTy t' fuel (by omega)]
  | TyArray t' len =>
    simp [encTy, Json.size, Json.sizeFields] at h
    simp [encTy, decodeTy, asObj, reqStr, reqField, lookupField, asStr,
      exbind_ok, expure, rtTy t' fuel (by omega)]
  | TyImplTrait bs =>
    simp [encTy, Json.size, Json.sizeFields] at h
    simp [encTy, decodeTy, asObj, reqStr, reqField, lookupField, asStr,
      asArr, exbind_ok, expure, rtGenericBoundElems bs fuel (by omega)]
  | TyInfer =>
    simp [encTy, decodeTy, asObj, reqStr, reqField, lookupField, asStr,
      exbind_ok, expure]
  | TyRawPointer m t' =>
    simp [encTy, Json.size, Json.sizeFields] at h
    simp [encTy, decodeTy, asObj, reqStr, reqField, reqBool, lookupField,
      asStr, asBool, exbind_ok, expure, rtTy t' fuel (by omega)]
  | TyBorrowedRef lt m t' =>
    cases lt with
    | none =>
      simp [encTy, optField, Json.size, Json.sizeFields] at h
      simp [encTy, optField, decodeTy, asObj, reqStr, reqField, reqBool,
        lookupField, asStr, asBool, optStr, lookupOpt, exbind_ok, expure,
        rtTy t' fuel (by omega)]
    | some l =>
      simp [encTy, optField, Json.size, Json.sizeFields] at h
      simp [encTy, optField, decodeTy, asObj, reqStr, reqField, reqBool,
        lookupField, asStr, asBool, optStr, lookupOpt, isNull_str, isNull_obj, isNull_arr,
        exbind_ok, expure, rtTy t' fuel (by omega)]
  | TyQualifiedPath name a st tr =>
    simp [encTy, Json.size, Json.sizeFields] at h
    simp [encTy, decodeTy, asObj, reqStr, reqField, lookupField, asStr,
      exbind_ok, expure, rtGenericArgs a fuel (by omega),
      rtTy st fuel (by omega), rtTy tr fuel (by omega)]

theorem rtTyOptSome (t : Ty) (fuel : Nat) (h : (encTy t).size < fuel) :
    decodeTyOpt fuel (some (encTy t)) = .ok (some t) := by
  cases fuel with
  | zero => omega
  | succ fuel =>
    simp [decodeTyOpt, exbind_ok, expure, rtTy t fuel (by omega)]

theorem rtTyElems (ts : List Ty) (fuel : Nat)
    (h : Json.sizeElems (encTyList ts) < fuel) :
    decodeTyElems fuel (encTyList ts) = .ok ts := by
  cases fuel with
  | zero => omega
  | succ fuel =>
  cases ts with
  | nil => simp [encTyList, decodeTyElems, expure]
  | cons t rest =>
    simp [encTyList, Json.sizeElems] at h
    simp [encTyList, decodeTyElems, exbind_ok, expure,
      rtTy t fuel (by omega), rtTyElems rest fuel (by omega)]

theorem rtDynTrait (d : DynTrait) (fuel : Nat)
    (h : (encDynTrait d).size ≤ fuel) :
    decodeDynTrait fuel (encDynTrait d) = .ok d := by
  cases fuel with
  | zero => exact absurd (size_pos (encDynTrait d)) (by omega)
  | succ fuel =>
  cases d with
  | mk traits lt =>
    cases lt with
    | none =>
      simp [encDynTrait, optField, Json.size, Json.sizeFields] at h
      simp [encDynTrait, optField, decodeDynTrait, asObj, reqField,
        lookupField, asArr, optStr, lookupOpt, exbind_ok, expure,
        rtPolyTraitElems traits fuel (by omega)]
    | some l =>
      simp [encDynTrait, optField, Json.size, Json.sizeFields] at h
      simp [encDynTrait, optField, decodeDynTrait, asObj, reqField,
        lookupField, asArr, asStr, optStr, lookupOpt, isNull_str, isNull_obj, isNull_arr,
        exbind_ok, expure, rtPolyTraitElems traits fuel (by omega)]

theorem rtPolyTrait (p : PolyTrait) (fuel : Nat)
    (h : (encPolyTrait p).size ≤ fuel) :
    decodePolyTrait fuel (encPolyTrait p) = .ok p := by
  cases fuel with
  | zero => exact absurd (size_pos (encPolyTrait p)) (by omega)
  | succ fuel =>
  cases p with
  | mk trait gps =>
    simp [encPolyTrait, Json.size, Json.sizeFields] at h
    simp [encPolyTrait, decodePolyTrait, asObj, reqField, lookupField,
      asArr, exbind_ok, expure, rtTy trait fuel (by omega),
      rtGenericParamDefElems gps fuel (by omega)]

theorem rtPolyTraitElems (ps : List PolyTrait) (fuel : Nat)
    (h : Json.sizeElems (encPolyTraitList ps) < fuel) :
    decodePolyTraitElems fuel (encPolyTraitList ps) = .ok ps := by
  cases fuel with
  | zero => omega
  | succ fuel =>
  cases ps with
  | nil => simp [encPolyTraitList, decodePolyTraitElems, expure]
  | cons p rest =>
    simp [encPolyTraitList, Json.sizeElems] at h
    simp [encPolyTraitList, decodePolyTraitElems, exbind_ok, expure,
      rtPolyTrait p fuel (by omega), rtPolyTraitElems rest fuel (by omega)]

theorem rtGenericArgs (a : GenericArgs) (fuel : Nat)
    (h : (encGenericArgs a).size ≤ fuel) :
    decodeGenericArgs fuel (encGenericArgs a) = .ok a := by
  cases fuel with
  | zero => exact absurd (size_pos (encGenericArgs a)) (by omega)
  | succ fuel =>
  cases a with
  | GAsAngleBracketed args bindings =>
    simp [encGenericArgs, Json.size, Json.sizeFields] at h
    simp [encGenericArgs, decodeGenericArgs, asObj, reqStr, reqField,
      lookupField, asStr, asArr, exbind_ok, expure,
      rtGenericArgElems args fuel (by omega),
      rtTypeBindingElems bindings fuel (by omega)]
  | GAsParenthesized inputs output =>
    cases output with
    | none =>
      simp [encGenericArgs, encTyOpt, optField, Json.size, Json.sizeFields]
        at h
      simp [encGenericArgs, encTyOpt, optField, decodeGenericArgs, asObj,
        reqStr, reqField, lookupField, asStr, asArr, lookupOpt, exbind_ok,
        expure, rtTyElems inputs fuel (by omega),
        rtTyOptNone fuel (by omega)]
    | some t =>
      simp [encGenericArgs, encTyOpt, optField, Json.size, Json.sizeFields]
        at h
      simp [encGenericArgs, encTyOpt, optField, decodeGenericArgs, asObj,
        reqStr, reqField, lookupField, asStr, asArr, lookupOpt, isNull_str, isNull_obj, isNull_arr,
        isNull_encTy, exbind_ok, expure, rtTyElems inputs fuel (by omega),
        rtTyOptSome t fuel (by omega)]

theorem rtGenericArgsOptSome (a : GenericArgs) (fuel : Nat)
    (h : (encGenericArgs a).size < fuel) :
    decodeGenericArgsOpt fuel (some (encGenericArgs a)) = .ok (some a) := by
  cases fuel with
  | zero => omega
  | succ fuel =>
    simp [decodeGenericArgsOpt, exbind_ok, expure,
      rtGenericArgs a fuel (by omega)]

theorem rtGenericArg (a : GenericArg) (fuel : Nat)
    (h : (encGenericArg a).size ≤ fuel) :
    decodeGenericArg fuel (encGenericArg a) = .ok a := by
  cases fuel with
  | zero => exact absurd (size_pos (encGenericArg a)) (by omega)
  | succ fuel =>
  cases a with
  | GALifetime s =>
    simp [encGenericArg, decodeGenericArg, asObj, reqStr, reqField,
      lookupField, asStr, exbind_ok, expure]
  | GAType t =>
    simp [encGenericArg, Json.size, Json.sizeFields] at h
    simp [encGenericArg, decodeGenericArg, asObj, reqStr, reqField,
      lookupField, asStr, exbind_ok, expure, rtTy t fuel (by omega)]
  | GAConst c =>
    simp [encGenericArg, Json.size, Json.sizeFields] at h
    simp [encGenericArg, decodeGenericArg, asObj, reqStr, reqField,
      lookupField, asStr, exbind_ok, expure, rtConstant c fuel (by omega)]
  | GAInfer =>
    simp [encGenericArg, decodeGenericArg, asObj, reqStr, reqField,
      lookupField, asStr, exbind_ok, expure]

theorem rtGenericArgElems (as_ : List GenericArg) (fuel : Nat)
    (h : Json.sizeElems (encGenericArgList as_) < fuel) :
    decodeGenericArgElems fuel (encGenericArgList as_) = .ok as_ := by
  cases fuel with
  | zero => omega
  | succ fuel =>
  cases as_ with
  | nil => simp [encGenericArgList, decodeGenericArgElems, expure]
  | cons a rest =>
    simp [encGenericArgList, Json.sizeElems] at h
    simp [encGenericArgList, decodeGenericArgElems, exbind_ok, expure,
      rtGenericArg a fuel (by omega),
      rtGenericArgElems rest fuel (by omega)]

theorem rtConstant (c : Constant) (fuel : Nat)
    (h : (encConstant c).size ≤ fuel) :
    decodeConstant fuel (encConstant c) = .ok c := by
  cases fuel with
  | zero => exact absurd (size_pos (encConstant c)) (by omega)
  | succ fuel =>
  cases c with
  | mk type expr value is_literal =>
    cases value with
    | none =>
      simp [encConstant, optField, Json.size, Json.sizeFields] at h
      simp [encConstant, optField, decodeConstant, asObj, reqStr, reqField,
        reqBool, lookupField, asStr, asBool, optStr, lookupOpt, exbind_ok,
        expure, rtTy type fuel (by omega)]
    | some v =>
      simp [encConstant, optField, Json.size, Json.sizeFields] at h
      simp [encConstant, optField, decodeConstant, asObj, reqStr, reqField,
        reqBool, lookupField, asStr, asBool, optStr, lookupOpt, isNull_str, isNull_obj, isNull_arr,
        exbind_ok, expure, rtTy type fuel (by omega)]

theorem rtTypeBinding (b : TypeBinding) (fuel : Nat)
    (h : (encTypeBinding b).size ≤ fuel) :
    decodeTypeBinding fuel (encTypeBinding b) = .ok b := by
  cases fuel with
  | zero => exact absurd (size_pos (encTypeBinding b)) (by omega)
  | succ fuel =>
  cases b with
  | mk name args binding =>
    simp [encTypeBinding, Json.size, Json.sizeFields] at h
    simp [encTypeBinding, decodeTypeBinding, asObj, reqStr, reqField,
      lookupField, asStr, exbind_ok, expure,
      rtGenericArgs args fuel (by omega),
      rtTypeBindingKind binding fuel (by omega)]

theorem rtTypeBindingElems (bs : List TypeBinding) (fuel : Nat)
    (h : Json.sizeElems (encTypeBindingList bs) < fuel) :
    decodeTypeBindingElems fuel (encTypeBindingList bs) = .ok bs := by
  cases fuel with
  | zero => omega
  | succ fuel =>
  cases bs with
  | nil => simp [encTypeBindingList, decodeTypeBindingElems, expure]
  | cons b rest =>
    simp [encTypeBindingList, Json.sizeElems] at h
    simp [encTypeBindingList, decodeTypeBindingElems, exbind_ok, expure,
      rtTypeBinding b fuel (by omega),
      rtTypeBindingElems rest fuel (by omega)]

theorem rtTypeBindingKind (k : TypeBindingKind) (fuel : Nat)
    (h : (encTypeBindingKind k).size ≤ fuel) :
    decodeTypeBindingKind fuel (encTypeBindingKind k) = .ok k := by
  cases fuel with
  | zero => exact absurd (size_pos (encTypeBindingKind k)) (by omega)
  | succ fuel =>
  cases k with
  | TBKEquality t =>
    simp [encTypeBindingKind, Json.size, Json.sizeFields] at h
    simp [encTypeBindingKind, decodeTypeBindingKind, asObj, reqStr,
      reqField, lookupField, asStr, exbind_ok, expure,
      rtTerm t fuel (by omega)]
  | TBKConstraint bs =>
    simp [encTypeBindingKind, Json.size, Json.sizeFields] at h
    simp [encTypeBindingKind, decodeTypeBindingKind, asObj, reqStr,
      reqField, lookupField, asStr, asArr, exbind_ok, expure,
      rtGenericBoundElems bs fuel (by omega)]

theorem rtTerm (t : Term) (fuel : Nat) (h : (encTerm t).size ≤ fuel) :
    decodeTerm fuel (encTerm t) = .ok t := by
  cases fuel with
  | zero => exact absurd (size_pos (encTerm t)) (by omega)
  | succ fuel =>
  cases t with
  | TrType ty =>
    simp [encTerm, Json.size, Json.sizeFields] at h
    simp [encTerm, decodeTerm, asObj, reqStr, reqField, lookupField, asStr,
      exbind_ok, expure, rtTy ty fuel (by omega)]
  | TrConstant c =>
    simp [encTerm, Json.size, Json.sizeFields] at h
    simp [encTerm, decodeTerm, asObj, reqStr, reqField, lookupField, asStr,
      exbind_ok, expure, rtConstant c fuel (by omega)]

theorem rtGenericBound (b : GenericBound) (fuel : Nat)
    (h : (encGenericBound b).size ≤ fuel) :
    decodeGenericBound fuel (encGenericBound b) = .ok b := by
  cases fuel with
  | zero => exact absurd (size_pos (encGenericBound b)) (by omega)
  | succ fuel =>
  cases b with
  | GBTraitBound trait gps modifier =>
    simp [encGenericBound, Json.size, Json.sizeFields] at h
    simp [encGenericBound, decodeGenericBound, asObj, reqStr, reqField,
      lookupField, asStr, asArr, exbind_ok, expure,
      rtTy trait fuel (by omega),
      rtGenericParamDefElems gps fuel (by omega), rtTraitBoundModifier]
  | GBOutlives s =>
    simp [encGenericBound, decodeGenericBound, asObj, reqStr, reqField,
      lookupField, asStr, exbind_ok, expure]

theorem rtGenericBoundElems (bs : List GenericBound) (fuel : Nat)
    (h : Json.sizeElems (encGenericBoundList bs) < fuel) :
    decodeGenericBoundElems fuel (encGenericBoundList bs) = .ok bs := by
  cases fuel with
  | zero => omega
  | succ fuel =>
  cases bs with
  | nil => simp [encGenericBoundList, decodeGenericBoundElems, expure]
  | cons b rest =>
    simp [encGenericBoundList, Json.sizeElems] at h
    simp [encGenericBoundList, decodeGenericBoundElems, exbind_ok, expure,
      rtGenericBound b fuel (by omega),
      rtGenericBoundElems rest fuel (by omega)]

theorem rtGenericParamDef (p : GenericParamDef) (fuel : Nat)
    (h : (encGenericParamDef p).size ≤ fuel) :
    decodeGenericParamDef fuel (encGenericParamDef p) = .ok p := by
  cases fuel with
  | zero => exact absurd (size_pos (encGenericParamDef p)) (by omega)
  | succ fuel =>
  cases p with
  | mk name kind =>
    simp [encGenericParamDef, Json.size, Json.sizeFields] at h
    simp [encGenericParamDef, decodeGenericParamDef, asObj, reqStr,
      reqField, lookupField, asStr, exbind_ok, expure,
      rtGenericParamDefKind kind fuel (by omega)]

theorem rtGenericParamDefElems (ps : List GenericParamDef) (fuel : Nat)
    (h : Json.sizeElems (encGenericParamDefList ps) < fuel) :
    decodeGenericParamDefElems fuel (encGenericParamDefList ps) = .ok ps := by
  cases fuel with
  | zero => omega
  | succ fuel =>
  cases ps with
  | nil => simp [encGenericParamDefList, decodeGenericParamDefElems, expure]
  | cons p rest =>
    simp [encGenericParamDefList, Json.sizeElems] at h
    simp [encGenericParamDefList, decodeGenericParamDefElems, exbind_ok,
      expure, rtGenericParamDef p fuel (by omega),
      rtGenericParamDefElems rest fuel (by omega)]

theorem rtGenericParamDefKind (k : GenericParamDefKind) (fuel : Nat)
    (h : (encGenericParamDefKind k).size ≤ fuel) :
    decodeGenericParamDefKind fuel (encGenericParamDefKind k) = .ok k := by
  cases fuel with
  | zero => exact absurd (size_pos (encGenericParamDefKind k)) (by omega)
  | succ fuel =>
  cases k with
  | GPDKLifetime outlives =>
    simp [encGenericParamDefKind, decodeGenericParamDefKind, asObj, reqStr,
      reqField, lookupField, asStr, exbind_ok, expure, rtStrList]
  | GPDKType bounds default synthetic =>
    cases default with
    | none =>
      simp [encGenericParamDefKind, encTyOpt, optField, Json.size,
        Json.sizeFields] at h
      simp [encGenericParamDefKind, encTyOpt, optField,
        decodeGenericParamDefKind, asObj, reqStr, reqField, reqBool,
        lookupField, asStr, asBool, asArr, lookupOpt, exbind_ok, expure,
        rtGenericBoundElems bounds fuel (by omega),
        rtTyOptNone fuel (by omega)]
    | some t =>
      simp [encGenericParamDefKind, encTyOpt, optField, Json.size,
        Json.sizeFields] at h
      simp [encGenericParamDefKind, encTyOpt, optField,
        decodeGenericParamDefKind, asObj, reqStr, reqField, reqBool,
        lookupField, asStr, asBool, asArr, lookupOpt, isNull_str, isNull_obj, isNull_arr,
        isNull_encTy, exbind_ok, expure,
        rtGenericBoundElems bounds fuel (by omega),
        rtTyOptSome t fuel (by omega)]
  | GPDKConst type default =>
    cases default with
    | none =>
      simp [encGenericParamDefKind, optField, Json.size, Json.sizeFields]
        at h
      simp [encGenericParamDefKind, optField, decodeGenericParamDefKind,
        asObj, reqStr, reqField, lookupField, asStr, optStr, lookupOpt,
        exbind_ok, expure, rtTy type fuel (by omega)]
    | some d =>
      simp [encGenericParamDefKind, optField, Json.size, Json.sizeFields]
        at h
      simp [encGenericParamDefKind, optField, decodeGenericParamDefKind,
        asObj, reqStr, reqField, lookupField, asStr, optStr, lookupOpt,
        isNull_str, isNull_obj, isNull_arr, exbind_ok, expure, rtTy type fuel (by omega)]

theorem rtWherePredicate (p : WherePredicate) (fuel : Nat)
    (h : (encWherePredicate p).size ≤ fuel) :
    decodeWherePredicate fuel (encWherePredicate p) = .ok p := by
  cases fuel with
  | zero => exact absurd (size_pos (encWherePredicate p)) (by omega)
  | succ fuel =>
  cases p with
  | WPBoundPredicate type bounds gps =>
    simp [encWherePredicate, Json.size, Json.sizeFields] at h
    simp [encWherePredicate, decodeWherePredicate, asObj, reqStr, reqField,
      lookupField, asStr, asArr, exbind_ok, expure,
      rtTy type fuel (by omega),
      rtGenericBoundElems bounds fuel (by omega),
      rtGenericParamDefElems gps fuel (by omega)]
  | WPRegionPredicate lifetime bounds =>
    simp [encWherePredicate, Json.size, Json.sizeFields] at h
    simp [encWherePredicate, decodeWherePredicate, asObj, reqStr, reqField,
      lookupField, asStr, asArr, exbind_ok, expure,
      rtGenericBoundElems bounds fuel (by omega)]
  | WPEqPredicate lhs rhs =>
    simp [encWherePredicate, Json.size, Json.sizeFields] at h
    simp [encWherePredicate, decodeWherePredicate, asObj, reqStr, reqField,
      lookupField, asStr, exbind_ok, expure, rtTy lhs fuel (by omega),
      rtTerm rhs fuel (by omega)]

theorem rtWherePredicateElems (ps : List WherePredicate) (fuel : Nat)
    (h : Json.sizeElems (encWherePredicateList ps) < fuel) :
    decodeWherePredicateElems fuel (encWherePredicateList ps) = .ok ps := by
  cases fuel with
  | zero => omega
  | succ fuel =>
  cases ps with
  | nil => simp [encWherePredicateList, decodeWherePredicateElems, expure]
  | cons p rest =>
    simp [encWherePredicateList, Json.sizeElems] at h
    simp [encWherePredicateList, decodeWherePredicateElems, exbind_ok,
      expure, rtWherePredicate p fuel (by omega),
      rtWherePredicateElems rest fuel (by omega)]

theorem rtGenerics (g : Generics) (fuel : Nat)
    (h : (encGenerics g).size ≤ fuel) :
    decodeGenerics fuel (encGenerics g) = .ok g := by
  cases fuel with
  | zero => exact absurd (size_pos (encGenerics g)) (by omega)
  | succ fuel =>
  cases g with
  | mk params wps =>
    simp [encGenerics, Json.size, Json.sizeFields] at h
    simp [encGenerics, decodeGenerics, asObj, reqField, lookupField, asArr,
      exbind_ok, expure, rtGenericParamDefElems params fuel (by omega),
      rtWherePredicateElems wps fuel (by omega)]

theorem rtFnPtr (f : FnPtr) (fuel : Nat) (h : (encFnPtr f).size ≤ fuel) :
    decodeFnPtr fuel (encFnPtr f) = .ok f := by
  cases fuel with
  | zero => exact absurd (size_pos (encFnPtr f)) (by omega)
  | succ fuel =>
  cases f with
  | mk decl gps header =>
    simp [encFnPtr, Json.size, Json.sizeFields] at h
    simp [encFnPtr, decodeFnPtr, asObj, reqField, lookupField, asArr,
      exbind_ok, expure, rtFnDecl decl fuel (by omega),
      rtGenericParamDefElems gps fuel (by omega), rtHeader]

theorem rtFnDecl (d : FnDecl) (fuel : Nat) (h : (encFnDecl d).size ≤ fuel) :
    decodeFnDecl fuel (encFnDecl d) = .ok d := by
  cases fuel with
  | zero => exact absurd (size_pos (encFnDecl d)) (by omega)
  | succ fuel =>
  cases d with
  | mk inputs output c_variadic =>
    cases output with
    | none =>
      simp [encFnDecl, encTyOpt, optField, Json.size, Json.sizeFields] at h
      simp [encFnDecl, encTyOpt, optField, decodeFnDecl, asObj, reqField,
        reqBool, lookupField, asBool, asArr, lookupOpt, exbind_ok, expure,
        rtFnInputElems inputs fuel (by omega), rtTyOptNone fuel (by omega)]
    | some t =>
      simp [encFnDecl, encTyOpt, optField, Json.size, Json.sizeFields] at h
      simp [encFnDecl, encTyOpt, optField, decodeFnDecl, asObj, reqField,
        reqBool, lookupField, asBool, asArr, lookupOpt, isNull_str, isNull_obj, isNull_arr,
        isNull_encTy, exbind_ok, expure,
        rtFnInputElems inputs fuel (by omega),
        rtTyOptSome t fuel (by omega)]

theorem rtFnInputElems (inputs : List (String × Ty)) (fuel : Nat)
    (h : Json.sizeElems (encFnInputs inputs) < fuel) :
    decodeFnInputElems fuel (encFnInputs inputs) = .ok inputs := by
  cases fuel with
  | zero => omega
  | succ fuel =>
  cases inputs with
  | nil => simp [encFnInputs, decodeFnInputElems, expure]
  | cons nt rest =>
    obtain ⟨name, t⟩ := nt
    simp [encFnInputs, Json.sizeElems, Json.size] at h
    simp [encFnInputs, decodeFnInputElems, asStr, exbind_ok, expure,
      rtTy t fuel (by omega), rtFnInputElems rest fuel (by omega)]

end

/-! ## Round-trip lemmas: item layer -/

theorem rtVariant (v : Variant) (fuel : Nat)
    (h : (encVariant v).size ≤ fuel) :
    decodeVariant fuel (encVariant v) = .ok v := by
  cases v with
  | VPlain =>
    simp [encVariant, decodeVariant, asObj, reqStr, reqField, lookupField,
      asStr, exbind_ok, expure]
  | VTuple ts =>
    simp [encVariant, Json.size, Json.sizeFields] at h
    simp [encVariant, decodeVariant, asObj, reqStr, reqField, lookupField,
      asStr, asArr, exbind_ok, expure, rtTyElems ts fuel (by omega)]
  | VStruct ids =>
    simp [encVariant, decodeVariant, asObj, reqStr, reqField, lookupField,
      asStr, exbind_ok, expure, rtIdList]

theorem rtItemEnum (e : ItemEnum) (fuel : Nat)
    (h : (encItemEnum e).size ≤ fuel) :
    decodeItemEnum fuel (encItemEnum e) = .ok e := by
  cases e with
  | IEModule m =>
    simp [encItemEnum, decodeItemEnum, decodeIEModule, asObj, reqStr, reqField, reqBool,
      lookupField, asStr, asBool, exbind_ok, expure, rtIdList]
  | IEExternCrate name rename =>
    cases rename <;>
      simp [encItemEnum, optField, decodeItemEnum, decodeIEExternCrate, asObj, reqStr, reqField,
        lookupField, asStr, optStr, lookupOpt, isNull_str, exbind_ok, expure]
  | IEImport i =>
    obtain ⟨source, name, iid, glob⟩ := i
    cases iid <;>
      simp [encItemEnum, optField, decodeItemEnum, decodeIEImport, asObj, reqStr, reqField,
        reqBool, lookupField, asStr, asBool, optStr, lookupOpt, isNull_str,
        exbind_ok, expure]
  | IEUnion u =>
    simp [encItemEnum, Json.size, Json.sizeFields] at h
    simp [encItemEnum, decodeItemEnum, decodeIEUnion, asObj, reqStr, reqField, reqBool,
      lookupField, asStr, asBool, exbind_ok, expure, rtIdList,
      rtGenerics u.generics fuel (by omega)]
  | IEStruct s =>
    simp [encItemEnum, Json.size, Json.sizeFields] at h
    simp [encItemEnum, decodeItemEnum, decodeIEStruct, asObj, reqStr, reqField, reqBool,
      lookupField, asStr, asBool, exbind_ok, expure, rtIdList, rtStructType,
      rtGenerics s.generics fuel (by omega)]
  | IEStructField t =>
    simp [encItemEnum, Json.size, Json.sizeFields] at h
    simp [encItemEnum, decodeItemEnum, decodeIEStructField, asObj, reqStr, reqField, lookupField,
      asStr, exbind_ok, expure, rtTy t fuel (by omega)]
  | IEEnum en =>
    simp [encItemEnum, Json.size, Json.sizeFields] at h
    simp [encItemEnum, decodeItemEnum, decodeIEEnum, asObj, reqStr, reqField, reqBool,
      lookupField, asStr, asBool, exbind_ok, expure, rtIdList,
      rtGenerics en.generics fuel (by omega)]
  | IEVariant v =>
    simp [encItemEnum, Json.size, Json.sizeFields] at h
    simp [encItemEnum, decodeItemEnum, decodeIEVariant, asObj, reqStr, reqField, lookupField,
      asStr, exbind_ok, expure, rtVariant v fuel (by omega)]
  | IEFunction f =>
    simp [encItemEnum, Json.size, Json.sizeFields] at h
    simp [encItemEnum, decodeItemEnum, decodeIEFunction, asObj, reqStr, reqField, lookupField,
      asStr, exbind_ok, expure, rtHeader, rtFnDecl f.decl fuel (by omega),
      rtGenerics f.generics fuel (by omega)]
  | IETrait t =>
    simp [encItemEnum, Json.size, Json.sizeFields] at h
    simp [encItemEnum, decodeItemEnum, decodeIETrait, asObj, reqStr, reqField, reqBool,
      lookupField, asStr, asBool, asArr, exbind_ok, expure, rtIdList,
      rtGenerics t.generics fuel (by omega),
      rtGenericBoundElems t.bounds fuel (by omega)]
  | IETraitAlias ta =>
    simp [encItemEnum, Json.size, Json.sizeFields] at h
    simp [encItemEnum, decodeItemEnum, decodeIETraitAlias, asObj, reqStr, reqField, lookupField,
      asStr, asArr, exbind_ok, expure,
      rtGenerics ta.generics fuel (by omega),
      rtGenericBoundElems ta.params fuel (by omega)]
  | IEMethod m =>
    simp [encItemEnum, Json.size, Json.sizeFields] at h
    simp [encItemEnum, decodeItemEnum, decodeIEMethod, asObj, reqStr, reqField, reqBool,
      lookupField, asStr, asBool, exbind_ok, expure, rtHeader,
      rtFnDecl m.decl fuel (by omega), rtGenerics m.generics fuel (by omega)]
  | IEImpl i =>
    obtain ⟨isUnsafe, generics, ptm, trait, for_, items, negative,
      synthetic, blanket⟩ := i
    cases trait with
    | none =>
      cases blanket with
      | none =>
        simp [encItemEnum, encTyOpt, optField, Json.size, Json.sizeFields]
          at h
        simp [encItemEnum, encTyOpt, optField, decodeItemEnum, decodeIEImpl, asObj,
          reqStr, reqField, reqBool, lookupField, asStr, asBool, lookupOpt,
          exbind_ok, expure, rtIdList, rtStrList,
          rtGenerics generics fuel (by omega),
          rtTy for_ fuel (by omega), rtTyOptNone fuel (by omega)]
      | some bt =>
        simp [encItemEnum, encTyOpt, optField, Json.size, Json.sizeFields]
          at h
        simp [encItemEnum, encTyOpt, optField, decodeItemEnum, decodeIEImpl, asObj,
          reqStr, reqField, reqBool, lookupField, asStr, asBool, lookupOpt,
          isNull_encTy, exbind_ok, expure, rtIdList, rtStrList,
          rtGenerics generics fuel (by omega), rtTy for_ fuel (by omega),
          rtTyOptNone fuel (by omega), rtTyOptSome bt fuel (by omega)]
    | some tt =>
      cases blanket with
      | none =>
        simp [encItemEnum, encTyOpt, optField, Json.size, Json.sizeFields]
          at h
        simp [encItemEnum, encTyOpt, optField, decodeItemEnum, decodeIEImpl, asObj,
          reqStr, reqField, reqBool, lookupField, asStr, asBool, lookupOpt,
          isNull_encTy, exbind_ok, expure, rtIdList, rtStrList,
          rtGenerics generics fuel (by omega), rtTy for_ fuel (by omega),
          rtTyOptNone fuel (by omega), rtTyOptSome tt fuel (by omega)]
      | some bt =>
        simp [encItemEnum, encTyOpt, optField, Json.size, Json.sizeFields]
          at h
        simp [encItemEnum, encTyOpt, optField, decodeItemEnum, decodeIEImpl, asObj,
          reqStr, reqField, reqBool, lookupField, asStr, asBool, lookupOpt,
          isNull_encTy, exbind_ok, expure, rtIdList, rtStrList,
          rtGenerics generics fuel (by omega), rtTy for_ fuel (by omega),
          rtTyOptSome tt fuel (by omega), rtTyOptSome bt fuel (by omega)]
  | IETypedef td =>
    simp [encItemEnum, Json.size, Json.sizeFields] at h
    simp [encItemEnum, decodeItemEnum, decodeIETypedef, asObj, reqStr, reqField, lookupField,
      asStr, exbind_ok, expure, rtTy td.type fuel (by omega),
      rtGenerics td.generics fuel (by omega)]
  | IEOpaqueTy o =>
    simp [encItemEnum, Json.size, Json.sizeFields] at h
    simp [encItemEnum, decodeItemEnum, decodeIEOpaqueTy, asObj, reqStr, reqField, lookupField,
      asStr, asArr, exbind_ok, expure,
      rtGenericBoundElems o.bounds fuel (by omega),
      rtGenerics o.generics fuel (by omega)]
  | IEConstant c =>
    obtain ⟨type, expr, value, is_literal⟩ := c
    cases value with
    | none =>
      simp [encItemEnum, optField, Json.size, Json.sizeFields] at h
      simp [encItemEnum, optField, decodeItemEnum, decodeIEConstant, asObj, reqStr, reqField,
        reqBool, lookupField, asStr, asBool, optStr, lookupOpt, exbind_ok,
        expure, rtTy type fuel (by omega)]
    | some v =>
      simp [encItemEnum, optField, Json.size, Json.sizeFields] at h
      simp [encItemEnum, optField, decodeItemEnum, decodeIEConstant, asObj, reqStr, reqField,
        reqBool, lookupField, asStr, asBool, optStr, lookupOpt, isNull_str,
        exbind_ok, expure, rtTy type fuel (by omega)]
  | IEStatic s =>
    simp [encItemEnum, Json.size, Json.sizeFields] at h
    simp [encItemEnum, decodeItemEnum, decodeIEStatic, asObj, reqStr, reqField, reqBool,
      lookupField, asStr, asBool, exbind_ok, expure,
      rtTy s.type fuel (by omega)]
  | IEForeignType =>
    simp [encItemEnum, decodeItemEnum, asObj, reqStr, reqField, lookupField,
      asStr, exbind_ok, expure]
  | IEMacro s =>
    simp [encItemEnum, decodeItemEnum, asObj, reqStr, reqField, lookupField,
      asStr, exbind_ok, expure]
  | IEProcMacro p =>
    simp [encItemEnum, decodeItemEnum, decodeIEProcMacro, asObj, reqStr, reqField, lookupField,
      asStr, exbind_ok, expure, rtMacroKind, rtStrList]
  | IEPrimitiveType s =>
    simp [encItemEnum, decodeItemEnum, asObj, reqStr, reqField, lookupField,
      asStr, exbind_ok, expure]
  | IEAssocConst type default =>
    cases default with
    | none =>
      simp [encItemEnum, optField, Json.size, Json.sizeFields] at h
      simp [encItemEnum, optField, decodeItemEnum, decodeIEAssocConst, asObj, reqStr, reqField,
        lookupField, asStr, optStr, lookupOpt, exbind_ok, expure,
        rtTy type fuel (by omega)]
    | some d =>
      simp [encItemEnum, optField, Json.size, Json.sizeFields] at h
      simp [encItemEnum, optField, decodeItemEnum, decodeIEAssocConst, asObj, reqStr, reqField,
        lookupField, asStr, optStr, lookupOpt, isNull_str, exbind_ok,
        expure, rtTy type fuel (by omega)]
  | IEAssocType generics bounds default =>
    cases default with
    | none =>
      simp [encItemEnum, encTyOpt, optField, Json.size, Json.sizeFields]
        at h
      simp [encItemEnum, encTyOpt, optField, decodeItemEnum, decodeIEAssocType, asObj, reqStr,
        reqField, lookupField, asStr, asArr, lookupOpt, exbind_ok, expure,
        rtGenerics generics fuel (by omega),
        rtGenericBoundElems bounds fuel (by omega),
        rtTyOptNone fuel (by omega)]
    | some d =>
      simp [encItemEnum, encTyOpt, optField, Json.size, Json.sizeFields]
        at h
      simp [encItemEnum, encTyOpt, optField, decodeItemEnum, decodeIEAssocType, asObj, reqStr,
        reqField, lookupField, asStr, asArr, lookupOpt, isNull_encTy,
        exbind_ok, expure, rtGenerics generics fuel (by omega),
        rtGenericBoundElems bounds fuel (by omega),
        rtTyOptSome d fuel (by omega)]

theorem isNull_encSpan (s : Span) : (encSpan s).isNull = false := rfl

theorem isNull_encDeprecation (d : Deprecation) :
    (encDeprecation d).isNull = false := rfl

theorem rtItem (it : Item) (fuel : Nat) (h : (encItem it).size ≤ fuel) :
    decodeItem fuel (encItem it) = .ok it := by
  obtain ⟨id, crate_id, name, span, vis, docs, links, attrs, dep, inner⟩ := it
  cases name <;> cases span <;> cases docs <;> cases dep <;>
    (simp [encItem, optField, Json.size, Json.sizeFields] at h;
     simp [encItem, optField, decodeItem, asObj, reqStr, reqField, reqNat,
       reqBool, reqObj, lookupField, asStr, asNat_ofNat, asBool, optStr,
       lookupOpt, isNull_str, isNull_encSpan, isNull_encDeprecation,
       encLinks, exbind_ok, expure, rtVisibility, rtSpan, rtDeprecation,
       rtLinkEntries, rtStrList, rtItemEnum inner fuel (by omega)])

theorem rtIndexEntries (index : List (Id × Item)) (fuel : Nat)
    (h : ∀ kv ∈ index, (encItem kv.2).size ≤ fuel) :
    decodeIndexEntries false fuel (index.map fun kv => (kv.1, encItem kv.2))
      = .ok (index, []) := by
  induction index with
  | nil => simp [decodeIndexEntries, expure]
  | cons kv rest ih =>
    have h1 := h kv (by simp)
    have h2 : ∀ kv2 ∈ rest, (encItem kv2.2).size ≤ fuel := fun kv2 hm =>
      h kv2 (by simp [hm])
    simp [decodeIndexEntries, rtItem kv.2 fuel h1, ih h2, exbind_ok, expure]

theorem rtPathEntries (paths : List (Id × ItemSummary)) :
    decodePathEntries (paths.map fun kv => (kv.1, encItemSummary kv.2))
      = .ok paths := by
  induction paths with
  | nil => simp [decodePathEntries, expure]
  | cons kv rest ih =>
    simp [decodePathEntries, rtItemSummary, ih, exbind_ok, expure]

theorem rtExtEntries (ext : List (CrUid × ExternalCrate)) :
    decodeExternalCrateEntries
      (ext.map fun kv => (natKey kv.1, encExternalCrate kv.2)) = .ok ext := by
  induction ext with
  | nil => simp [decodeExternalCrateEntries, expure]
  | cons kv rest ih =>
    simp [decodeExternalCrateEntries, parseNatKey_natKey, rtExternalCrate,
      ih, exbind_ok, expure]

theorem rtCrateAux (c : Crate) (fuel : Nat)
    (hv : c.format_version = FORMAT_VERSION) (hr : rootIsModule c)
    (hidx : ∀ kv ∈ c.index, (encItem kv.2).size ≤ fuel) :
    decodeCrate fuel (encCrate c) false =
      .ok (c, (danglingIds c.index c.paths).map .DanglingReference) := by
  obtain ⟨it, m, hlook, hinner⟩ := hr
  obtain ⟨root, cv, incl, index, paths, ext, fv⟩ := c
  simp only [Crate.format_version] at hv
  subst hv
  simp only [Crate.index, Crate.paths, Crate.root] at hlook hidx ⊢
  cases cv <;>
    (simp [decodeCrate, decodeCrateRest, encCrate, optField, asObj,
      reqInt, reqStr, reqBool, reqObj, reqField, lookupField, asInt, asStr,
      asBool, optStr, lookupOpt, isNull_str, FORMAT_VERSION, exbind_ok,
      expure, exthrow, rtExtEntries, rtPathEntries,
      rtIndexEntries index fuel hidx, hlook, hinner])

theorem rtCrate (c : Crate) (hv : c.format_version = FORMAT_VERSION)
    (hr : rootIsModule c) :
    decode (encCrate c) false =
      .ok (c, (danglingIds c.index c.paths).map .DanglingReference) := by
  apply rtCrateAux c ((encCrate c).size) hv hr
  intro kv hm
  have hmem : (kv.1, encItem kv.2) ∈ c.index.map
      fun kv2 => (kv2.1, encItem kv2.2) :=
    List.mem_map.mpr ⟨kv, hm, rfl⟩
  have hle := size_le_of_mem_fields _ _ _ hmem
  have hfield : Json.sizeFields
      (c.index.map fun kv2 => (kv2.1, encItem kv2.2)) ≤ (encCrate c).size := by
    obtain ⟨root, cv, incl, index, paths, ext, fv⟩ := c
    cases cv <;>
      (simp [encCrate, optField, Json.size, Json.sizeFields]; omega)
  omega

/-! ## Dissection of a successful decode -/

theorem decode_ok_inv (raw : Json) (strict : Bool) (c : Crate)
    (ds : List DecodeError) (h : decode raw strict = .ok (c, ds)) :
    c.format_version = FORMAT_VERSION ∧ rootIsModule c ∧
      ∃ errs, ds = errs ++ (danglingIds c.index c.paths).map
        .DanglingReference := by
  simp only [decode, decodeCrate] at h
  rw [exbind_eq_ok] at h
  obtain ⟨fields, hfields, h⟩ := h
  rw [exbind_eq_ok] at h
  obtain ⟨v, hv, h⟩ := h
  split at h
  case isFalse => simp [exthrow] at h
  case isTrue hveq =>
  simp only [decodeCrateRest] at h
  rw [exbind_eq_ok] at h
  obtain ⟨root, hroot, h⟩ := h
  rw [exbind_eq_ok] at h
  obtain ⟨cv, hcv, h⟩ := h
  rw [exbind_eq_ok] at h
  obtain ⟨incl, hincl, h⟩ := h
  rw [exbind_eq_ok] at h
  obtain ⟨idxf, hidxf, h⟩ := h
  rw [exbind_eq_ok] at h
  obtain ⟨pf, hpf, h⟩ := h
  rw [exbind_eq_ok] at h
  obtain ⟨ef, hef, h⟩ := h
  rw [exbind_eq_ok] at h
  obtain ⟨ext, hext, h⟩ := h
  rw [exbind_eq_ok] at h
  obtain ⟨p, hp, h⟩ := h
  obtain ⟨index, itemErrs⟩ := p
  simp only at h
  rw [exbind_eq_ok] at h
  obtain ⟨paths, hpaths, h⟩ := h
  split at h
  · -- strict mode: the dangling-reference early exit
    split at h
    · simp [exthrow, exbind_err] at h
    · simp only [expure, exbind_ok] at h
      split at h
      case h_2 => simp [exthrow, exbind_err] at h
      case h_1 it heq =>
        split at h
        case h_2 => simp [exthrow, exbind_err] at h
        case h_1 m hinner =>
          simp only [expure, exbind_ok, Except.ok.injEq, Prod.mk.injEq] at h
          obtain ⟨hc, hds⟩ := h
          subst hc
          exact ⟨hveq, ⟨it, m, heq, hinner⟩, itemErrs, hds.symm⟩
  · -- non-strict mode
    simp only [expure, exbind_ok] at h
    split at h
    case h_2 => simp [exthrow, exbind_err] at h
    case h_1 it heq =>
      split at h
      case h_2 => simp [exthrow, exbind_err] at h
      case h_1 m hinner =>
        simp only [expure, exbind_ok, Except.ok.injEq, Prod.mk.injEq] at h
        obtain ⟨hc, hds⟩ := h
        subst hc
        exact ⟨hveq, ⟨it, m, heq, hinner⟩, itemErrs, hds.symm⟩

/-! ## Traversal lemmas (for the type-expression contract) -/

theorem joinOwnIds_append (a b : List Ty) :
    joinOwnIds (a ++ b) = joinOwnIds a ++ joinOwnIds b := by
  induction a with
  | nil => simp [joinOwnIds]
  | cons t rest ih => simp [joinOwnIds, ih]

mutual

theorem tyNodes_length (t : Ty) : (tyNodes t).length = tySize t := by
  cases t with
  | TyResolvedPath n i a p =>
    simp [Nat.add_comm, tyNodes, tySize, tyNodesOfGenericArgsOpt_length a,
      tyNodesOfGenericBoundList_length p]
  | TyDynTrait d => simp [Nat.add_comm, tyNodes, tySize, tyNodesOfDynTrait_length d]
  | TyGeneric s => simp [Nat.add_comm, tyNodes, tySize]
  | TyPrimitive s => simp [Nat.add_comm, tyNodes, tySize]
  | TyFunctionPtr f => simp [Nat.add_comm, tyNodes, tySize, tyNodesOfFnPtr_length f]
  | TyTuple ts => simp [Nat.add_comm, tyNodes, tySize, tyNodesOfTyList_length ts]
  | TySlice t2 => simp [Nat.add_comm, tyNodes, tySize, tyNodes_length t2]
  | TyArray t2 l => simp [Nat.add_comm, tyNodes, tySize, tyNodes_length t2]
  | TyImplTrait bs =>
    simp [Nat.add_comm, tyNodes, tySize, tyNodesOfGenericBoundList_length bs]
  | TyInfer => simp [Nat.add_comm, tyNodes, tySize]
  | TyRawPointer m t2 => simp [Nat.add_comm, tyNodes, tySize, tyNodes_length t2]
  | TyBorrowedRef l m t2 => simp [Nat.add_comm, tyNodes, tySize, tyNodes_length t2]
  | TyQualifiedPath n a s2 tr =>
    simp [Nat.add_comm, tyNodes, tySize, tyNodesOfGenericArgs_length a,
      tyNodes_length s2, tyNodes_length tr]
    omega

theorem tyNodesOfTyOpt_length (o : Option Ty) :
    (tyNodesOfTyOpt o).length = tySizeOfTyOpt o := by
  cases o with
  | none => simp [Nat.add_comm, tyNodesOfTyOpt, tySizeOfTyOpt]
  | some t => simp [Nat.add_comm, tyNodesOfTyOpt, tySizeOfTyOpt, tyNodes_length t]

theorem tyNodesOfTyList_length (ts : List Ty) :
    (tyNodesOfTyList ts).length = tySizeOfTyList ts := by
  cases ts with
  | nil => simp [Nat.add_comm, tyNodesOfTyList, tySizeOfTyList]
  | cons t rest =>
    simp [Nat.add_comm, tyNodesOfTyList, tySizeOfTyList, tyNodes_length t,
      tyNodesOfTyList_length rest]

theorem tyNodesOfDynTrait_length (d : DynTrait) :
    (tyNodesOfDynTrait d).length = tySizeOfDynTrait d := by
  cases d with
  | mk traits lt =>
    simp [Nat.add_comm, tyNodesOfDynTrait, tySizeOfDynTrait,
      tyNodesOfPolyTraitList_length traits]

theorem tyNodesOfPolyTrait_length (p : PolyTrait) :
    (tyNodesOfPolyTrait p).length = tySizeOfPolyTrait p := by
  cases p with
  | mk trait gps =>
    simp [Nat.add_comm, tyNodesOfPolyTrait, tySizeOfPolyTrait, tyNodes_length trait,
      tyNodesOfGenericParamDefList_length gps]

theorem tyNodesOfPolyTraitList_length (ps : List PolyTrait) :
    (tyNodesOfPolyTraitList ps).length = tySizeOfPolyTraitList ps := by
  cases ps with
  | nil => simp [Nat.add_comm, tyNodesOfPolyTraitList, tySizeOfPolyTraitList]
  | cons p rest =>
    simp [Nat.add_comm, tyNodesOfPolyTraitList, tySizeOfPolyTraitList,
      tyNodesOfPolyTrait_length p, tyNodesOfPolyTraitList_length rest]

theorem tyNodesOfGenericArgs_length (a : GenericArgs) :
    (tyNodesOfGenericArgs a).length = tySizeOfGenericArgs a := by
  cases a with
  | GAsAngleBracketed args bindings =>
    simp [Nat.add_comm, tyNodesOfGenericArgs, tySizeOfGenericArgs,
      tyNodesOfGenericArgList_length args,
      tyNodesOfTypeBindingList_length bindings]
  | GAsParenthesized inputs output =>
    simp [Nat.add_comm, tyNodesOfGenericArgs, tySizeOfGenericArgs,
      tyNodesOfTyList_length inputs, tyNodesOfTyOpt_length output]

theorem tyNodesOfGenericArgsOpt_length (o : Option GenericArgs) :
    (tyNodesOfGenericArgsOpt o).length = tySizeOfGenericArgsOpt o := by
  cases o with
  | none => simp [Nat.add_comm, tyNodesOfGenericArgsOpt, tySizeOfGenericArgsOpt]
  | some a =>
    simp [Nat.add_comm, tyNodesOfGenericArgsOpt, tySizeOfGenericArgsOpt,
      tyNodesOfGenericArgs_length a]

theorem tyNodesOfGenericArg_length (a : GenericArg) :
    (tyNodesOfGenericArg a).length = tySizeOfGenericArg a := by
  cases a with
  | GALifetime s => simp [Nat.add_comm, tyNodesOfGenericArg, tySizeOfGenericArg]
  | GAType t =>
    simp [Nat.add_comm, tyNodesOfGenericArg, tySizeOfGenericArg, tyNodes_length t]
  | GAConst c =>
    simp [Nat.add_comm, tyNodesOfGenericArg, tySizeOfGenericArg,
      tyNodesOfConstant_length c]
  | GAInfer => simp [Nat.add_comm, tyNodesOfGenericArg, tySizeOfGenericArg]

theorem tyNodesOfGenericArgList_length (as_ : List GenericArg) :
    (tyNodesOfGenericArgList as_).length = tySizeOfGenericArgList as_ := by
  cases as_ with
  | nil => simp [Nat.add_comm, tyNodesOfGenericArgList, tySizeOfGenericArgList]
  | cons a rest =>
    simp [Nat.add_comm, tyNodesOfGenericArgList, tySizeOfGenericArgList,
      tyNodesOfGenericArg_length a, tyNodesOfGenericArgList_length rest]

theorem tyNodesOfConstant_length (c : Constant) :
    (tyNodesOfConstant c).length = tySizeOfConstant c := by
  cases c with
  | mk type e v l =>
    simp [Nat.add_comm, tyNodesOfConstant, tySizeOfConstant, tyNodes_length type]

theorem tyNodesOfTypeBinding_length (b : TypeBinding) :
    (tyNodesOfTypeBinding b).length = tySizeOfTypeBinding b := by
  cases b with
  | mk n args binding =>
    simp [Nat.add_comm, tyNodesOfTypeBinding, tySizeOfTypeBinding,
      tyNodesOfGenericArgs_length args,
      tyNodesOfTypeBindingKind_length binding]

theorem tyNodesOfTypeBindingList_length (bs : List TypeBinding) :
    (tyNodesOfTypeBindingList bs).length = tySizeOfTypeBindingList bs := by
  cases bs with
  | nil => simp [Nat.add_comm, tyNodesOfTypeBindingList, tySizeOfTypeBindingList]
  | cons b rest =>
    simp [Nat.add_comm, tyNodesOfTypeBindingList, tySizeOfTypeBindingList,
      tyNodesOfTypeBinding_length b, tyNodesOfTypeBindingList_length rest]

theorem tyNodesOfTypeBindingKind_length (k : TypeBindingKind) :
    (tyNodesOfTypeBindingKind k).length = tySizeOfTypeBindingKind k := by
  cases k with
  | TBKEquality t =>
    simp [Nat.add_comm, tyNodesOfTypeBindingKind, tySizeOfTypeBindingKind,
      tyNodesOfTerm_length t]
  | TBKConstraint bs =>
    simp [Nat.add_comm, tyNodesOfTypeBindingKind, tySizeOfTypeBindingKind,
      tyNodesOfGenericBoundList_length bs]

theorem tyNodesOfTerm_length (t : Term) :
    (tyNodesOfTerm t).length = tySizeOfTerm t := by
  cases t with
  | TrType ty => simp [Nat.add_comm, tyNodesOfTerm, tySizeOfTerm, tyNodes_length ty]
  | TrConstant c =>
    simp [Nat.add_comm, tyNodesOfTerm, tySizeOfTerm, tyNodesOfConstant_length c]

theorem tyNodesOfGenericBound_length (b : GenericBound) :
    (tyNodesOfGenericBound b).length = tySizeOfGenericBound b := by
  cases b with
  | GBTraitBound trait gps m =>
    simp [Nat.add_comm, tyNodesOfGenericBound, tySizeOfGenericBound,
      tyNodes_length trait, tyNodesOfGenericParamDefList_length gps]
  | GBOutlives s => simp [Nat.add_comm, tyNodesOfGenericBound, tySizeOfGenericBound]

theorem tyNodesOfGenericBoundList_length (bs : List GenericBound) :
    (tyNodesOfGenericBoundList bs).length = tySizeOfGenericBoundList bs := by
  cases bs with
  | nil => simp [Nat.add_comm, tyNodesOfGenericBoundList, tySizeOfGenericBoundList]
  | cons b rest =>
    simp [Nat.add_comm, tyNodesOfGenericBoundList, tySizeOfGenericBoundList,
      tyNodesOfGenericBound_length b, tyNodesOfGenericBoundList_length rest]

theorem tyNodesOfGenericParamDef_length (p : GenericParamDef) :
    (tyNodesOfGenericParamDef p).length = tySizeOfGenericParamDef p := by
  cases p with
  | mk n kind =>
    simp [Nat.add_comm, tyNodesOfGenericParamDef, tySizeOfGenericParamDef,
      tyNodesOfGenericParamDefKind_length kind]

theorem tyNodesOfGenericParamDefList_length (ps : List GenericParamDef) :
    (tyNodesOfGenericParamDefList ps).length
      = tySizeOfGenericParamDefList ps := by
  cases ps with
  | nil => simp [Nat.add_comm, tyNodesOfGenericParamDefList, tySizeOfGenericParamDefList]
  | cons p rest =>
    simp [Nat.add_comm, tyNodesOfGenericParamDefList, tySizeOfGenericParamDefList,
      tyNodesOfGenericParamDef_length p,
      tyNodesOfGenericParamDefList_length rest]

theorem tyNodesOfGenericParamDefKind_length (k : GenericParamDefKind) :
    (tyNodesOfGenericParamDefKind k).length
      = tySizeOfGenericParamDefKind k := by
  cases k with
  | GPDKLifetime o =>
    simp [Nat.add_comm, tyNodesOfGenericParamDefKind, tySizeOfGenericParamDefKind]
  | GPDKType bounds default syn =>
    simp [Nat.add_comm, tyNodesOfGenericParamDefKind, tySizeOfGenericParamDefKind,
      tyNodesOfGenericBoundList_length bounds, tyNodesOfTyOpt_length default]
  | GPDKConst type default =>
    simp [Nat.add_comm, tyNodesOfGenericParamDefKind, tySizeOfGenericParamDefKind,
      tyNodes_length type]

theorem tyNodesOfWherePredicate_length (p : WherePredicate) :
    (tyNodesOfWherePredicate p).length = tySizeOfWherePredicate p := by
  cases p with
  | WPBoundPredicate type bounds gps =>
    simp [Nat.add_comm, tyNodesOfWherePredicate, tySizeOfWherePredicate,
      tyNodes_length type, tyNodesOfGenericBoundList_length bounds,
      tyNodesOfGenericParamDefList_length gps]
    omega
  | WPRegionPredicate l bounds =>
    simp [Nat.add_comm, tyNodesOfWherePredicate, tySizeOfWherePredicate,
      tyNodesOfGenericBoundList_length bounds]
  | WPEqPredicate lhs rhs =>
    simp [Nat.add_comm, tyNodesOfWherePredicate, tySizeOfWherePredicate,
      tyNodes_length lhs, tyNodesOfTerm_length rhs]

theorem tyNodesOfWherePredicateList_length (ps : List WherePredicate) :
    (tyNodesOfWherePredicateList ps).length
      = tySizeOfWherePredicateList ps := by
  cases ps with
  | nil => simp [Nat.add_comm, tyNodesOfWherePredicateList, tySizeOfWherePredicateList]
  | cons p rest =>
    simp [Nat.add_comm, tyNodesOfWherePredicateList, tySizeOfWherePredicateList,
      tyNodesOfWherePredicate_length p,
      tyNodesOfWherePredicateList_length rest]

theorem tyNodesOfGenerics_length (g : Generics) :
    (tyNodesOfGenerics g).length = tySizeOfGenerics g := by
  cases g with
  | mk params wps =>
    simp [Nat.add_comm, tyNodesOfGenerics, tySizeOfGenerics,
      tyNodesOfGenericParamDefList_length params,
      tyNodesOfWherePredicateList_length wps]

theorem tyNodesOfFnPtr_length (f : FnPtr) :
    (tyNodesOfFnPtr f).length = tySizeOfFnPtr f := by
  cases f with
  | mk decl gps header =>
    simp [Nat.add_comm, tyNodesOfFnPtr, tySizeOfFnPtr, tyNodesOfFnDecl_length decl,
      tyNodesOfGenericParamDefList_length gps]

theorem tyNodesOfFnDecl_length (d : FnDecl) :
    (tyNodesOfFnDecl d).length = tySizeOfFnDecl d := by
  cases d with
  | mk inputs output c =>
    simp [Nat.add_comm, tyNodesOfFnDecl, tySizeOfFnDecl, tyNodesOfFnInputs_length inputs,
      tyNodesOfTyOpt_length output]

theorem tyNodesOfFnInputs_length (inputs : List (String × Ty)) :
    (tyNodesOfFnInputs inputs).length = tySizeOfFnInputs inputs := by
  cases inputs with
  | nil => simp [Nat.add_comm, tyNodesOfFnInputs, tySizeOfFnInputs]
  | cons nt rest =>
    obtain ⟨n, t⟩ := nt
    simp [Nat.add_comm, tyNodesOfFnInputs, tySizeOfFnInputs, tyNodes_length t,
      tyNodesOfFnInputs_length rest]

end

mutual

theorem idsOfTy_eq (t : Ty) : idsOfTy t = joinOwnIds (tyNodes t) := by
  cases t with
  | TyResolvedPath n i a p =>
    simp [idsOfTy, tyNodes, joinOwnIds, joinOwnIds_append, tyOwnIds,
      idsOfGenericArgsOpt_eq a, idsOfGenericBoundList_eq p]
  | TyDynTrait d =>
    simp [idsOfTy, tyNodes, joinOwnIds, joinOwnIds_append, tyOwnIds,
      idsOfDynTrait_eq d]
  | TyGeneric s => simp [idsOfTy, tyNodes, joinOwnIds, tyOwnIds]
  | TyPrimitive s => simp [idsOfTy, tyNodes, joinOwnIds, tyOwnIds]
  | TyFunctionPtr f =>
    simp [idsOfTy, tyNodes, joinOwnIds, joinOwnIds_append, tyOwnIds,
      idsOfFnPtr_eq f]
  | TyTuple ts =>
    simp [idsOfTy, tyNodes, joinOwnIds, joinOwnIds_append, tyOwnIds,
      idsOfTyList_eq ts]
  | TySlice t2 =>
    simp [idsOfTy, tyNodes, joinOwnIds, joinOwnIds_append, tyOwnIds,
      idsOfTy_eq t2]
  | TyArray t2 l =>
    simp [idsOfTy, tyNodes, joinOwnIds, joinOwnIds_append, tyOwnIds,
      idsOfTy_eq t2]
  | TyImplTrait bs =>
    simp [idsOfTy, tyNodes, joinOwnIds, joinOwnIds_append, tyOwnIds,
      idsOfGenericBoundList_eq bs]
  | TyInfer => simp [idsOfTy, tyNodes, joinOwnIds, tyOwnIds]
  | TyRawPointer m t2 =>
    simp [idsOfTy, tyNodes, joinOwnIds, joinOwnIds_append, tyOwnIds,
      idsOfTy_eq t2]
  | TyBorrowedRef l m t2 =>
    simp [idsOfTy, tyNodes, joinOwnIds, joinOwnIds_append, tyOwnIds,
      idsOfTy_eq t2]
  | TyQualifiedPath n a s2 tr =>
    simp [idsOfTy, tyNodes, joinOwnIds, joinOwnIds_append, tyOwnIds,
      idsOfGenericArgs_eq a, idsOfTy_eq s2, idsOfTy_eq tr]

theorem idsOfTyOpt_eq (o : Option Ty) :
    idsOfTyOpt o = joinOwnIds (tyNodesOfTyOpt o) := by
  cases o with
  | none => simp [idsOfTyOpt, tyNodesOfTyOpt, joinOwnIds]
  | some t => simp [idsOfTyOpt, tyNodesOfTyOpt, idsOfTy_eq t]

theorem idsOfTyList_eq (ts : List Ty) :
    idsOfTyList ts = joinOwnIds (tyNodesOfTyList ts) := by
  cases ts with
  | nil => simp [idsOfTyList, tyNodesOfTyList, joinOwnIds]
  | cons t rest =>
    simp [idsOfTyList, tyNodesOfTyList, joinOwnIds_append, idsOfTy_eq t,
      idsOfTyList_eq rest]

theorem idsOfDynTrait_eq (d : DynTrait) :
    idsOfDynTrait d = joinOwnIds (tyNodesOfDynTrait d) := by
  cases d with
  | mk traits lt =>
    simp [idsOfDynTrait, tyNodesOfDynTrait, idsOfPolyTraitList_eq traits]

theorem idsOfPolyTrait_eq (p : PolyTrait) :
    idsOfPolyTrait p = joinOwnIds (tyNodesOfPolyTrait p) := by
  cases p with
  | mk trait gps =>
    simp [idsOfPolyTrait, tyNodesOfPolyTrait, joinOwnIds_append,
      idsOfTy_eq trait, idsOfGenericParamDefList_eq gps]

theorem idsOfPolyTraitList_eq (ps : List PolyTrait) :
    idsOfPolyTraitList ps = joinOwnIds (tyNodesOfPolyTraitList ps) := by
  cases ps with
  | nil => simp [idsOfPolyTraitList, tyNodesOfPolyTraitList, joinOwnIds]
  | cons p rest =>
    simp [idsOfPolyTraitList, tyNodesOfPolyTraitList, joinOwnIds_append,
      idsOfPolyTrait_eq p, idsOfPolyTraitList_eq rest]

theorem idsOfGenericArgs_eq (a : GenericArgs) :
    idsOfGenericArgs a = joinOwnIds (tyNodesOfGenericArgs a) := by
  cases a with
  | GAsAngleBracketed args bindings =>
    simp [idsOfGenericArgs, tyNodesOfGenericArgs, joinOwnIds_append,
      idsOfGenericArgList_eq args, idsOfTypeBindingList_eq bindings]
  | GAsParenthesized inputs output =>
    simp [idsOfGenericArgs, tyNodesOfGenericArgs, joinOwnIds_append,
      idsOfTyList_eq inputs, idsOfTyOpt_eq output]

theorem idsOfGenericArgsOpt_eq (o : Option GenericArgs) :
    idsOfGenericArgsOpt o = joinOwnIds (tyNodesOfGenericArgsOpt o) := by
  cases o with
  | none => simp [idsOfGenericArgsOpt, tyNodesOfGenericArgsOpt, joinOwnIds]
  | some a =>
    simp [idsOfGenericArgsOpt, tyNodesOfGenericArgsOpt,
      idsOfGenericArgs_eq a]

theorem idsOfGenericArg_eq (a : GenericArg) :
    idsOfGenericArg a = joinOwnIds (tyNodesOfGenericArg a) := by
  cases a with
  | GALifetime s => simp [idsOfGenericArg, tyNodesOfGenericArg, joinOwnIds]
  | GAType t => simp [idsOfGenericArg, tyNodesOfGenericArg, idsOfTy_eq t]
  | GAConst c =>
    simp [idsOfGenericArg, tyNodesOfGenericArg, idsOfConstant_eq c]
  | GAInfer => simp [idsOfGenericArg, tyNodesOfGenericArg, joinOwnIds]

theorem idsOfGenericArgList_eq (as_ : List GenericArg) :
    idsOfGenericArgList as_ = joinOwnIds (tyNodesOfGenericArgList as_) := by
  cases as_ with
  | nil => simp [idsOfGenericArgList, tyNodesOfGenericArgList, joinOwnIds]
  | cons a rest =>
    simp [idsOfGenericArgList, tyNodesOfGenericArgList, joinOwnIds_append,
      idsOfGenericArg_eq a, idsOfGenericArgList_eq rest]

theorem idsOfConstant_eq (c : Constant) :
    idsOfConstant c = joinOwnIds (tyNodesOfConstant c) := by
  cases c with
  | mk type e v l =>
    simp [idsOfConstant, tyNodesOfConstant, idsOfTy_eq type]

theorem idsOfTypeBinding_eq (b : TypeBinding) :
    idsOfTypeBinding b = joinOwnIds (tyNodesOfTypeBinding b) := by
  cases b with
  | mk n args binding =>
    simp [idsOfTypeBinding, tyNodesOfTypeBinding, joinOwnIds_append,
      idsOfGenericArgs_eq args, idsOfTypeBindingKind_eq binding]

theorem idsOfTypeBindingList_eq (bs : List TypeBinding) :
    idsOfTypeBindingList bs = joinOwnIds (tyNodesOfTypeBindingList bs) := by
  cases bs with
  | nil => simp [idsOfTypeBindingList, tyNodesOfTypeBindingList, joinOwnIds]
  | cons b rest =>
    simp [idsOfTypeBindingList, tyNodesOfTypeBindingList, joinOwnIds_append,
      idsOfTypeBinding_eq b, idsOfTypeBindingList_eq rest]

theorem idsOfTypeBindingKind_eq (k : TypeBindingKind) :
    idsOfTypeBindingKind k = joinOwnIds (tyNodesOfTypeBindingKind k) := by
  cases k with
  | TBKEquality t =>
    simp [idsOfTypeBindingKind, tyNodesOfTypeBindingKind, idsOfTerm_eq t]
  | TBKConstraint bs =>
    simp [idsOfTypeBindingKind, tyNodesOfTypeBindingKind,
      idsOfGenericBoundList_eq bs]

theorem idsOfTerm_eq (t : Term) :
    idsOfTerm t = joinOwnIds (tyNodesOfTerm t) := by
  cases t with
  | TrType ty => simp [idsOfTerm, tyNodesOfTerm, idsOfTy_eq ty]
  | TrConstant c => simp [idsOfTerm, tyNodesOfTerm, idsOfConstant_eq c]

theorem idsOfGenericBound_eq (b : GenericBound) :
    idsOfGenericBound b = joinOwnIds (tyNodesOfGenericBound b) := by
  cases b with
  | GBTraitBound trait gps m =>
    simp [idsOfGenericBound, tyNodesOfGenericBound, joinOwnIds_append,
      idsOfTy_eq trait, idsOfGenericParamDefList_eq gps]
  | GBOutlives s => simp [idsOfGenericBound, tyNodesOfGenericBound, joinOwnIds]

theorem idsOfGenericBoundList_eq (bs : List GenericBound) :
    idsOfGenericBoundList bs = joinOwnIds (tyNodesOfGenericBoundList bs) := by
  cases bs with
  | nil => simp [idsOfGenericBoundList, tyNodesOfGenericBoundList, joinOwnIds]
  | cons b rest =>
    simp [idsOfGenericBoundList, tyNodesOfGenericBoundList,
      joinOwnIds_append, idsOfGenericBound_eq b,
      idsOfGenericBoundList_eq rest]

theorem idsOfGenericParamDef_eq (p : GenericParamDef) :
    idsOfGenericParamDef p = joinOwnIds (tyNodesOfGenericParamDef p) := by
  cases p with
  | mk n kind =>
    simp [idsOfGenericParamDef, tyNodesOfGenericParamDef,
      idsOfGenericParamDefKind_eq kind]

theorem idsOfGenericParamDefList_eq (ps : List GenericParamDef) :
    idsOfGenericParamDefList ps
      = joinOwnIds (tyNodesOfGenericParamDefList ps) := by
  cases ps with
  | nil =>
    simp [idsOfGenericParamDefList, tyNodesOfGenericParamDefList, joinOwnIds]
  | cons p rest =>
    simp [idsOfGenericParamDefList, tyNodesOfGenericParamDefList,
      joinOwnIds_append, idsOfGenericParamDef_eq p,
      idsOfGenericParamDefList_eq rest]

theorem idsOfGenericParamDefKind_eq (k : GenericParamDefKind) :
    idsOfGenericParamDefKind k
      = joinOwnIds (tyNodesOfGenericParamDefKind k) := by
  cases k with
  | GPDKLifetime o =>
    simp [idsOfGenericParamDefKind, tyNodesOfGenericParamDefKind, joinOwnIds]
  | GPDKType bounds default syn =>
    simp [idsOfGenericParamDefKind, tyNodesOfGenericParamDefKind,
      joinOwnIds_append, idsOfGenericBoundList_eq bounds,
      idsOfTyOpt_eq default]
  | GPDKConst type default =>
    simp [idsOfGenericParamDefKind, tyNodesOfGenericParamDefKind,
      idsOfTy_eq type]

theorem idsOfWherePredicate_eq (p : WherePredicate) :
    idsOfWherePredicate p = joinOwnIds (tyNodesOfWherePredicate p) := by
  cases p with
  | WPBoundPredicate type bounds gps =>
    simp [idsOfWherePredicate, tyNodesOfWherePredicate, joinOwnIds_append,
      idsOfTy_eq type, idsOfGenericBoundList_eq bounds,
      idsOfGenericParamDefList_eq gps]
  | WPRegionPredicate l bounds =>
    simp [idsOfWherePredicate, tyNodesOfWherePredicate,
      idsOfGenericBoundList_eq bounds]
  | WPEqPredicate lhs rhs =>
    simp [idsOfWherePredicate, tyNodesOfWherePredicate, joinOwnIds_append,
      idsOfTy_eq lhs, idsOfTerm_eq rhs]

theorem idsOfWherePredicateList_eq (ps : List WherePredicate) :
    idsOfWherePredicateList ps
      = joinOwnIds (tyNodesOfWherePredicateList ps) := by
  cases ps with
  | nil =>
    simp [idsOfWherePredicateList, tyNodesOfWherePredicateList, joinOwnIds]
  | cons p rest =>
    simp [idsOfWherePredicateList, tyNodesOfWherePredicateList,
      joinOwnIds_append, idsOfWherePredicate_eq p,
      idsOfWherePredicateList_eq rest]

theorem idsOfGenerics_eq (g : Generics) :
    idsOfGenerics g = joinOwnIds (tyNodesOfGenerics g) := by
  cases g with
  | mk params wps =>
    simp [idsOfGenerics, tyNodesOfGenerics, joinOwnIds_append,
      idsOfGenericParamDefList_eq params, idsOfWherePredicateList_eq wps]

theorem idsOfFnPtr_eq (f : FnPtr) :
    idsOfFnPtr f = joinOwnIds (tyNodesOfFnPtr f) := by
  cases f with
  | mk decl gps header =>
    simp [idsOfFnPtr, tyNodesOfFnPtr, joinOwnIds_append,
      idsOfFnDecl_eq decl, idsOfGenericParamDefList_eq gps]

theorem idsOfFnDecl_eq (d : FnDecl) :
    idsOfFnDecl d = joinOwnIds (tyNodesOfFnDecl d) := by
  cases d with
  | mk inputs output c =>
    simp [idsOfFnDecl, tyNodesOfFnDecl, joinOwnIds_append,
      idsOfFnInputs_eq inputs, idsOfTyOpt_eq output]

theorem idsOfFnInputs_eq (inputs : List (String × Ty)) :
    idsOfFnInputs inputs = joinOwnIds (tyNodesOfFnInputs inputs) := by
  cases inputs with
  | nil => simp [idsOfFnInputs, tyNodesOfFnInputs, joinOwnIds]
  | cons nt rest =>
    obtain ⟨n, t⟩ := nt
    simp [idsOfFnInputs, tyNodesOfFnInputs, joinOwnIds_append,
      idsOfTy_eq t, idsOfFnInputs_eq rest]

end

mutual

theorem tyNodes_size_le (t s : Ty) :
    s ∈ tyNodes t → tySize s ≤ tySize t := by
  cases t with
  | TyResolvedPath n i a p =>
    intro h
    simp [tyNodes] at h
    rcases h with rfl | h | h
    · exact le_refl _
    · have := tyNodesOfGenericArgsOpt_size_le a s h
      simp [tySize]
      omega
    · have := tyNodesOfGenericBoundList_size_le p s h
      simp [tySize]
      omega
  | TyDynTrait d =>
    intro h
    simp [tyNodes] at h
    rcases h with rfl | h
    · exact le_refl _
    · have := tyNodesOfDynTrait_size_le d s h
      simp [tySize]
      omega
  | TyGeneric s0 =>
    intro h
    simp [tyNodes] at h
    subst h
    exact le_refl _
  | TyPrimitive s0 =>
    intro h
    simp [tyNodes] at h
    subst h
    exact le_refl _
  | TyFunctionPtr f =>
    intro h
    simp [tyNodes] at h
    rcases h with rfl | h
    · exact le_refl _
    · have := tyNodesOfFnPtr_size_le f s h
      simp [tySize]
      omega
  | TyTuple ts =>
    intro h
    simp [tyNodes] at h
    rcases h with rfl | h
    · exact le_refl _
    · have := tyNodesOfTyList_size_le ts s h
      simp [tySize]
      omega
  | TySlice t2 =>
    intro h
    simp [tyNodes] at h
    rcases h with rfl | h
    · exact le_refl _
    · have := tyNodes_size_le t2 s h
      simp [tySize]
      omega
  | TyArray t2 l =>
    intro h
    simp [tyNodes] at h
    rcases h with rfl | h
    · exact le_refl _
    · have := tyNodes_size_le t2 s h
      simp [tySize]
      omega
  | TyImplTrait bs =>
    intro h
    simp [tyNodes] at h
    rcases h with rfl | h
    · exact le_refl _
    · have := tyNodesOfGenericBoundList_size_le bs s h
      simp [tySize]
      omega
  | TyInfer =>
    intro h
    simp [tyNodes] at h
    subst h
    exact le_refl _
  | TyRawPointer m t2 =>
    intro h
    simp [tyNodes] at h
    rcases h with rfl | h
    · exact le_refl _
    · have := tyNodes_size_le t2 s h
      simp [tySize]
      omega
  | TyBorrowedRef l m t2 =>
    intro h
    simp [tyNodes] at h
    rcases h with rfl | h
    · exact le_refl _
    · have := tyNodes_size_le t2 s h
      simp [tySize]
      omega
  | TyQualifiedPath n a s2 tr =>
    intro h
    simp [tyNodes] at h
    rcases h with rfl | h | h | h
    · exact le_refl _
    · have := tyNodesOfGenericArgs_size_le a s h
      simp [tySize]
      omega
    · have := tyNodes_size_le s2 s h
      simp [tySize]
      omega
    · have := tyNodes_size_le tr s h
      simp [tySize]
      omega

theorem tyNodesOfTyOpt_size_le (o : Option Ty) (s : Ty) :
    s ∈ tyNodesOfTyOpt o → tySize s ≤ tySizeOfTyOpt o := by
  cases o with
  | none =>
    intro h
    simp [tyNodesOfTyOpt] at h
  | some t =>
    intro h
    simp only [tyNodesOfTyOpt] at h
    have := tyNodes_size_le t s h
    simpa [tySizeOfTyOpt] using this

theorem tyNodesOfTyList_size_le (ts : List Ty) (s : Ty) :
    s ∈ tyNodesOfTyList ts → tySize s ≤ tySizeOfTyList ts := by
  cases ts with
  | nil =>
    intro h
    simp [tyNodesOfTyList] at h
  | cons t rest =>
    intro h
    simp [tyNodesOfTyList] at h
    rcases h with h | h
    · have := tyNodes_size_le t s h
      simp [tySizeOfTyList]
      omega
    · have := tyNodesOfTyList_size_le rest s h
      simp [tySizeOfTyList]
      omega

theorem tyNodesOfDynTrait_size_le (d : DynTrait) (s : Ty) :
    s ∈ tyNodesOfDynTrait d → tySize s ≤ tySizeOfDynTrait d := by
  cases d with
  | mk traits lt =>
    intro h
    simp only [tyNodesOfDynTrait] at h
    have := tyNodesOfPolyTraitList_size_le traits s h
    simpa [tySizeOfDynTrait] using this

theorem tyNodesOfPolyTrait_size_le (p : PolyTrait) (s : Ty) :
    s ∈ tyNodesOfPolyTrait p → tySize s ≤ tySizeOfPolyTrait p := by
  cases p with
  | mk trait gps =>
    intro h
    simp [tyNodesOfPolyTrait] at h
    rcases h with h | h
    · have := tyNodes_size_le trait s h
      simp [tySizeOfPolyTrait]
      omega
    · have := tyNodesOfGenericParamDefList_size_le gps s h
      simp [tySizeOfPolyTrait]
      omega

theorem tyNodesOfPolyTraitList_size_le (ps : List PolyTrait) (s : Ty) :
    s ∈ tyNodesOfPolyTraitList ps → tySize s ≤ tySizeOfPolyTraitList ps := by
  cases ps with
  | nil =>
    intro h
    simp [tyNodesOfPolyTraitList] at h
  | cons p rest =>
    intro h
    simp [tyNodesOfPolyTraitList] at h
    rcases h with h | h
    · have := tyNodesOfPolyTrait_size_le p s h
      simp [tySizeOfPolyTraitList]
      omega
    · have := tyNodesOfPolyTraitList_size_le rest s h
      simp [tySizeOfPolyTraitList]
      omega

theorem tyNodesOfGenericArgs_size_le (a : GenericArgs) (s : Ty) :
    s ∈ tyNodesOfGenericArgs a → tySize s ≤ tySizeOfGenericArgs a := by
  cases a with
  | GAsAngleBracketed args bindings =>
    intro h
    simp [tyNodesOfGenericArgs] at h
    rcases h with h | h
    · have := tyNodesOfGenericArgList_size_le args s h
      simp [tySizeOfGenericArgs]
      omega
    · have := tyNodesOfTypeBindingList_size_le bindings s h
      simp [tySizeOfGenericArgs]
      omega
  | GAsParenthesized inputs output =>
    intro h
    simp [tyNodesOfGenericArgs] at h
    rcases h with h | h
    · have := tyNodesOfTyList_size_le inputs s h
      simp [tySizeOfGenericArgs]
      omega
    · have := tyNodesOfTyOpt_size_le output s h
      simp [tySizeOfGenericArgs]
      omega

theorem tyNodesOfGenericArgsOpt_size_le (o : Option GenericArgs) (s : Ty) :
    s ∈ tyNodesOfGenericArgsOpt o → tySize s ≤ tySizeOfGenericArgsOpt o := by
  cases o with
  | none =>
    intro h
    simp [tyNodesOfGenericArgsOpt] at h
  | some a =>
    intro h
    simp only [tyNodesOfGenericArgsOpt] at h
    have := tyNodesOfGenericArgs_size_le a s h
    simpa [tySizeOfGenericArgsOpt] using this

theorem tyNodesOfGenericArg_size_le (a : GenericArg) (s : Ty) :
    s ∈ tyNodesOfGenericArg a → tySize s ≤ tySizeOfGenericArg a := by
  cases a with
  | GALifetime s0 =>
    intro h
    simp [tyNodesOfGenericArg] at h
  | GAType t =>
    intro h
    simp only [tyNodesOfGenericArg] at h
    have := tyNodes_size_le t s h
    simpa [tySizeOfGenericArg] using this
  | GAConst c =>
    intro h
    simp only [tyNodesOfGenericArg] at h
    have := tyNodesOfConstant_size_le c s h
    simpa [tySizeOfGenericArg] using this
  | GAInfer =>
    intro h
    simp [tyNodesOfGenericArg] at h

theorem tyNodesOfGenericArgList_size_le (as_ : List GenericArg) (s : Ty) :
    s ∈ tyNodesOfGenericArgList as_ →
      tySize s ≤ tySizeOfGenericArgList as_ := by
  cases as_ with
  | nil =>
    intro h
    simp [tyNodesOfGenericArgList] at h
  | cons a rest =>
    intro h
    simp [tyNodesOfGenericArgList] at h
    rcases h with h | h
    · have := tyNodesOfGenericArg_size_le a s h
      simp [tySizeOfGenericArgList]
      omega
    · have := tyNodesOfGenericArgList_size_le rest s h
      simp [tySizeOfGenericArgList]
      omega

theorem tyNodesOfConstant_size_le (c : Constant) (s : Ty) :
    s ∈ tyNodesOfConstant c → tySize s ≤ tySizeOfConstant c := by
  cases c with
  | mk type e v l =>
    intro h
    simp only [tyNodesOfConstant] at h
    have := tyNodes_size_le type s h
    simpa [tySizeOfConstant] using this

theorem tyNodesOfTypeBinding_size_le (b : TypeBinding) (s : Ty) :
    s ∈ tyNodesOfTypeBinding b → tySize s ≤ tySizeOfTypeBinding b := by
  cases b with
  | mk n args binding =>
    intro h
    simp [tyNodesOfTypeBinding] at h
    rcases h with h | h
    · have := tyNodesOfGenericArgs_size_le args s h
      simp [tySizeOfTypeBinding]
      omega
    · have := tyNodesOfTypeBindingKind_size_le binding s h
      simp [tySizeOfTypeBinding]
      omega

theorem tyNodesOfTypeBindingList_size_le (bs : List TypeBinding) (s : Ty) :
    s ∈ tyNodesOfTypeBindingList bs →
      tySize s ≤ tySizeOfTypeBindingList bs := by
  cases bs with
  | nil =>
    intro h
    simp [tyNodesOfTypeBindingList] at h
  | cons b rest =>
    intro h
    simp [tyNodesOfTypeBindingList] at h
    rcases h with h | h
    · have := tyNodesOfTypeBinding_size_le b s h
      simp [tySizeOfTypeBindingList]
      omega
    · have := tyNodesOfTypeBindingList_size_le rest s h
      simp [tySizeOfTypeBindingList]
      omega

theorem tyNodesOfTypeBindingKind_size_le (k : TypeBindingKind) (s : Ty) :
    s ∈ tyNodesOfTypeBindingKind k →
      tySize s ≤ tySizeOfTypeBindingKind k := by
  cases k with
  | TBKEquality t =>
    intro h
    simp only [tyNodesOfTypeBindingKind] at h
    have := tyNodesOfTerm_size_le t s h
    simpa [tySizeOfTypeBindingKind] using this
  | TBKConstraint bs =>
    intro h
    simp only [tyNodesOfTypeBindingKind] at h
    have := tyNodesOfGenericBoundList_size_le bs s h
    simpa [tySizeOfTypeBindingKind] using this

theorem tyNodesOfTerm_size_le (t : Term) (s : Ty) :
    s ∈ tyNodesOfTerm t → tySize s ≤ tySizeOfTerm t := by
  cases t with
  | TrType ty =>
    intro h
    simp only [tyNodesOfTerm] at h
    have := tyNodes_size_le ty s h
    simpa [tySizeOfTerm] using this
  | TrConstant c =>
    intro h
    simp only [tyNodesOfTerm] at h
    have := tyNodesOfConstant_size_le c s h
    simpa [tySizeOfTerm] using this

theorem tyNodesOfGenericBound_size_le (b : GenericBound) (s : Ty) :
    s ∈ tyNodesOfGenericBound b → tySize s ≤ tySizeOfGenericBound b := by
  cases b with
  | GBTraitBound trait gps m =>
    intro h
    simp [tyNodesOfGenericBound] at h
    rcases h with h | h
    · have := tyNodes_size_le trait s h
      simp [tySizeOfGenericBound]
      omega
    · have := tyNodesOfGenericParamDefList_size_le gps s h
      simp [tySizeOfGenericBound]
      omega
  | GBOutlives s0 =>
    intro h
    simp [tyNodesOfGenericBound] at h

theorem tyNodesOfGenericBoundList_size_le (bs : List GenericBound) (s : Ty) :
    s ∈ tyNodesOfGenericBoundList bs →
      tySize s ≤ tySizeOfGenericBoundList bs := by
  cases bs with
  | nil =>
    intro h
    simp [tyNodesOfGenericBoundList] at h
  | cons b rest =>
    intro h
    simp [tyNodesOfGenericBoundList] at h
    rcases h with h | h
    · have := tyNodesOfGenericBound_size_le b s h
      simp [tySizeOfGenericBoundList]
      omega
    · have := tyNodesOfGenericBoundList_size_le rest s h
      simp [tySizeOfGenericBoundList]
      omega

theorem tyNodesOfGenericParamDef_size_le (p : GenericParamDef) (s : Ty) :
    s ∈ tyNodesOfGenericParamDef p →
      tySize s ≤ tySizeOfGenericParamDef p := by
  cases p with
  | mk n kind =>
    intro h
    simp only [tyNodesOfGenericParamDef] at h
    have := tyNodesOfGenericParamDefKind_size_le kind s h
    simpa [tySizeOfGenericParamDef] using this

theorem tyNodesOfGenericParamDefList_size_le
    (ps : List GenericParamDef) (s : Ty) :
    s ∈ tyNodesOfGenericParamDefList ps →
      tySize s ≤ tySizeOfGenericParamDefList ps := by
  cases ps with
  | nil =>
    intro h
    simp [tyNodesOfGenericParamDefList] at h
  | cons p rest =>
    intro h
    simp [tyNodesOfGenericParamDefList] at h
    rcases h with h | h
    · have := tyNodesOfGenericParamDef_size_le p s h
      simp [tySizeOfGenericParamDefList]
      omega
    · have := tyNodesOfGenericParamDefList_size_le rest s h
      simp [tySizeOfGenericParamDefList]
      omega

theorem tyNodesOfGenericParamDefKind_size_le
    (k : GenericParamDefKind) (s : Ty) :
    s ∈ tyNodesOfGenericParamDefKind k →
      tySize s ≤ tySizeOfGenericParamDefKind k := by
  cases k with
  | GPDKLifetime o =>
    intro h
    simp [tyNodesOfGenericParamDefKind] at h
  | GPDKType bounds default syn =>
    intro h
    simp [tyNodesOfGenericParamDefKind] at h
    rcases h with h | h
    · have := tyNodesOfGenericBoundList_size_le bounds s h
      simp [tySizeOfGenericParamDefKind]
      omega
    · have := tyNodesOfTyOpt_size_le default s h
      simp [tySizeOfGenericParamDefKind]
      omega
  | GPDKConst type default =>
    intro h
    simp only [tyNodesOfGenericParamDefKind] at h
    have := tyNodes_size_le type s h
    simpa [tySizeOfGenericParamDefKind] using this

theorem tyNodesOfWherePredicate_size_le (p : WherePredicate) (s : Ty) :
    s ∈ tyNodesOfWherePredicate p → tySize s ≤ tySizeOfWherePredicate p := by
  cases p with
  | WPBoundPredicate type bounds gps =>
    intro h
    simp [tyNodesOfWherePredicate] at h
    rcases h with h | h | h
    · have := tyNodes_size_le type s h
      simp [tySizeOfWherePredicate]
      omega
    · have := tyNodesOfGenericBoundList_size_le bounds s h
      simp [tySizeOfWherePredicate]
      omega
    · have := tyNodesOfGenericParamDefList_size_le gps s h
      simp [tySizeOfWherePredicate]
      omega
  | WPRegionPredicate l bounds =>
    intro h
    simp only [tyNodesOfWherePredicate] at h
    have := tyNodesOfGenericBoundList_size_le bounds s h
    simpa [tySizeOfWherePredicate] using this
  | WPEqPredicate lhs rhs =>
    intro h
    simp [tyNodesOfWherePredicate] at h
    rcases h with h | h
    · have := tyNodes_size_le lhs s h
      simp [tySizeOfWherePredicate]
      omega
    · have := tyNodesOfTerm_size_le rhs s h
      simp [tySizeOfWherePredicate]
      omega

theorem tyNodesOfWherePredicateList_size_le
    (ps : List WherePredicate) (s : Ty) :
    s ∈ tyNodesOfWherePredicateList ps →
      tySize s ≤ tySizeOfWherePredicateList ps := by
  cases ps with
  | nil =>
    intro h
    simp [tyNodesOfWherePredicateList] at h
  | cons p rest =>
    intro h
    simp [tyNodesOfWherePredicateList] at h
    rcases h with h | h
    · have := tyNodesOfWherePredicate_size_le p s h
      simp [tySizeOfWherePredicateList]
      omega
    · have := tyNodesOfWherePredicateList_size_le rest s h
      simp [tySizeOfWherePredicateList]
      omega

theorem tyNodesOfGenerics_size_le (g : Generics) (s : Ty) :
    s ∈ tyNodesOfGenerics g → tySize s ≤ tySizeOfGenerics g := by
  cases g with
  | mk params wps =>
    intro h
    simp [tyNodesOfGenerics] at h
    rcases h with h | h
    · have := tyNodesOfGenericParamDefList_size_le params s h
      simp [tySizeOfGenerics]
      omega
    · have := tyNodesOfWherePredicateList_size_le wps s h
      simp [tySizeOfGenerics]
      omega

theorem tyNodesOfFnPtr_size_le (f : FnPtr) (s : Ty) :
    s ∈ tyNodesOfFnPtr f → tySize s ≤ tySizeOfFnPtr f := by
  cases f with
  | mk decl gps header =>
    intro h
    simp [tyNodesOfFnPtr] at h
    rcases h with h | h
    · have := tyNodesOfFnDecl_size_le decl s h
      simp [tySizeOfFnPtr]
      omega
    · have := tyNodesOfGenericParamDefList_size_le gps s h
      simp [tySizeOfFnPtr]
      omega

theorem tyNodesOfFnDecl_size_le (d : FnDecl) (s : Ty) :
    s ∈ tyNodesOfFnDecl d → tySize s ≤ tySizeOfFnDecl d := by
  cases d with
  | mk inputs output c =>
    intro h
    simp [tyNodesOfFnDecl] at h
    rcases h with h | h
    · have := tyNodesOfFnInputs_size_le inputs s h
      simp [tySizeOfFnDecl]
      omega
    · have := tyNodesOfTyOpt_size_le output s h
      simp [tySizeOfFnDecl]
      omega

theorem tyNodesOfFnInputs_size_le (inputs : List (String × Ty)) (s : Ty) :
    s ∈ tyNodesOfFnInputs inputs → tySize s ≤ tySizeOfFnInputs inputs := by
  cases inputs with
  | nil =>
    intro h
    simp [tyNodesOfFnInputs] at h
  | cons nt rest =>
    obtain ⟨n, t⟩ := nt
    intro h
    simp [tyNodesOfFnInputs] at h
    rcases h with h | h
    · have := tyNodes_size_le t s h
      simp [tySizeOfFnInputs]
      omega
    · have := tyNodesOfFnInputs_size_le rest s h
      simp [tySizeOfFnInputs]
      omega

end

theorem tySubnodes_size_lt (t s : Ty) :
    s ∈ tySubnodes t → tySize s < tySize t := by
  cases t with
  | TyResolvedPath n i a p =>
    intro h
    simp [tySubnodes, tyNodes] at h
    rcases h with h | h
    · have := tyNodesOfGenericArgsOpt_size_le a s h
      simp [tySize]
      omega
    · have := tyNodesOfGenericBoundList_size_le p s h
      simp [tySize]
      omega
  | TyDynTrait d =>
    intro h
    simp [tySubnodes, tyNodes] at h
    have := tyNodesOfDynTrait_size_le d s h
    simp [tySize]
    omega
  | TyGeneric s0 =>
    intro h
    simp [tySubnodes, tyNodes] at h
  | TyPrimitive s0 =>
    intro h
    simp [tySubnodes, tyNodes] at h
  | TyFunctionPtr f =>
    intro h
    simp [tySubnodes, tyNodes] at h
    have := tyNodesOfFnPtr_size_le f s h
    simp [tySize]
    omega
  | TyTuple ts =>
    intro h
    simp [tySubnodes, tyNodes] at h
    have := tyNodesOfTyList_size_le ts s h
    simp [tySize]
    omega
  | TySlice t2 =>
    intro h
    simp [tySubnodes, tyNodes] at h
    have := tyNodes_size_le t2 s h
    simp [tySize]
    omega
  | TyArray t2 l =>
    intro h
    simp [tySubnodes, tyNodes] at h
    have := tyNodes_size_le t2 s h
    simp [tySize]
    omega
  | TyImplTrait bs =>
    intro h
    simp [tySubnodes, tyNodes] at h
    have := tyNodesOfGenericBoundList_size_le bs s h
    simp [tySize]
    omega
  | TyInfer =>
    intro h
    simp [tySubnodes, tyNodes] at h
  | TyRawPointer m t2 =>
    intro h
    simp [tySubnodes, tyNodes] at h
    have := tyNodes_size_le t2 s h
    simp [tySize]
    omega
  | TyBorrowedRef l m t2 =>
    intro h
    simp [tySubnodes, tyNodes] at h
    have := tyNodes_size_le t2 s h
    simp [tySize]
    omega
  | TyQualifiedPath n a s2 tr =>
    intro h
    simp [tySubnodes, tyNodes] at h
    rcases h with h | h | h
    · have := tyNodesOfGenericArgs_size_le a s h
      simp [tySize]
      omega
    · have := tyNodes_size_le s2 s h
      simp [tySize]
      omega
    · have := tyNodes_size_le tr s h
      simp [tySize]
      omega

/-! # Claim theorems -/

/-- C4: for every crate and every id, `get(id)` returns the full `Item` from
`index` when `index` contains `id`; otherwise the `ItemSummary` from `paths`
when `paths` contains `id`; otherwise `NotFound`. In particular, for every
item in `index`, `get(item.id)` returns that exact item. -/
theorem c4_get_resolution :
    (∀ (c : Crate) (id : Id) (it : Item),
        assocLookup c.index id = some it → c.get id = .item it) ∧
    (∀ (c : Crate) (id : Id) (s : ItemSummary),
        assocLookup c.index id = none → assocLookup c.paths id = some s →
        c.get id = .summary s) ∧
    (∀ (c : Crate) (id : Id),
        assocLookup c.index id = none → assocLookup c.paths id = none →
        c.get id = .NotFound) ∧
    (∀ (c : Crate) (it : Item),
        assocLookup c.index it.id = some it → c.get it.id = .item it) := by
  refine ⟨fun c id it h => ?_, fun c id s h1 h2 => ?_, fun c id h1 h2 => ?_,
    fun c it h => ?_⟩ <;> simp [Crate.get, *]

/-- Witness for C4 on a concrete hand-constructed crate: the item at `"a"`,
the path summary at `"b"`, and `NotFound` at an absent id. -/
theorem c4_get_resolution_witness :
    demoCrate.get "a" = .item ⟨"a", 0, none, none, .VisPublic, none, [], [],
      none, .IEModule ⟨true, [], false⟩⟩ ∧
    demoCrate.get "b" = .summary ⟨1, ["ext", "b"], .Struct⟩ ∧
    demoCrate.get "z" = .NotFound :=
  ⟨c4_get_resolution.1 demoCrate "a" _ rfl,
   c4_get_resolution.2.1 demoCrate "b" _ rfl rfl,
   c4_get_resolution.2.2.1 demoCrate "z" rfl rfl⟩

/-- C5: the type-expression model is a closed union of exactly 13 variants:
every `Ty` has one of the 13 declared shapes, the constructor index is always
below 13, and each of the 13 indices is realized. -/
theorem c5_type_closed_thirteen :
    (∀ t : Ty,
      (∃ name id args pn, t = .TyResolvedPath name id args pn) ∨
      (∃ d, t = .TyDynTrait d) ∨ (∃ s, t = .TyGeneric s) ∨
      (∃ s, t = .TyPrimitive s) ∨ (∃ f, t = .TyFunctionPtr f) ∨
      (∃ ts, t = .TyTuple ts) ∨ (∃ t2, t = .TySlice t2) ∨
      (∃ t2 len, t = .TyArray t2 len) ∨ (∃ bs, t = .TyImplTrait bs) ∨
      t = .TyInfer ∨ (∃ m t2, t = .TyRawPointer m t2) ∨
      (∃ lt m t2, t = .TyBorrowedRef lt m t2) ∨
      (∃ n a s2 tr, t = .TyQualifiedPath n a s2 tr)) ∧
    (∀ t : Ty, t.ctorIdx < 13) ∧
    (∀ i : Nat, i < 13 → ∃ t : Ty, t.ctorIdx = i) := by
  refine ⟨fun t => ?_, fun t => by cases t <;> simp [Ty.ctorIdx], ?_⟩
  · cases t <;> simp
  · intro i hi
    interval_cases i
    · exact ⟨.TyResolvedPath "" "" none [], rfl⟩
    · exact ⟨.TyDynTrait (.mk [] none), rfl⟩
    · exact ⟨.TyGeneric "", rfl⟩
    · exact ⟨.TyPrimitive "", rfl⟩
    · exact ⟨.TyFunctionPtr (.mk (.mk [] none false) []
        ⟨false, false, false, .AbiRust⟩), rfl⟩
    · exact ⟨.TyTuple [], rfl⟩
    · exact ⟨.TySlice .TyInfer, rfl⟩
    · exact ⟨.TyArray .TyInfer "", rfl⟩
    · exact ⟨.TyImplTrait [], rfl⟩
    · exact ⟨.TyInfer, rfl⟩
    · exact ⟨.TyRawPointer false .TyInfer, rfl⟩
    · exact ⟨.TyBorrowedRef none false .TyInfer, rfl⟩
    · exact ⟨.TyQualifiedPath "" (.GAsAngleBracketed [] []) .TyInfer
        .TyInfer, rfl⟩

/-- Witness for C5: index 7 (the array variant) is realized, via the
theorem at the concrete bound `7 < 13`. -/
theorem c5_type_closed_thirteen_witness : ∃ t : Ty, t.ctorIdx = 7 :=
  c5_type_closed_thirteen.2.2 7 (by decide)

/-- C8: a `Struct` payload carries exactly `struct_type` (one of
Plain/Tuple/Unit), `generics`, `fields_stripped`, `fields` and `impls`; an
`Impl` payload carries exactly `isUnsafe`, `generics`,
`provided_trait_methods`, optional `trait`, `for`, `items`, `negative`,
`synthetic` and optional `blanket_impl`. -/
theorem c8_struct_impl_payloads :
    (∀ s : Struct,
      s = ⟨s.struct_type, s.generics, s.fields_stripped, s.fields, s.impls⟩) ∧
    (∀ st : StructType, st = .Plain ∨ st = .Tuple ∨ st = .Unit) ∧
    (∀ i : Impl,
      i = ⟨i.isUnsafe, i.generics, i.provided_trait_methods, i.trait,
        i.«for», i.items, i.negative, i.synthetic, i.blanket_impl⟩) :=
  ⟨fun _ => rfl, fun st => by cases st <;> simp, fun _ => rfl⟩

/-- C9: the `ItemKind` enumeration and the `ItemEnum` discriminant-tag set
differ: `Primitive`, `Keyword`, `ProcAttribute` and `ProcDerive` are
`ItemKind` members with no `ItemEnum` tag, while `PrimitiveType` and
`ProcMacro` are `ItemEnum` tags that are not `ItemKind` members; hence
neither direction of the name correspondence is total, so there is no
tag-preserving bijection. -/
theorem c9_itemkind_itemenum_mismatch :
    (∃ k : ItemKind, k.name = "Primitive") ∧
    (∃ k : ItemKind, k.name = "Keyword") ∧
    (∃ k : ItemKind, k.name = "ProcAttribute") ∧
    (∃ k : ItemKind, k.name = "ProcDerive") ∧
    (∀ e : ItemEnum, e.tag ≠ "Primitive" ∧ e.tag ≠ "Keyword" ∧
      e.tag ≠ "ProcAttribute" ∧ e.tag ≠ "ProcDerive") ∧
    (∃ e : ItemEnum, e.tag = "PrimitiveType") ∧
    (∃ e : ItemEnum, e.tag = "ProcMacro") ∧
    (∀ k : ItemKind, k.name ≠ "PrimitiveType" ∧ k.name ≠ "ProcMacro") ∧
    ¬(∀ k : ItemKind, ∃ e : ItemEnum, e.tag = k.name) ∧
    ¬(∀ e : ItemEnum, ∃ k : ItemKind, k.name = e.tag) := by
  refine ⟨⟨.Primitive, rfl⟩, ⟨.Keyword, rfl⟩, ⟨.ProcAttribute, rfl⟩,
    ⟨.ProcDerive, rfl⟩, fun e => by cases e <;> simp [ItemEnum.tag],
    ⟨.IEPrimitiveType "", rfl⟩, ⟨.IEProcMacro ⟨.Bang, []⟩, rfl⟩,
    fun k => by cases k <;> simp [ItemKind.name], fun hall => ?_,
    fun hall => ?_⟩
  · obtain ⟨e, he⟩ := hall .Primitive
    exact absurd he (by cases e <;> simp [ItemEnum.tag, ItemKind.name])
  · obtain ⟨k, hk⟩ := hall (.IEPrimitiveType "")
    exact absurd hk (by cases k <;> simp [ItemEnum.tag, ItemKind.name])

/-- C10: within each tagged union of the model, distinct variants carry
distinct literal tag strings: two values of the same union with equal tags
belong to the same variant (equal constructor index). -/
theorem c10_tags_discriminate :
    (∀ a b : Visibility, a.tag = b.tag → a.ctorIdx = b.ctorIdx) ∧
    (∀ a b : GenericArgs, a.tag = b.tag → a.ctorIdx = b.ctorIdx) ∧
    (∀ a b : GenericArg, a.tag = b.tag → a.ctorIdx = b.ctorIdx) ∧
    (∀ a b : TypeBindingKind, a.tag = b.tag → a.ctorIdx = b.ctorIdx) ∧
    (∀ a b : ItemEnum, a.tag = b.tag → a.ctorIdx = b.ctorIdx) ∧
    (∀ a b : Variant, a.tag = b.tag → a.ctorIdx = b.ctorIdx) ∧
    (∀ a b : Abi, a.tag = b.tag → a.ctorIdx = b.ctorIdx) ∧
    (∀ a b : GenericParamDefKind, a.tag = b.tag → a.ctorIdx = b.ctorIdx) ∧
    (∀ a b : WherePredicate, a.tag = b.tag → a.ctorIdx = b.ctorIdx) ∧
    (∀ a b : GenericBound, a.tag = b.tag → a.ctorIdx = b.ctorIdx) ∧
    (∀ a b : Term, a.tag = b.tag → a.ctorIdx = b.ctorIdx) ∧
    (∀ a b : Ty, a.tag = b.tag → a.ctorIdx = b.ctorIdx) := by
  have hie : ∀ e : ItemEnum, itemEnumTagIdx e.tag = e.ctorIdx := by
    intro e; cases e <;> rfl
  have hty : ∀ t : Ty, tyTagIdx t.tag = t.ctorIdx := by
    intro t; cases t <;> rfl
  have habi : ∀ a : Abi, abiTagIdx a.tag = a.ctorIdx := by
    intro a; cases a <;> rfl
  refine ⟨?_, ?_, ?_, ?_, ?_, ?_, ?_, ?_, ?_, ?_, ?_, ?_⟩
  · intro a b h
    cases a <;> cases b <;> simp_all [Visibility.tag, Visibility.ctorIdx]
  · intro a b h
    cases a <;> cases b <;> simp_all [GenericArgs.tag, GenericArgs.ctorIdx]
  · intro a b h
    cases a <;> cases b <;> simp_all [GenericArg.tag, GenericArg.ctorIdx]
  · intro a b h
    cases a <;> cases b <;>
      simp_all [TypeBindingKind.tag, TypeBindingKind.ctorIdx]
  · intro a b h
    rw [← hie a, ← hie b, h]
  · intro a b h
    cases a <;> cases b <;> simp_all [Variant.tag, Variant.ctorIdx]
  · intro a b h
    rw [← habi a, ← habi b, h]
  · intro a b h
    cases a <;> cases b <;>
      simp_all [GenericParamDefKind.tag, GenericParamDefKind.ctorIdx]
  · intro a b h
    cases a <;> cases b <;>
      simp_all [WherePredicate.tag, WherePredicate.ctorIdx]
  · intro a b h
    cases a <;> cases b <;> simp_all [GenericBound.tag, GenericBound.ctorIdx]
  · intro a b h
    cases a <;> cases b <;> simp_all [Term.tag, Term.ctorIdx]
  · intro a b h
    rw [← hty a, ← hty b, h]

/-- Witness for C10 at concrete values: two `Ty` values with the tag
`Slice` have the same constructor index. -/
theorem c10_tags_discriminate_witness :
    Ty.ctorIdx (.TySlice .TyInfer) = Ty.ctorIdx (.TySlice (.TyGeneric "T")) :=
  c10_tags_discriminate.2.2.2.2.2.2.2.2.2.2.2
    (.TySlice .TyInfer) (.TySlice (.TyGeneric "T")) rfl

/-- C6: structural traversal of a type expression terminates — the node
count strictly decreases into every proper subnode, so no expression is a
cycle through itself — and the canonical preorder traversal visits every
nested `Type` exactly once (its node list's length is the node count) and
every `Id` reference exactly once in deterministic declaration order
(collecting the per-node ids along the traversal yields exactly `idsOfTy`),
with tuple elements and function inputs visited in order. -/
theorem c6_traversal_contract :
    (∀ t s : Ty, s ∈ tySubnodes t → tySize s < tySize t) ∧
    (∀ t : Ty, t ∉ tySubnodes t) ∧
    (∀ t : Ty, (tyNodes t).length = tySize t) ∧
    (∀ t : Ty, idsOfTy t = joinOwnIds (tyNodes t)) ∧
    (∀ ts : List Ty,
      tyNodes (.TyTuple ts) = .TyTuple ts :: tyNodesOfTyList ts) ∧
    (∀ (t : Ty) (ts : List Ty),
      tyNodesOfTyList (t :: ts) = tyNodes t ++ tyNodesOfTyList ts) ∧
    (∀ (name : String) (t : Ty) (rest : List (String × Ty)),
      tyNodesOfFnInputs ((name, t) :: rest)
        = tyNodes t ++ tyNodesOfFnInputs rest) := by
  refine ⟨tySubnodes_size_lt, fun t hmem => ?_, tyNodes_length, idsOfTy_eq,
    fun ts => rfl, fun t ts => rfl, fun name t rest => rfl⟩
  exact absurd (tySubnodes_size_lt t t hmem) (by omega)

/-- Witness for C6 at a concrete expression: the element of a one-element
tuple is a proper subnode with strictly smaller node count. -/
theorem c6_traversal_contract_witness :
    tySize (.TyGeneric "T") < tySize (.TyTuple [.TyGeneric "T"]) :=
  c6_traversal_contract.1 (.TyTuple [.TyGeneric "T"]) (.TyGeneric "T")
    (by simp [tySubnodes, tyNodes, tyNodesOfTyList])

/-- C1: for every decode input whose `format_version` field equals the
supported constant (17), the decode proceeds past the version check into the
remaining pipeline; for any other integer in that field — whatever every
other field holds — the decode yields `UnsupportedVersion` and no `Crate` is
produced. -/
theorem c1_version_gate :
    (∀ (fields : List (String × Json)) (strict : Bool),
        lookupField fields "format_version" = some (.num FORMAT_VERSION) →
        decode (.obj fields) strict =
          decodeCrateRest ((Json.obj fields).size) fields strict
            FORMAT_VERSION) ∧
    (∀ (fields : List (String × Json)) (strict : Bool) (v : Int),
        lookupField fields "format_version" = some (.num v) →
        v ≠ FORMAT_VERSION →
        decode (.obj fields) strict = .error (.UnsupportedVersion v)) := by
  constructor
  · intro fields strict hlk
    simp [decode, decodeCrate, asObj, reqInt, reqField, hlk, asInt,
      exbind_ok, expure]
  · intro fields strict v hlk hne
    simp [decode, decodeCrate, asObj, reqInt, reqField, hlk, asInt,
      exbind_ok, expure, exthrow, hne]

/-- Witness for C1 on the spec's scenario input: with `format_version` 17
the decode runs the post-version pipeline, and the identical input with
`format_version` 16 yields `UnsupportedVersion 16`. -/
theorem c1_version_gate_witness :
    decode (.obj scenario1Fields) false =
      decodeCrateRest ((Json.obj scenario1Fields).size) scenario1Fields
        false FORMAT_VERSION ∧
    decode (.obj scenario1Fields16) false =
      .error (.UnsupportedVersion 16) :=
  ⟨c1_version_gate.1 scenario1Fields false rfl,
   c1_version_gate.2 scenario1Fields16 false 16 rfl (by decide)⟩

/-- C2: in every successful decode, every nested `Id` reference in any
item's `inner` payload that resolves through neither `index` nor `paths` is
surfaced as a (non-fatal) `DanglingReference` diagnostic; and the spec's
`Impl.for` scenario with the unresolvable id `9:9` produces exactly one
`DanglingReference` diagnostic, referencing `9:9`. -/
theorem c2_dangling_references :
    (∀ (raw : Json) (strict : Bool) (c : Crate) (ds : List DecodeError),
        decode raw strict = .ok (c, ds) →
        ∀ id ∈ refIdsOfIndex c.index,
          assocLookup c.index id = none → assocLookup c.paths id = none →
          .DanglingReference id ∈ ds) ∧
    decode scenario2Raw false =
      .ok (scenario2Crate, [.DanglingReference "9:9"]) ∧
    ([.DanglingReference "9:9"].filter
        (fun e => e = DecodeError.DanglingReference "9:9")).length = 1 := by
  refine ⟨?_, rfl, rfl⟩
  intro raw strict c ds h id hid hidx hpaths
  obtain ⟨-, -, errs, hds⟩ := decode_ok_inv raw strict c ds h
  subst hds
  apply List.mem_append_right
  apply List.mem_map.mpr
  refine ⟨id, ?_, rfl⟩
  simp [danglingIds, List.mem_filter, hid, hidx, hpaths]

/-- Witness for C2, from the dangling-reference scenario: the decoder
surfaces `9:9` in the diagnostics of the scenario decode. -/
theorem c2_dangling_references_witness :
    DecodeError.DanglingReference "9:9" ∈
      ([.DanglingReference "9:9"] : List DecodeError) :=
  c2_dangling_references.1 scenario2Raw false scenario2Crate
    [.DanglingReference "9:9"] rfl "9:9" (by decide) rfl rfl

/-- C3: decoding a discriminant outside a union's closed variant set yields
`UnknownVariant`, never a silent default (shown for `Visibility`, `Type`,
`ItemEnum` and `GenericBound`); within an item's `inner` such an error is
per-item in non-strict mode — the offending item is omitted, the error is
collected, the rest of the index still decodes — and fatal for the whole
decode in strict mode, as the `Wibble` scenario shows end to end. -/
theorem c3_unknown_variant :
    (∀ (fields : List (String × Json)) (tag : String),
        lookupField fields "tag" = some (.str tag) → tag ∉ visibilityTags →
        decodeVisibility (.obj fields) = .error (.UnknownVariant tag)) ∧
    (∀ (fuel : Nat) (fields : List (String × Json)) (tag : String),
        lookupField fields "tag" = some (.str tag) → tag ∉ tyTags →
        decodeTy (fuel + 1) (.obj fields) = .error (.UnknownVariant tag)) ∧
    (∀ (fuel : Nat) (fields : List (String × Json)) (tag : String),
        lookupField fields "tag" = some (.str tag) → tag ∉ itemEnumTags →
        decodeItemEnum fuel (.obj fields) = .error (.UnknownVariant tag)) ∧
    (∀ (fuel : Nat) (fields : List (String × Json)) (tag : String),
        lookupField fields "tag" = some (.str tag) → tag ∉ genericBoundTags →
        decodeGenericBound (fuel + 1) (.obj fields) =
          .error (.UnknownVariant tag)) ∧
    (∀ (fuel : Nat) (entries : List (String × Json)),
        decodeIndexEntries false fuel entries =
          .ok (entries.filterMap (fun kv =>
                 match decodeItem fuel kv.2 with
                 | .ok it => some (kv.1, it)
                 | .error _ => none),
               entries.filterMap (fun kv =>
                 match decodeItem fuel kv.2 with
                 | .ok _ => none
                 | .error e => some e))) ∧
    (∀ (fuel : Nat) (entries : List (String × Json)) (k : String) (v : Json)
        (e : DecodeError), (k, v) ∈ entries →
        decodeItem fuel v = .error e →
        ∃ e2, decodeIndexEntries true fuel entries = .error e2) ∧
    decode scenario3Raw false =
      .ok (⟨"0:0", none, false,
            [("0:0", ⟨"0:0", 0, none, none, .VisPublic, none, [], [], none,
              .IEModule ⟨true, ["0:1"], false⟩⟩)], [], [], 17⟩,
           [.UnknownVariant "Wibble", .DanglingReference "0:1"]) ∧
    decode scenario3Raw true = .error (.UnknownVariant "Wibble") := by
  refine ⟨?_, ?_, ?_, ?_, ?_, ?_, rfl, rfl⟩
  · intro fields tag hlk hmem
    simp [visibilityTags] at hmem
    obtain ⟨h1, h2, h3, h4⟩ := hmem
    simp [decodeVisibility, asObj, reqStr, reqField, hlk, asStr, exbind_ok,
      expure]
    first
    | rfl
    | (split <;> simp_all [exthrow])
  · intro fuel fields tag hlk hmem
    simp [tyTags] at hmem
    simp [decodeTy, asObj, reqStr, reqField, hlk, asStr, exbind_ok, expure]
    first
    | rfl
    | (split <;> simp_all [exthrow])
  · intro fuel fields tag hlk hmem
    simp [itemEnumTags] at hmem
    simp [decodeItemEnum, asObj, reqStr, reqField, hlk, asStr, exbind_ok,
      expure]
    first
    | rfl
    | (split <;> simp_all [exthrow])
  · intro fuel fields tag hlk hmem
    simp [genericBoundTags] at hmem
    simp [decodeGenericBound, asObj, reqStr, reqField, hlk, asStr,
      exbind_ok, expure]
    first
    | rfl
    | (split <;> simp_all [exthrow])
  · intro fuel entries
    induction entries with
    | nil => simp [decodeIndexEntries, expure]
    | cons kv rest ih =>
      cases hdec : decodeItem fuel kv.2 <;>
        simp [decodeIndexEntries, hdec, ih, exbind_ok, expure,
          List.filterMap_cons]
  · intro fuel entries k v e hmem hdec
    induction entries with
    | nil => cases hmem
    | cons kv rest ih =>
      cases hmem with
      | head =>
        exact ⟨e, by simp [decodeIndexEntries, hdec]⟩
      | tail _ hmem2 =>
        obtain ⟨e2, he2⟩ := ih hmem2
        cases hdec0 : decodeItem fuel kv.2 with
        | ok it => exact ⟨e2, by simp [decodeIndexEntries, hdec0, he2,
            exbind_err, exbind_ok]⟩
        | error e3 => exact ⟨e3, by simp [decodeIndexEntries, hdec0]⟩

/-- Witness for C3 at a concrete unknown discriminant: `Wibble` is rejected
as `UnknownVariant` by the `Visibility` and item-payload decoders. -/
theorem c3_unknown_variant_witness :
    decodeVisibility (.obj [("tag", .str "Wibble")]) =
      .error (.UnknownVariant "Wibble") ∧
    decodeItemEnum 5 (.obj [("tag", .str "Wibble")]) =
      .error (.UnknownVariant "Wibble") :=
  ⟨c3_unknown_variant.1 [("tag", .str "Wibble")] "Wibble" rfl (by decide),
   c3_unknown_variant.2.2.1 5 [("tag", .str "Wibble")] "Wibble" rfl
     (by decide)⟩

/-- C7: every `Crate` produced by a successful decode, when encoded back to
the wire format and re-decoded, yields the structurally equal `Crate` (the
same Lean value: equal field-for-field, order preserved for sequences, equal
key sets for mappings). -/
theorem c7_round_trip (raw : Json) (strict : Bool) (c : Crate)
    (ds : List DecodeError) (h : decode raw strict = .ok (c, ds)) :
    decode (encCrate c) false =
      .ok (c, (danglingIds c.index c.paths).map .DanglingReference) := by
  obtain ⟨hv, hr, -⟩ := decode_ok_inv raw strict c ds h
  exact rtCrate c hv hr

/-- Witness for C7: re-encoding and re-decoding the crate decoded from the
spec's success scenario yields that exact crate again. -/
theorem c7_round_trip_witness :
    decode (encCrate scenario1Crate) false =
      .ok (scenario1Crate,
        (danglingIds scenario1Crate.index scenario1Crate.paths).map
          .DanglingReference) :=
  c7_round_trip (.obj scenario1Fields) false scenario1Crate [] rfl

end Rustdoc
